import Mathlib

/-! saptune staging: registry, diff engine and release

Shallow embedding of `actions/stagingacts.go`.  Go maps are association lists
with pairwise distinct keys, the process-wide `stgFiles` registry is passed
explicitly, and the operating system (stat, remove, rename) together with the
helpers of other packages is a record of functions over an abstract
file-system state.
-/

namespace Saptune

/-! ## Go maps -/

/-- Rebinds `k` to `v` in an association list: the binding of `k` is replaced in
place when there is one, and appended otherwise (Go `m[k] = v`). -/
def insertEntry {V : Type} (k : String) (v : V) : List (String × V) → List (String × V)
  | [] => [(k, v)]
  | e :: t => if e.1 = k then (k, v) :: t else e :: insertEntry k v t

/-- Value bound to `k` in an association list, if any. -/
def lookupEntry {V : Type} (k : String) : List (String × V) → Option V
  | [] => none
  | e :: t => if e.1 = k then some e.2 else lookupEntry k t

theorem keys_insertEntry {V : Type} (k : String) (v : V) (l : List (String × V)) :
    (insertEntry k v l).map Prod.fst
      = if k ∈ l.map Prod.fst then l.map Prod.fst else l.map Prod.fst ++ [k] := by
  induction l with
  | nil => simp [insertEntry]
  | cons e t ih =>
    by_cases h : e.1 = k
    · simp [insertEntry, h]
    · have h2 : ¬ k = e.1 := fun h3 => h h3.symm
      simp only [insertEntry, h, if_false, List.map_cons, ih, List.mem_cons, h2, false_or]
      split <;> simp

theorem nodup_insertEntry {V : Type} (k : String) (v : V) (l : List (String × V))
    (h : (l.map Prod.fst).Nodup) : ((insertEntry k v l).map Prod.fst).Nodup := by
  rw [keys_insertEntry]
  split
  · exact h
  · rename_i hk
    rw [List.nodup_append]
    refine ⟨h, List.nodup_singleton k, ?_⟩
    intro a ha hb
    simp only [List.mem_singleton] at hb
    exact hk (hb ▸ ha)

/-- A Go `map[string]V`: a finite set of bindings in which every key occurs
once.  A `range` loop visits `entries` from left to right; Go fixes no
iteration order, and every order is a value of this type. -/
structure GoMap (V : Type) where
  entries : List (String × V)
  nodup : (entries.map Prod.fst).Nodup

namespace GoMap

/-- The map `make(map[string]V)`. -/
def empty {V : Type} : GoMap V := ⟨[], List.nodup_nil⟩

/-- Go `m[k] = v`. -/
def insert {V : Type} (m : GoMap V) (k : String) (v : V) : GoMap V :=
  ⟨insertEntry k v m.entries, nodup_insertEntry k v m.entries m.nodup⟩

/-- Go `v, ok := m[k]` as an option. -/
def lookup {V : Type} (m : GoMap V) (k : String) : Option V := lookupEntry k m.entries

/-- Keys of the map, in iteration order. -/
def keys {V : Type} (m : GoMap V) : List String := m.entries.map Prod.fst

/-- Go `len(m)`. -/
def size {V : Type} (m : GoMap V) : Nat := m.entries.length

/-- Go `m[k]` on a `map[string]string`: the empty string when `k` is unbound. -/
def get (m : GoMap String) (k : String) : String := (m.lookup k).getD ""

/-- Go `m[k]` on a map of maps: the nil (empty) map when `k` is unbound. -/
def getMap {V : Type} (m : GoMap (GoMap V)) (k : String) : GoMap V := (m.lookup k).getD empty

/-- Go `m[k]` on a map of slices: the nil slice when `k` is unbound. -/
def getList {V : Type} (m : GoMap (List V)) (k : String) : List V := (m.lookup k).getD []

end GoMap

/-! ## Data model of `stagingacts.go` -/

/-- The Go struct `stageFiles`. -/
structure stageFiles where
  AllStageFiles : List String
  StageAttributes : GoMap (GoMap String)

/-- The Go expression `stgFiles.StageAttributes[name][key]`. -/
def stageFiles.attr (stgFiles : stageFiles) (name key : String) : String :=
  (stgFiles.StageAttributes.getMap name).get key

/-- The Go struct `stageComparison`. -/
structure stageComparison where
  FieldName : String
  stgVal : String
  wrkVal : String
  MatchExpectation : Bool
  deriving DecidableEq, Repr

/-! ## `compareStageFields` -/

/-- Loop body of `for Key, workValue := range work` for a deleted bundle. -/
def deletedStep (acc : Bool × GoMap stageComparison) (e : String × String) :
    Bool × GoMap stageComparison :=
  (false, acc.2.insert e.1 ⟨e.1, "-", e.2, false⟩)

/-- Loop body of `for Key, stageValue := range stage` for a new bundle. -/
def newStep (acc : Bool × GoMap stageComparison) (e : String × String) :
    Bool × GoMap stageComparison :=
  (false, acc.2.insert e.1 ⟨e.1, e.2, "-", false⟩)

/-- Loop body of the first loop for a changed bundle ("check for deleted
parameter in staging Note"): `if stage[Key] != "" { continue }`. -/
def removedStep (stage : GoMap String) (acc : Bool × GoMap stageComparison)
    (e : String × String) : Bool × GoMap stageComparison :=
  if stage.get e.1 ≠ "" then acc
  else (false, acc.2.insert e.1 ⟨e.1, "-", e.2, false⟩)

/-- Loop body of the second loop for a changed bundle.  `CompareJSValue` is
`note.CompareJSValue`, which returns the two normalised values and the match
flag. -/
def changedStep (CompareJSValue : String → String → String → String × String × Bool)
    (work : GoMap String) (acc : Bool × GoMap stageComparison)
    (e : String × String) : Bool × GoMap stageComparison :=
  let workValue := work.get e.1
  let r := CompareJSValue e.2 workValue ""
  let stageValueJS := r.1
  let workValueJS := r.2.1
  let isMatch := r.2.2
  if !isMatch then
    let workValueJS := if workValueJS = "" then "-" else workValueJS
    (isMatch, acc.2.insert e.1 ⟨e.1, stageValueJS, workValueJS, isMatch⟩)
  else acc

/-- The Go function `compareStageFields`: returns `(allMatch, comparisons)`. -/
def compareStageFields (CompareJSValue : String → String → String → String × String × Bool)
    (stgFiles : stageFiles) (sName : String) (stage work : GoMap String) :
    Bool × GoMap stageComparison :=
  let start : Bool × GoMap stageComparison := (true, GoMap.empty)
  if stgFiles.attr sName "deleted" = "true" then
    work.entries.foldl deletedStep start
  else if stgFiles.attr sName "new" = "true" then
    stage.entries.foldl newStep start
  else
    stage.entries.foldl (changedStep CompareJSValue work)
      (work.entries.foldl (removedStep stage) start)

/-! ## Strings -/

/-- Byte-wise `<=` of Go strings, on the characters (UTF-8 keeps the order of
the code points). -/
def leChars : List Char → List Char → Bool
  | [], _ => true
  | _ :: _, [] => false
  | a :: s, b :: t =>
    if a.toNat < b.toNat then true else if b.toNat < a.toNat then false else leChars s t

/-- Go `sort.Strings`. -/
def sortStrings (l : List String) : List String :=
  l.insertionSort (fun a b => leChars a.data b.data = true)

/-- White space as `strings.TrimSpace` sees it. -/
def isSpace (c : Char) : Bool :=
  c = ' ' || c = '\t' || c = '\n' || c = '\r' || c.toNat = 11 || c.toNat = 12
    || c.toNat = 0x85 || c.toNat = 0xA0

/-- Go `strings.TrimSpace`. -/
def TrimSpace (s : String) : String :=
  String.mk ((s.data.dropWhile isSpace).reverse.dropWhile isSpace).reverse

/-- Splits at every comma; `cur` holds the reversed field being read. -/
def splitCommaAux : List Char → List Char → List String
  | [], cur => [String.mk cur.reverse]
  | c :: t, cur =>
    if c = ',' then String.mk cur.reverse :: splitCommaAux t [] else splitCommaAux t (c :: cur)

/-- Go `strings.Split(s, ",")`. -/
def splitComma (s : String) : List String := splitCommaAux s.data []

/-! ## Operating system and collaborators of other packages -/

/-- What the code reads from the error of an `os.Stat` call: `err == nil`,
`os.IsNotExist(err)`, or any other error. -/
inductive StatResult
  | found
  | notExist
  | otherError
  deriving DecidableEq, Repr

/-- The error of an `os.Stat` call as a Go `error` (`none` is `nil`). -/
def StatResult.err (r : StatResult) (path : String) : Option String :=
  match r with
  | StatResult.found => none
  | StatResult.notExist => some ("stat " ++ path ++ ": no such file or directory")
  | StatResult.otherError => some ("stat " ++ path ++ ": permission denied")

/-- A system call issued by the process. -/
inductive Syscall
  | stat (path : String)
  | remove (path : String)
  | rename (src dst : String)
  deriving DecidableEq, Repr

/-- A line handed to `system.InfoLog` or `system.ErrorLog`. -/
inductive LogEntry
  | info (msg : String)
  | error (msg : String)
  deriving DecidableEq, Repr

/-- The Go struct `txtparser.INIEntry`, the fields read by the staging actions. -/
structure INIEntry where
  Section : String
  Key : String
  Value : String
  deriving DecidableEq, Repr

/-- The Go struct `app.App`, the fields read by the staging actions. -/
structure App where
  TuneForSolutions : List String
  AllSolutions : GoMap (List String)

/-- Everything `stagingacts.go` calls outside of itself, over a file-system
state `σ`.  A Go `error` is an `Option String`, `none` being `nil`. -/
structure Env (σ : Type) where
  /-- `os.Stat`. -/
  Stat : σ → String → StatResult
  /-- `os.Remove`: the error and the file system afterwards. -/
  Remove : σ → String → Option String × σ
  /-- `os.Rename`: the error and the file system afterwards. -/
  Rename : σ → String → String → Option String × σ
  /-- `txtparser.GetINIFileVersionSectionEntry`. -/
  GetINIFileVersionSectionEntry : σ → String → String → String
  /-- `txtparser.ParseINIFile`: the `AllValues` of the parsed file, or `none` when
  the call returns an error. -/
  ParseINIFile : σ → String → Option (List INIEntry)
  /-- `solution.GetSolutionDefintion`: architecture, then solution name, then
  the identifiers the solution requires. -/
  GetSolutionDefintion : σ → String → GoMap (GoMap (List String))
  /-- `system.GetSolutionSelector`. -/
  GetSolutionSelector : String
  /-- `getovFile`, of another file of the package. -/
  getovFile : σ → String → String → String × Bool
  /-- `readYesNo`, of another file of the package: the answer, and the input
  left on the reader. -/
  readYesNo : String → List String → Bool × List String
  /-- `(*app.App).IsNoteApplied`. -/
  IsNoteApplied : σ → App → String → String × Bool
  /-- `(*app.App).PositionInNoteApplyOrder`. -/
  PositionInNoteApplyOrder : App → String → Int
  /-- The package variable `stagingOptions`: identifier to `Name()` of the note. -/
  stagingOptions : GoMap String
  /-- Usage text written by `PrintHelpAndExit`. -/
  helpText : String
  StagingSheets : String
  WorkingArea : String
  PackageArea : String
  OverrideTuningSheets : String

/-- Go `stagingOptions.GetSortedIDs()`: the identifiers of the staging area,
sorted. -/
def Env.GetSortedIDs {σ : Type} (E : Env σ) : List String := sortStrings E.stagingOptions.keys

/-- State of the running process. -/
structure Proc (σ : Type) where
  /-- The file system. -/
  fs : σ
  /-- System calls issued so far, oldest first. -/
  calls : List Syscall
  /-- Lines logged so far, oldest first. -/
  log : List LogEntry
  /-- What has been written to the writer, oldest first. -/
  out : List String
  /-- What is still to be read from the reader. -/
  stdin : List String
  /-- Exit code, once the process has terminated. -/
  exit : Option Nat

namespace Proc

/-- Records a system call. -/
def call {σ : Type} (p : Proc σ) (c : Syscall) : Proc σ := { p with calls := p.calls ++ [c] }

/-- Go `system.InfoLog`. -/
def InfoLog {σ : Type} (p : Proc σ) (msg : String) : Proc σ :=
  { p with log := p.log ++ [LogEntry.info msg] }

/-- Go `system.ErrorLog`. -/
def ErrorLog {σ : Type} (p : Proc σ) (msg : String) : Proc σ :=
  { p with log := p.log ++ [LogEntry.error msg] }

/-- Go `fmt.Fprintf(writer, ...)` with the formatted text. -/
def write {σ : Type} (p : Proc σ) (text : String) : Proc σ := { p with out := p.out ++ [text] }

/-- Modelled from the spec: `system.ErrorExit` is not among the sources; fatal
errors terminate the process immediately after reporting.  The message is
logged when there is one, and the process ends with `code`. -/
def ErrorExit {σ : Type} (p : Proc σ) (msg : String) (code : Nat) : Proc σ :=
  let p := if msg = "" then p else p.ErrorLog msg
  { p with exit := some code }

end Proc

/-- The freshly started process on file system `fs` with `stdin` on its reader. -/
def Proc.start {σ : Type} (fs : σ) (stdin : List String) : Proc σ :=
  ⟨fs, [], [], [], stdin, none⟩

/-! ## `collectStageFileInfo` -/

/-- The part of `collectStageFileInfo` that computes `noteInSols`. -/
def noteInSolutions (tuneApp : App) (stageName : String) : String :=
  (sortStrings tuneApp.AllSolutions.keys).foldl (fun noteInSols sol =>
    (tuneApp.AllSolutions.getList sol).foldl (fun noteInSols noteID =>
      if stageName = noteID then
        if noteInSols.length = 0 then sol else noteInSols ++ ", " ++ sol
      else noteInSols) noteInSols) ""

/-- The section "get Note Description and setup absolute filenames" of the loop
body of `collectStageFileInfo`, up to the enabled solution. -/
def collectNames {σ : Type} (E : Env σ) (fs : σ) (tuneApp : App) (stageName : String) :
    GoMap String :=
  let stageMap : GoMap String := GoMap.empty
  let name := E.stagingOptions.get stageName
  let stagingFile := E.StagingSheets ++ "/" ++ stageName
  let workingFile := E.WorkingArea ++ "notes/" ++ stageName
  let packageFile := E.PackageArea ++ "notes/" ++ stageName
  let name := if stageName = "solutions" ∧ name = ""
    then "Definition of saptune solutions\n\t\t\tVersion 1" else name
  let workingFile := if stageName = "solutions" then E.WorkingArea ++ stageName else workingFile
  let packageFile := if stageName = "solutions" then E.PackageArea ++ stageName else packageFile
  let stageMap := stageMap.insert "desc" name
  let stageMap := stageMap.insert "version"
    (E.GetINIFileVersionSectionEntry fs stagingFile "version")
  let stageMap := stageMap.insert "date" (E.GetINIFileVersionSectionEntry fs stagingFile "date")
  let stageMap := stageMap.insert "wfilename" workingFile
  let stageMap := stageMap.insert "pfilename" packageFile
  let stageMap := stageMap.insert "sfilename" stagingFile
  if tuneApp.TuneForSolutions.length > 0
  then stageMap.insert "enabledSol" (tuneApp.TuneForSolutions.headD "") else stageMap

/-- The section "get flags" of the loop body of `collectStageFileInfo`;
`stageMap` holds the file names already. -/
def collectFlags {σ : Type} (E : Env σ) (fs : σ) (stageMap : GoMap String) : GoMap String :=
  let workingFile := stageMap.get "wfilename"
  let packageFile := stageMap.get "pfilename"
  let stageMap := stageMap.insert "new" "false"
  let stageMap := stageMap.insert "deleted" "false"
  let stageMap := stageMap.insert "updated" "true"
  match E.Stat fs workingFile with
  | StatResult.notExist => (stageMap.insert "new" "true").insert "updated" "false"
  | StatResult.found =>
    if E.Stat fs packageFile = StatResult.notExist
    then (stageMap.insert "deleted" "true").insert "updated" "false"
    else stageMap
  | StatResult.otherError => stageMap

/-- The rest of the loop body of `collectStageFileInfo`: override file, applied,
enabled, solutions the bundle is part of. -/
def collectStatus {σ : Type} (E : Env σ) (fs : σ) (tuneApp : App) (stageName : String)
    (stageMap : GoMap String) : GoMap String :=
  let stageMap := stageMap.insert "override" "false"
  let stageMap := if (E.getovFile fs stageName E.OverrideTuningSheets).2
    then stageMap.insert "override" "true" else stageMap
  let stageMap := stageMap.insert "applied" "false"
  let stageMap := if (E.IsNoteApplied fs tuneApp stageName).2
    then stageMap.insert "applied" "true" else stageMap
  let stageMap := stageMap.insert "enabled" "true"
  let stageMap := if E.PositionInNoteApplyOrder tuneApp stageName < 0
    then stageMap.insert "enabled" "false" else stageMap
  stageMap.insert "inSolution" (noteInSolutions tuneApp stageName)

/-- Body of the loop of `collectStageFileInfo`: the attribute map of one
bundle. -/
def collectStageMap {σ : Type} (E : Env σ) (fs : σ) (tuneApp : App) (stageName : String) :
    GoMap String :=
  collectStatus E fs tuneApp stageName (collectFlags E fs (collectNames E fs tuneApp stageName))

/-- The Go function `collectStageFileInfo`. -/
def collectStageFileInfo {σ : Type} (E : Env σ) (fs : σ) (tuneApp : App) : stageFiles :=
  E.GetSortedIDs.foldl (fun stageConf stageName =>
    { AllStageFiles := stageConf.AllStageFiles ++ [stageName]
      StageAttributes :=
        stageConf.StageAttributes.insert stageName (collectStageMap E fs tuneApp stageName) })
    { AllStageFiles := [], StageAttributes := GoMap.empty }

/-! ## `mvStageToWork` -/

/-- The removal branch of `mvStageToWork`: "in working, but not in packaging,
delete from working and staging". -/
def removeDeleted {σ : Type} (E : Env σ) (stageName stagingFile workingFile : String)
    (p : Proc σ) : Option String × Proc σ :=
  let errs : List String := []
  let r := E.Remove p.fs workingFile
  let p := { p.call (Syscall.remove workingFile) with fs := r.2 }
  let s : List String × Proc σ :=
    match r.1 with
    | some rerr =>
      (errs ++ [rerr], p.ErrorLog ("Problems during removal of '" ++ stageName
        ++ "' from working area: " ++ rerr))
    | none => (errs, p)
  let errs := s.1
  let p := s.2
  let r := E.Remove p.fs stagingFile
  let p := { p.call (Syscall.remove stagingFile) with fs := r.2 }
  let s : List String × Proc σ :=
    match r.1 with
    | some rerr =>
      (errs ++ [rerr], p.ErrorLog ("Problems during removal of '" ++ stageName
        ++ "' from staging area: " ++ rerr))
    | none => (errs, p)
  let errs := s.1
  let p := s.2
  if errs.length ≠ 0 then
    (some ("Problems during removal of deleted Note '" ++ stageName ++ "'"), p)
  else (none, p)

/-- The move branch of `mvStageToWork`: "move new or changed/updated
note/solution from staging to working area". -/
def moveStaged {σ : Type} (E : Env σ) (stageName stagingFile workingFile : String)
    (p : Proc σ) : Option String × Proc σ :=
  let r := E.Rename p.fs stagingFile workingFile
  let p := { p.call (Syscall.rename stagingFile workingFile) with fs := r.2 }
  match r.1 with
  | some err =>
    (some err, p.ErrorLog ("Problems during move of '" ++ stageName
      ++ "' from staging to working area: " ++ err))
  | none => (none, p)

/-- The Go function `mvStageToWork`: the returned error and the process
afterwards. -/
def mvStageToWork {σ : Type} (E : Env σ) (stgFiles : stageFiles) (stageName : String)
    (p : Proc σ) : Option String × Proc σ :=
  let stagingFile := stgFiles.attr stageName "sfilename"
  let workingFile := stgFiles.attr stageName "wfilename"
  let packageFile := stgFiles.attr stageName "pfilename"
  let wstat := E.Stat p.fs workingFile
  let p := p.call (Syscall.stat workingFile)
  if wstat = StatResult.found then
    let pstat := E.Stat p.fs packageFile
    let p := p.call (Syscall.stat packageFile)
    if pstat = StatResult.notExist then
      removeDeleted E stageName stagingFile workingFile p
    else moveStaged E stageName stagingFile workingFile p
  else moveStaged E stageName stagingFile workingFile p

/-! ## Analysis -/

/-- Go `PrintHelpAndExit`, of another file of the package: writes the usage
text and ends the process with `code`. -/
def PrintHelpAndExit {σ : Type} (E : Env σ) (p : Proc σ) (code : Nat) : Proc σ :=
  (p.write E.helpText).ErrorExit "" code

/-- The flag loop of `showAnalysis`: the first of "deleted", "updated", "new"
whose attribute is "true", or the empty string. -/
def stageFlag (stgFiles : stageFiles) (stageName : String) : String :=
  match ["deleted", "updated", "new"].find? (fun f => stgFiles.attr stageName f = "true") with
  | some f => f
  | none => ""

/-- The Go function `printSolAnalysis`: the texts it writes, in order. -/
def printSolAnalysis (stgFiles : stageFiles) (stageName txtLead : String)
    (stageSols : GoMap (List String)) : List String :=
  let txtSolEnabled := fun (sol : String) =>
    txtLead ++ "Solution '" ++ sol ++ "' is enabled and must be re-applied.\n"
  let txtRequiredNote := fun (sol stgName : String) =>
    txtLead ++ "Solution '" ++ sol ++ "' requires releasing of '" ++ stgName
      ++ "' or it breaks!\n"
  let txtDelSolEnabled := fun (sol : String) =>
    txtLead ++ "Solution '" ++ sol ++ "' is currently enabled, but now deleted. Must be reverted.\n"
  let sols := sortStrings stageSols.keys
  let r : List String × Nat := sols.foldl (fun (acc : List String × Nat) sol =>
    let acc : List String × Nat :=
      if sol = stgFiles.attr stageName "enabledSol"
      then (acc.1 ++ [txtSolEnabled sol], acc.2 + 1) else acc
    (stageSols.getList sol).foldl (fun (acc : List String × Nat) noteID =>
      stgFiles.AllStageFiles.foldl (fun (acc : List String × Nat) stgName =>
        if stgName = noteID then (acc.1 ++ [txtRequiredNote sol stgName], acc.2) else acc)
        acc) acc) ([], 0)
  if stgFiles.attr stageName "enabledSol" ≠ "" ∧ r.2 = 0
  then r.1 ++ [txtDelSolEnabled (stgFiles.attr stageName "enabledSol")] else r.1

/-- The Go function `printNoteAnalysis`: the texts it writes, in order. -/
def printNoteAnalysis (stgFiles : stageFiles) (stageName txtLead flag : String) :
    List String :=
  let deleted : Bool := flag = "deleted"
  let txtOverrideExists :=
    if deleted then txtLead ++ "Override file exists and can be deleted.\n"
    else txtLead ++ "Override file exists and might need adjustments.\n"
  let txtNoteEnabled :=
    if deleted then txtLead ++ "Note is enabled and must be reverted.\n"
    else txtLead ++ "Note is enabled and must be reapplied.\n"
  let txtNoteNotEnabled := txtLead ++ "Note is not enabled, no action required.\n"
  let txtSolEnabled := fun (sol : String) =>
    if deleted then txtLead ++ "Note is part of the currently enabled solution '" ++ sol
      ++ "'. Release would break the solution!\n"
    else txtLead ++ "Note is part of the currently enabled solution '" ++ sol ++ "'.\n"
  let txtSolNotEnabled := fun (sol : String) =>
    if deleted then txtLead ++ "Note is part of the not-enabled solution(s) '" ++ sol
      ++ "'. Release would break the solution(s)!\n"
    else txtLead ++ "Note is part of the not-enabled solution(s) '" ++ sol ++ "'\n"
  let out : List String := if deleted then ["Deletion of " ++ stageName ++ "\n"] else []
  let out := if stgFiles.attr stageName "override" = "true"
    then out ++ [txtOverrideExists] else out
  let out :=
    if flag ≠ "new" then
      if stgFiles.attr stageName "applied" = "true" then out ++ [txtNoteEnabled]
      else out ++ [txtNoteNotEnabled]
    else out
  if stgFiles.attr stageName "inSolution" ≠ "" then
    (splitComma (stgFiles.attr stageName "inSolution")).foldl (fun out sol =>
      let sol := TrimSpace sol
      if sol = stgFiles.attr stageName "enabledSol" then out ++ [txtSolEnabled sol]
      else out ++ [txtSolNotEnabled sol]) out
  else out

/-- The Go function `showAnalysis`. -/
def showAnalysis {σ : Type} (E : Env σ) (stgFiles : stageFiles) (stageName : String)
    (p : Proc σ) : Proc σ :=
  if stageName = "" then PrintHelpAndExit E p 0
  else
    let txtLead := "    --> "
    let vers := stgFiles.attr stageName "version"
    let date := stgFiles.attr stageName "date"
    let flag := stageFlag stgFiles stageName
    let p := if flag ≠ "deleted"
      then p.write ("Release of " ++ stageName ++ " Version " ++ vers ++ " (" ++ date ++ ")\n")
      else p
    if stageName = "solutions" then
      let stgSols := E.GetSolutionDefintion p.fs (stgFiles.attr stageName "sfilename")
      match stgSols.lookup E.GetSolutionSelector with
      | none =>
        -- the call names no exit code: 1 is the code `system.ErrorExit` falls back to
        p.ErrorExit ("No solution definition available for system architecture '"
          ++ E.GetSolutionSelector ++ "'.") 1
      | some stageSols =>
        { p with out := p.out ++ printSolAnalysis stgFiles stageName txtLead stageSols }
    else
      { p with out := p.out ++ printNoteAnalysis stgFiles stageName txtLead flag }

/-! ## `stagingActionRelease` -/

/-- The loop `for _, stageName := range stgFiles.AllStageFiles { showAnalysis(...) }`;
nothing runs once the process has terminated. -/
def showAnalysisAll {σ : Type} (E : Env σ) (stgFiles : stageFiles) (p : Proc σ) : Proc σ :=
  stgFiles.AllStageFiles.foldl
    (fun p stageName => if p.exit.isSome then p else showAnalysis E stgFiles stageName p) p

/-- The confirmation `readYesNo(txtConfirm, reader, writer)`: the answer and the
process with the consumed input gone. -/
def confirmRelease {σ : Type} (E : Env σ) (p : Proc σ) : Bool × Proc σ :=
  let a := E.readYesNo "Releasing is irreversible! Are you sure" p.stdin
  (a.1, { p with stdin := a.2 })

/-- First statement of the body of the release loop: the presence check of the
staged file, `if _, err := os.Stat(stagingFile); err != nil { ... }`. -/
def checkStaged {σ : Type} (E : Env σ) (stgFiles : stageFiles) (stageName : String)
    (s : List String × Proc σ) : List String × Proc σ :=
  let errs := s.1
  let p := s.2
  let stagingFile := stgFiles.attr stageName "sfilename"
  let st := E.Stat p.fs stagingFile
  let p := p.call (Syscall.stat stagingFile)
  match st.err stagingFile with
  | some err =>
    (errs ++ [err], p.ErrorLog ("file '" ++ stagingFile
      ++ "' not found in staging area, nothing to do, skipping ..."))
  | none => (errs, p)

/-- Body of the release loop of the "all" case, on `(errs, process)`. -/
def releaseStep {σ : Type} (E : Env σ) (stgFiles : stageFiles) (s : List String × Proc σ)
    (stageName : String) : List String × Proc σ :=
  let s := checkStaged E stgFiles stageName s
  let errs := s.1
  let stageVers := stgFiles.attr stageName "version"
  let stageDate := stgFiles.attr stageName "date"
  let r := mvStageToWork E stgFiles stageName s.2
  match r.1 with
  | some err => (errs ++ [err], r.2)
  | none =>
    (errs, r.2.InfoLog (stageName ++ " Version " ++ stageVers ++ " (" ++ stageDate
      ++ ") released"))

/-- The case "all" of `stagingActionRelease`. -/
def releaseAll {σ : Type} (E : Env σ) (stgFiles : stageFiles) (p : Proc σ) : Proc σ :=
  let p := showAnalysisAll E stgFiles p
  if p.exit.isSome then p
  else
    let a := confirmRelease E p
    if !a.1 then a.2.ErrorExit "" 0
    else
      let errs : List String := []
      let r := stgFiles.AllStageFiles.foldl (releaseStep E stgFiles) (errs, a.2)
      if r.1.length ≠ 0 then r.2.ErrorExit "" 126 else r.2

/-- The default case of `stagingActionRelease`: one named bundle. -/
def releaseOne {σ : Type} (E : Env σ) (stgFiles : stageFiles) (sName : String)
    (p : Proc σ) : Proc σ :=
  let stagingFile := stgFiles.attr sName "sfilename"
  let stageVers := stgFiles.attr sName "version"
  let stageDate := stgFiles.attr sName "date"
  if stagingFile = "" then
    p.ErrorExit ("'" ++ sName ++ "' not found in staging area, nothing to do.") 127
  else
    let p := showAnalysis E stgFiles sName p
    if p.exit.isSome then p
    else
      let a := confirmRelease E p
      if !a.1 then a.2.ErrorExit "" 0
      else
        let r := mvStageToWork E stgFiles sName a.2
        match r.1 with
        | some _ => r.2.ErrorExit "" 128
        | none =>
          r.2.InfoLog (sName ++ " Version " ++ stageVers ++ " (" ++ stageDate ++ ") released")

/-- The Go function `stagingActionRelease`; nothing runs once the process has
terminated. -/
def stagingActionRelease {σ : Type} (E : Env σ) (stgFiles : stageFiles)
    (sObject : List String) (p : Proc σ) : Proc σ :=
  sObject.foldl (fun p sName =>
    if p.exit.isSome then p
    else if sName = "all" then releaseAll E stgFiles p
    else releaseOne E stgFiles sName p) p

/-! ## A value comparison and a file system to run the code on -/

/-- Fields of a text as `strings.Fields` cuts them; `cur` holds the reversed
field being read. -/
def fieldsAux : List Char → List Char → List String
  | [], cur => if cur = [] then [] else [String.mk cur.reverse]
  | c :: t, cur =>
    if isSpace c then
      if cur = [] then fieldsAux t [] else String.mk cur.reverse :: fieldsAux t []
    else fieldsAux t (c :: cur)

/-- White space normalisation of a value: the fields joined by one blank. -/
def normalizeValue (v : String) : String := " ".intercalate (fieldsAux v.data [])

/-- Modelled from the spec: `note.CompareJSValue` is not among the sources.  It
is "a value-normalizing equality check that treats certain equivalent textual
representations as equal (e.g. whitespace/quote normalization) rather than raw
string equality": both values are normalised and match when the normalised
values are equal.  The normalised values are returned with the flag. -/
def CompareJSValue (v1 v2 _op : String) : String × String × Bool :=
  (normalizeValue v1, normalizeValue v2, decide (normalizeValue v1 = normalizeValue v2))

/-- A file system: the content of the regular files by path, the directories,
and the paths the process has no permission on.  Paths are absolute and clean,
and there are no links. -/
structure FileSys where
  files : List (String × String)
  dirs : List String
  denied : List String

namespace FileSys

/-- Content of the regular file at `path`, if there is one. -/
def content (s : FileSys) (path : String) : Option String := lookupEntry path s.files

/-- The file system without the file at `path`. -/
def erase (s : FileSys) (path : String) : FileSys :=
  { s with files := s.files.filter (fun e => e.1 ≠ path) }

/-- The directories a path lies in, the nearest first: for "/a/b/c" they are
"/a/b", "/a" and "/". -/
def ancestors (path : String) : List String :=
  (path.data.foldl (fun (acc : List Char × List String) ch =>
    if ch = '/' then
      (acc.1 ++ [ch], (if acc.1 = [] then "/" else String.mk acc.1) :: acc.2)
    else (acc.1 ++ [ch], acc.2)) ([], [])).2

/-- The directory a path lies in: the path up to its last '/', and "/" for a
path right under the root. -/
def parent (path : String) : String := (ancestors path).headD "/"

/-- Whether `path` leads through a regular file: the calls on such a path fail
with "not a directory". -/
def underFile (s : FileSys) (path : String) : Bool :=
  (ancestors path).any (fun a => (s.content a).isSome)

/-- Whether the directory `dir` holds a file or a directory. -/
def occupied (s : FileSys) (dir : String) : Bool :=
  s.files.any (fun e => parent e.1 = dir) || s.dirs.any (fun d => d ≠ dir && parent d = dir)

/-- Whether `path` lies below the directory `dir`. -/
def below (dir path : String) : Bool := (dir.data ++ ['/']).isPrefixOf path.data

/-- The path `path` after the directory `src` has become `dst`. -/
def rebase (src dst path : String) : String :=
  if path = src then dst
  else if below src path then String.mk (dst.data ++ path.data.drop src.data.length)
  else path

/-- `os.Stat`: finds regular files and directories; a path that leads through
a regular file gives an error other than "does not exist". -/
def Stat (s : FileSys) (path : String) : StatResult :=
  if path ∈ s.denied then StatResult.otherError
  else if (s.content path).isSome ∨ path ∈ s.dirs then StatResult.found
  else if s.underFile path then StatResult.otherError
  else StatResult.notExist

/-- `os.Remove`: removes a regular file or an empty directory. -/
def Remove (s : FileSys) (path : String) : Option String × FileSys :=
  if path ∈ s.denied then (some ("remove " ++ path ++ ": permission denied"), s)
  else
    match s.content path with
    | some _ => (none, s.erase path)
    | none =>
      if path ∈ s.dirs then
        if s.occupied path then (some ("remove " ++ path ++ ": directory not empty"), s)
        else (none, { s with dirs := s.dirs.filter (fun d => d ≠ path) })
      else if s.underFile path then (some ("remove " ++ path ++ ": not a directory"), s)
      else (some ("remove " ++ path ++ ": no such file or directory"), s)

/-- `os.Rename`.  It refuses a target that is a directory, fails when a path
leads through a regular file, when the source is missing or when the directory
of the target is missing, does nothing when source and target are the same
file, and otherwise replaces the target; a directory is moved with what it
holds.  A failed call changes nothing. -/
def Rename (s : FileSys) (src dst : String) : Option String × FileSys :=
  if src ∈ s.denied ∨ dst ∈ s.denied then
    (some ("rename " ++ src ++ " " ++ dst ++ ": permission denied"), s)
  else if dst ∈ s.dirs then
    (some ("rename " ++ src ++ " " ++ dst ++ ": file exists"), s)
  else if s.underFile src ∨ s.underFile dst then
    (some ("rename " ++ src ++ " " ++ dst ++ ": not a directory"), s)
  else
    match s.content src with
    | some c =>
      if src = dst then (none, s)
      else if parent dst ∈ s.dirs then
        (none, { s with files := insertEntry dst c (s.erase src).files })
      else (some ("rename " ++ src ++ " " ++ dst ++ ": no such file or directory"), s)
    | none =>
      if src ∈ s.dirs then
        if (s.content dst).isSome then
          (some ("rename " ++ src ++ " " ++ dst ++ ": not a directory"), s)
        else if below src dst then
          (some ("rename " ++ src ++ " " ++ dst ++ ": invalid argument"), s)
        else if parent dst ∈ s.dirs then
          (none, { s with
            files := s.files.map (fun e => (rebase src dst e.1, e.2))
            dirs := s.dirs.map (rebase src dst) })
        else (some ("rename " ++ src ++ " " ++ dst ++ ": no such file or directory"), s)
      else (some ("rename " ++ src ++ " " ++ dst ++ ": no such file or directory"), s)

end FileSys

/-- The collaborators `E` with the system calls of `FileSys`. -/
def Env.onFileSys (E : Env FileSys) : Env FileSys :=
  { E with Stat := FileSys.Stat, Remove := FileSys.Remove, Rename := FileSys.Rename }

/-- A registry with the one bundle `name`, whose attribute `flag` (one of "new",
"deleted", "updated") is "true" and whose other two flags are "false". -/
def flagged (name flag : String) : stageFiles :=
  { AllStageFiles := [name]
    StageAttributes := GoMap.empty.insert name
      (((GoMap.empty.insert "new" (if flag = "new" then "true" else "false")).insert "deleted"
        (if flag = "deleted" then "true" else "false")).insert "updated"
        (if flag = "updated" then "true" else "false")) }

/-- The parameter set with the one key `k`, bound to `v`. -/
def oneParam (k v : String) : GoMap String := GoMap.empty.insert k v

/-- The entries of the definition files of `sampleFS`, by content. -/
def sampleEntries (content : String) : List INIEntry :=
  if content = "[version]\n[sysctl]\na = 1\n" then [⟨"sysctl", "a", "1"⟩]
  else if content = "[version]\n[sysctl]\nb = 2\n" then [⟨"sysctl", "b", "2"⟩]
  else if content = "[version]\n[sysctl]\nb = 1\n" then [⟨"sysctl", "b", "1"⟩]
  else if content = "[version]\n[sysctl]\nc = 3\n" then [⟨"sysctl", "c", "3"⟩]
  else []

/-- Collaborators to run the code on a `FileSys`: the staging area holds the
bundles 1410736, 8888880 and 9999990, there are no override files, nothing is
applied or enabled, and the operator confirms with "y". -/
def sampleEnv : Env FileSys :=
  { Stat := FileSys.Stat
    Remove := FileSys.Remove
    Rename := FileSys.Rename
    GetINIFileVersionSectionEntry := fun _ _ key => if key = "version" then "7" else "02.11.2020"
    ParseINIFile := fun fs path => (fs.content path).map sampleEntries
    GetSolutionDefintion := fun _ _ => GoMap.empty
    GetSolutionSelector := "amd64"
    getovFile := fun _ _ _ => ("", false)
    readYesNo := fun _ input => (decide (input.head? = some "y"), input.tail)
    IsNoteApplied := fun _ _ _ => ("", false)
    PositionInNoteApplyOrder := fun _ _ => -1
    stagingOptions := ((GoMap.empty.insert "9999990" "new note").insert "8888880"
      "withdrawn note").insert "1410736" "TCP/IP: setting keepalive interval"
    helpText := "saptune: Comprehensive system optimisation management for SAP solutions\n"
    StagingSheets := "/var/lib/saptune/staging/latest"
    WorkingArea := "/var/lib/saptune/working/"
    PackageArea := "/usr/share/saptune/"
    OverrideTuningSheets := "/etc/saptune/override/" }

/-- No solution enabled, no solution known. -/
def sampleApp : App := { TuneForSolutions := [], AllSolutions := GoMap.empty }

/-- The directories of an installation. -/
def sampleDirs : List String :=
  ["/", "/var", "/var/lib", "/var/lib/saptune", "/var/lib/saptune/staging",
    "/var/lib/saptune/staging/latest", "/var/lib/saptune/working",
    "/var/lib/saptune/working/notes", "/usr", "/usr/share", "/usr/share/saptune",
    "/usr/share/saptune/notes", "/etc", "/etc/saptune", "/etc/saptune/override"]

/-- A file system on which 9999990 is staged only, 8888880 is staged and active
but no longer distributed, and 1410736 is in all three areas. -/
def sampleFS : FileSys :=
  { files := [("/var/lib/saptune/staging/latest/9999990", "[version]\n[sysctl]\na = 1\n"),
      ("/var/lib/saptune/staging/latest/8888880", "[version]\n"),
      ("/var/lib/saptune/staging/latest/1410736", "[version]\n[sysctl]\nb = 2\n"),
      ("/var/lib/saptune/working/notes/8888880", "[version]\n[sysctl]\nc = 3\n"),
      ("/var/lib/saptune/working/notes/1410736", "[version]\n[sysctl]\nb = 1\n"),
      ("/usr/share/saptune/notes/1410736", "[version]\n[sysctl]\nb = 2\n")]
    dirs := sampleDirs
    denied := [] }

/-- The registry built on `sampleFS`. -/
def sampleRegistry : stageFiles := collectStageFileInfo sampleEnv sampleFS sampleApp

/-- The sample file system with no permission on the active file of 1410736. -/
def lockedFS : FileSys :=
  { sampleFS with denied := ["/var/lib/saptune/working/notes/1410736"] }

/-- An installation whose active area has no directory for the Notes yet: 9999990 is
staged. -/
def bareFS : FileSys :=
  { files := [("/var/lib/saptune/staging/latest/9999990", "[version]\n[sysctl]\na = 1\n")]
    dirs := ["/", "/var", "/var/lib", "/var/lib/saptune", "/var/lib/saptune/staging",
      "/var/lib/saptune/staging/latest", "/var/lib/saptune/working", "/usr", "/usr/share",
      "/usr/share/saptune", "/usr/share/saptune/notes"]
    denied := [] }

/-- The registry built on `bareFS`. -/
def bareRegistry : stageFiles := collectStageFileInfo sampleEnv bareFS sampleApp

/-- The registry built on `lockedFS`. -/
def lockedRegistry : stageFiles := collectStageFileInfo sampleEnv lockedFS sampleApp

/-! ## Rendering the diff: `PrintStageFields` and `diffStageObj` -/

/-- Go `len(s)`: the length of a string in bytes. -/
def len (s : String) : Nat := s.utf8ByteSize

/-- Go `strings.Replace(s, "\t", " ", -1)`. -/
def replaceTabs (s : String) : String :=
  String.mk (s.data.map (fun c => if c = '\t' then ' ' else c))

/-- The Go function `sortStageComparisonsOutput`. -/
def sortStageComparisonsOutput (noteCompare : GoMap stageComparison) : List String :=
  let r : List String × List String := noteCompare.entries.foldl
    (fun (acc : List String × List String) e =>
      if e.1 ≠ "reminder" then (acc.1 ++ [e.1], acc.2) else (acc.1, acc.2 ++ [e.1]))
    ([], [])
  let skeys := sortStrings r.1
  r.2.foldl (fun skeys rem => skeys ++ [rem]) skeys

/-- The loop of `setupStageTableFormat` over the comparisons: the column widths
`(fmtlen1, fmtlen2, fmtlen3)`, from the start values 12, 26 and 26. -/
def stageTableWidths (stageCompare : GoMap stageComparison) : Nat × Nat × Nat :=
  stageCompare.entries.foldl (fun (w : Nat × Nat × Nat) e =>
    let fmtlen1 := if len e.1 > w.1 then len e.1 else w.1
    let fmtlen2 := if len e.2.wrkVal > w.2.1 then len e.2.wrkVal else w.2.1
    let fmtlen3 := if len e.2.stgVal > w.2.2 then len e.2.stgVal else w.2.2
    (fmtlen1, fmtlen2, fmtlen3)) (12, 26, 26)

/-- The Go function `setupStageTableFormat`: `(fmtdash, fmtplus, format)`. -/
def setupStageTableFormat (stageCompare : GoMap stageComparison) : String × String × String :=
  let w := stageTableWidths stageCompare
  let fmtlen1 := w.1
  let fmtlen2 := w.2.1
  let fmtlen3 := w.2.2
  let format := " %-" ++ toString fmtlen1 ++ "s | %-" ++ toString fmtlen2 ++ "s | %-"
    ++ toString fmtlen3 ++ "s \n"
  let tableLen := fmtlen1 + fmtlen2 + fmtlen3 + 8
  let fmtdash := (List.range tableLen).foldl (fun fmtdash _ => fmtdash ++ "-") ""
  let fmtdash := fmtdash ++ "\n"
  let fmtplus := (List.range tableLen).foldl (fun fmtplus i =>
    if i = 1 + fmtlen1 + 1 ∨ i = 1 + fmtlen1 + 3 + fmtlen2 + 1
        ∨ i = 1 + fmtlen1 + 3 + fmtlen2 + 4 + fmtlen3 + 1
    then fmtplus ++ "+" else fmtplus ++ "-") ""
  let fmtplus := fmtplus ++ "\n"
  (fmtdash, fmtplus, format)

/-- Go `%-Ns`: the text, padded with blanks on the right to `n` characters;
nothing is cut off. -/
def padRight (n : Nat) (s : String) : String :=
  s ++ String.mk (List.replicate (n - s.length) ' ')

/-- Go `fmt.Sprintf(format, a, b, c)` for the `format` that
`setupStageTableFormat` builds from the widths `w`. -/
def formatRow (w : Nat × Nat × Nat) (cells : String × String × String) : String :=
  " " ++ padRight w.1 cells.1 ++ " | " ++ padRight w.2.1 cells.2.1 ++ " | "
    ++ padRight w.2.2 cells.2.2 ++ " \n"

/-- Cells of the first header line of `PrintStageFields`: the bundle name and
the two version headings. -/
def headCells {σ : Type} (E : Env σ) (fs : σ) (stgFiles : stageFiles) (stageName : String) :
    String × String × String :=
  let workFile := stgFiles.attr stageName "wfilename"
  let headWork := "Version " ++ E.GetINIFileVersionSectionEntry fs workFile "version" ++ " ("
    ++ E.GetINIFileVersionSectionEntry fs workFile "date" ++ ") "
  let headStage := "Version " ++ stgFiles.attr stageName "version" ++ " ("
    ++ stgFiles.attr stageName "date" ++ ") "
  (stageName, headWork, headStage)

/-- Cells of the second header line of `PrintStageFields`: the area captions. -/
def captionCells : String × String × String := ("", "(working area)", "(staging area)")

/-- Cells of the table body of `PrintStageFields`, one line per sorted key. -/
def bodyCells (comparison : GoMap stageComparison) : List (String × String × String) :=
  (sortStageComparisonsOutput comparison).map (fun skey =>
    if skey = "reminder" then (skey, "diff need to be done", "")
    else
      let c := (comparison.lookup skey).getD ⟨"", "", "", false⟩
      (skey, replaceTabs c.wrkVal, replaceTabs c.stgVal))

/-- The Go function `PrintStageFields`: the texts it writes, in order. -/
def PrintStageFields {σ : Type} (E : Env σ) (fs : σ) (stgFiles : stageFiles)
    (stageName : String) (comparison : GoMap stageComparison) : List String :=
  let w := stageTableWidths comparison
  let f := setupStageTableFormat comparison
  let fmtdash := f.1
  let fmtplus := f.2.1
  [fmtdash, formatRow w (headCells E fs stgFiles stageName), formatRow w captionCells, fmtplus]
    ++ (bodyCells comparison).map (formatRow w) ++ [fmtdash, "\n"]

/-- The loops of `diffStageObj` over `AllValues`: the parameter set of a parsed
definition, for the solutions restricted to the section of the architecture. -/
def noteValues (sName solSelect : String) (allValues : List INIEntry) : GoMap String :=
  allValues.foldl (fun (m : GoMap String) param =>
    if sName = "solutions" ∧ param.Section ≠ solSelect then m
    else m.insert param.Key param.Value) GoMap.empty

/-- The Go function `diffStageObj`. -/
def diffStageObj {σ : Type}
    (CompareJSValue : String → String → String → String × String × Bool)
    (E : Env σ) (stgFiles : stageFiles) (sName : String) (p : Proc σ) : Proc σ :=
  let solSelect := if E.GetSolutionSelector = "ppc64le" then "ArchPPC64LE" else "ArchX86"
  match E.ParseINIFile p.fs (stgFiles.attr sName "sfilename") with
  | none =>
    p.ErrorLog "Problems while parsing the staging Note definition file. Check the name"
  | some stagingNote =>
    let stgNote := noteValues sName solSelect stagingNote
    let wrk : Option (GoMap String) :=
      if stgFiles.attr sName "new" ≠ "true" then
        match E.ParseINIFile p.fs (stgFiles.attr sName "wfilename") with
        | none => none
        | some workingNote => some (noteValues sName solSelect workingNote)
      else some GoMap.empty
    match wrk with
    | none =>
      p.ErrorLog "Problems while parsing the working Note definition file. Check the name"
    | some wrkNote =>
      let r := compareStageFields CompareJSValue stgFiles sName stgNote wrkNote
      let conforming := r.1
      let comparisons := r.2
      if !conforming then
        { p with out := p.out ++ PrintStageFields E p.fs stgFiles sName comparisons }
      else
        -- paranoia log, should not be the case, because the saptune rpm takes care of this
        p.InfoLog "no diffs in staging"

/-! ## `sap/note/db.go`: Linux paging improvements (SAP Note 1557506) -/

/-- Go `uint64(n)` of an `int`: the value modulo `2^64`. -/
def toUint64 (n : Int) : Nat := (n % 18446744073709551616).toNat

/-- The Go struct `LinuxPagingImprovements`; `VMPagecacheLimitMB` is a `uint64`
and `VMPagecacheLimitIgnoreDirty` an `int`. -/
structure LinuxPagingImprovements where
  SysconfigPrefix : String
  VMPagecacheLimitMB : Nat
  VMPagecacheLimitIgnoreDirty : Int
  UseAlgorithmForHANA : Bool
  deriving DecidableEq, Repr

/-- A write of a kernel tunable issued by the process. -/
inductive SysctlWrite
  | uint64 (name : String) (value : Nat)
  | int (name : String) (value : Int)
  deriving DecidableEq, Repr

/-- Everything `db.go` calls outside of itself, over a system state `σ` and the
type `κ` of a parsed sysconfig file.  A Go `error` is an `Option String`,
`none` being `nil`. -/
structure NoteEnv (σ κ : Type) where
  /-- `txtparser.ParseSysconfigFile`. -/
  ParseSysconfigFile : σ → String → Bool → Except String κ
  /-- `(*Sysconfig).GetBool`, with the default value. -/
  GetBool : κ → String → Bool → Bool
  /-- `(*Sysconfig).GetInt`, with the default value. -/
  GetInt : κ → String → Int → Int
  /-- `system.GetMainMemSizeMB`, a `uint64`. -/
  GetMainMemSizeMB : σ → Nat
  /-- `system.GetSysctlUint64`. -/
  GetSysctlUint64 : σ → String → Nat × Option String
  /-- `system.GetSysctlInt`. -/
  GetSysctlInt : σ → String → Int × Option String
  /-- `system.SetSysctlUint64`: the error and the system afterwards. -/
  SetSysctlUint64 : σ → String → Nat → Option String × σ
  /-- `system.SetSysctlInt`: the error and the system afterwards. -/
  SetSysctlInt : σ → String → Int → Option String × σ
  /-- `sap.PrintErrors`: the aggregation of the collected errors. -/
  PrintErrors : List (Option String) → Option String
  /-- `path.Join` of two elements. -/
  Join : String → String → String
  /-- The constant `system.SysctlPagecacheLimitMB`. -/
  SysctlPagecacheLimitMB : String
  /-- The constant `system.SysctlPagecacheLimitIgnoreDirty`. -/
  SysctlPagecacheLimitIgnoreDirty : String

namespace LinuxPagingImprovements

/-- The Go method `Name`. -/
def Name (_paging : LinuxPagingImprovements) : String := "Linux paging improvements"

/-- The Go method `Initialise`. -/
def Initialise {σ κ : Type} (E : NoteEnv σ κ) (sys : σ) (paging : LinuxPagingImprovements) :
    LinuxPagingImprovements :=
  let vmPagecach := (E.GetSysctlUint64 sys E.SysctlPagecacheLimitMB).1
  let vmIgnoreDirty := (E.GetSysctlInt sys E.SysctlPagecacheLimitIgnoreDirty).1
  { SysconfigPrefix := paging.SysconfigPrefix
    VMPagecacheLimitMB := vmPagecach
    VMPagecacheLimitIgnoreDirty := vmIgnoreDirty
    UseAlgorithmForHANA := false }

/-- The Go method `Optimise`: the new note, or the error of the parse.  The
arithmetic on the memory size is that of `uint64`. -/
def Optimise {σ κ : Type} (E : NoteEnv σ κ) (sys : σ) (paging : LinuxPagingImprovements) :
    Except String LinuxPagingImprovements :=
  let newPaging := paging
  match E.ParseSysconfigFile sys
      (E.Join newPaging.SysconfigPrefix "/usr/share/saptune/notes/1557506") false with
  | Except.error err => Except.error err
  | Except.ok conf =>
    let inputEnable := E.GetBool conf "ENABLE_PAGECACHE_LIMIT" false
    let inputOverride := E.GetInt conf "OVERRIDE_PAGECACHE_LIMIT_MB" 0
    let inputIsHANA := E.GetBool conf "TUNE_FOR_HANA" false
    let limit : Nat :=
      if inputIsHANA then
        -- For HANA: new limit is 2% system memory
        (E.GetMainMemSizeMB sys * 2 % 18446744073709551616) / 100
      else
        -- For NW: new limit is 1/16 of system memory, within range 512 to 4096
        let limit := E.GetMainMemSizeMB sys / 16
        if limit < 512 then 512 else if limit > 4096 then 4096 else limit
    let limit := if inputOverride ≠ 0 then toUint64 inputOverride else limit
    let limit := if !inputEnable then 0 else limit
    Except.ok { newPaging with
      VMPagecacheLimitMB := limit
      VMPagecacheLimitIgnoreDirty := E.GetInt conf "PAGECACHE_LIMIT_IGNORE_DIRTY" 1 }

/-- The Go method `Apply`: the returned error, the system afterwards, and the
writes issued, in order. -/
def Apply {σ κ : Type} (E : NoteEnv σ κ) (sys : σ) (paging : LinuxPagingImprovements) :
    Option String × σ × List SysctlWrite :=
  let errs : List (Option String) := []
  let r := E.SetSysctlUint64 sys E.SysctlPagecacheLimitMB paging.VMPagecacheLimitMB
  let errs := errs ++ [r.1]
  let writes := [SysctlWrite.uint64 E.SysctlPagecacheLimitMB paging.VMPagecacheLimitMB]
  let sys := r.2
  let r := E.SetSysctlInt sys E.SysctlPagecacheLimitIgnoreDirty paging.VMPagecacheLimitIgnoreDirty
  let errs := errs ++ [r.1]
  let writes := writes ++ [SysctlWrite.int E.SysctlPagecacheLimitIgnoreDirty
    paging.VMPagecacheLimitIgnoreDirty]
  let sys := r.2
  let err := E.PrintErrors errs
  (err, sys, writes)

end LinuxPagingImprovements

/-- A system for `db.go` to run on: the tunables by name, the memory size, the
content of the rule file as `(enable, override, HANA, ignore dirty)`, and the
tunables that refuse to be written. -/
structure SampleSys where
  limitMB : Nat
  ignoreDirty : Int
  memMB : Nat
  rules : Bool × Int × Bool × Int
  readOnly : List String

/-- Collaborators of `db.go` on a `SampleSys`; the aggregation of errors is the
one modelled from the spec. -/
def sampleNoteEnv : NoteEnv SampleSys (Bool × Int × Bool × Int) :=
  { ParseSysconfigFile := fun sys _ _ => Except.ok sys.rules
    GetBool := fun conf key _ =>
      if key = "ENABLE_PAGECACHE_LIMIT" then conf.1 else conf.2.2.1
    GetInt := fun conf key _ =>
      if key = "OVERRIDE_PAGECACHE_LIMIT_MB" then conf.2.1 else conf.2.2.2
    GetMainMemSizeMB := fun sys => sys.memMB
    GetSysctlUint64 := fun sys _ => (sys.limitMB, none)
    GetSysctlInt := fun sys _ => (sys.ignoreDirty, none)
    SetSysctlUint64 := fun sys name v =>
      if name ∈ sys.readOnly then (some ("sysctl " ++ name ++ ": permission denied"), sys)
      else (none, { sys with limitMB := v })
    SetSysctlInt := fun sys name v =>
      if name ∈ sys.readOnly then (some ("sysctl " ++ name ++ ": permission denied"), sys)
      else (none, { sys with ignoreDirty := v })
    PrintErrors := fun errs =>
      if errs.all (fun e => e.isNone) then none
      else some (String.intercalate "\n" (errs.filterMap id))
    Join := fun a b => a ++ b
    SysctlPagecacheLimitMB := "vm.pagecache_limit_mb"
    SysctlPagecacheLimitIgnoreDirty := "vm.pagecache_limit_ignore_dirty" }

/-! ## `sap/param`: block device schedulers -/

/-- The Go struct `BlockDeviceSchedulers`, as the test `TestIOElevators` uses
it: the elevator chosen for each block device, by device name. -/
structure BlockDeviceSchedulers where
  SchedulerChoice : GoMap String

/-- Modelled from the spec: `BlockDeviceSchedulers.Optimise` is not among the
sources, only its test is.  `Optimise` "returns a target state, without
touching the system", the target being the fixed value it is called with: the
new state holds every inspected device with the requested elevator, and no
error is returned. -/
def BlockDeviceSchedulers.Optimise (ioe : BlockDeviceSchedulers) (newElevatorName : String) :
    Except String BlockDeviceSchedulers :=
  let newChoice : GoMap String := ioe.SchedulerChoice.entries.foldl
    (fun (m : GoMap String) e => m.insert e.1 newElevatorName) GoMap.empty
  Except.ok { SchedulerChoice := newChoice }

/-- A system with `memMB` MB of memory, the rules `rules` and both tunables
writable. -/
def sampleSys (memMB : Nat) (rules : Bool × Int × Bool × Int) : SampleSys :=
  { limitMB := 0, ignoreDirty := 0, memMB := memMB, rules := rules, readOnly := [] }

/-- The note as `Initialise` leaves it on a system without limit. -/
def samplePaging : LinuxPagingImprovements :=
  { SysconfigPrefix := "", VMPagecacheLimitMB := 0, VMPagecacheLimitIgnoreDirty := 0,
    UseAlgorithmForHANA := false }

/-- A system on which the page-cache limit cannot be written. -/
def refusingSys : SampleSys :=
  { limitMB := 0, ignoreDirty := 0, memMB := 65536, rules := (true, 0, false, 1),
    readOnly := ["vm.pagecache_limit_mb"] }

/-- The note as `Optimise` returns it on `sampleSys 65536 (true, 0, false, 1)`. -/
def tunedPaging : LinuxPagingImprovements :=
  { SysconfigPrefix := "", VMPagecacheLimitMB := 4096, VMPagecacheLimitIgnoreDirty := 1,
    UseAlgorithmForHANA := false }

/-- Two block devices as `Inspect` finds them. -/
def sampleSchedulers : BlockDeviceSchedulers :=
  { SchedulerChoice := (GoMap.empty.insert "sda" "cfq").insert "vda" "deadline" }

/-- The comparison of the staged with the active copy of a note whose parameter
"b" changes from 1 to 2. -/
def sampleComparison : GoMap stageComparison :=
  GoMap.empty.insert "b" ⟨"b", "2", "1", false⟩

/-! ## Samples and predicates for the analysis -/

/-- An installation whose staging area holds the solution definitions only; the
staged definition knows the solutions HANA and BOBJ for the architecture. -/
def solutionsEnv : Env FileSys :=
  { sampleEnv with
    stagingOptions := GoMap.empty.insert "solutions" ""
    GetSolutionDefintion := fun fs path =>
      match fs.content path with
      | some _ => GoMap.empty.insert "amd64"
          ((GoMap.empty.insert "HANA" ["941735", "1771258"]).insert "BOBJ" ["941735"])
      | none => GoMap.empty }

/-- The solution HANA is enabled. -/
def solutionsApp : App := { TuneForSolutions := ["HANA"], AllSolutions := GoMap.empty }

/-- A file system on which the solution definitions are staged and active, but
no longer distributed. -/
def solutionsFS : FileSys :=
  { files := [("/var/lib/saptune/staging/latest/solutions", "[ArchX86]\nHANA = 941735 1771258\n"),
      ("/var/lib/saptune/working/solutions", "[ArchX86]\nHANA = 941735\n")]
    dirs := sampleDirs
    denied := [] }

/-- The registry built on `solutionsFS`. -/
def solutionsRegistry : stageFiles :=
  collectStageFileInfo solutionsEnv solutionsFS solutionsApp


/-- A detail line: a text that starts with the lead-in `lead`. -/
def isDetail (lead t : String) : Prop := ∃ rest : String, t = lead ++ rest

/-- The lines `head ++ details`, all of `details` being detail lines. -/
def headThenDetails (lead : String) (head out : List String) : Prop :=
  ∃ details : List String, out = head ++ details ∧ ∀ t ∈ details, isDetail lead t

/-- The process after the body of the release loop has run for `stageName`:
the presence check of the staged file, then `mvStageToWork`, then the
"released" line when the promotion returned no error. -/
def promoteStep {σ : Type} (E : Env σ) (stgFiles : stageFiles) (p : Proc σ)
    (stageName : String) : Proc σ :=
  let r := mvStageToWork E stgFiles stageName (checkStaged E stgFiles stageName ([], p)).2
  match r.1 with
  | some _ => r.2
  | none =>
    r.2.InfoLog (stageName ++ " Version " ++ stgFiles.attr stageName "version" ++ " ("
      ++ stgFiles.attr stageName "date" ++ ") released")

/-- The release of `stageName` fails on process `p`: the presence check of its
staged file fails, or its promotion returns an error. -/
def promoteFails {σ : Type} (E : Env σ) (stgFiles : stageFiles) (p : Proc σ)
    (stageName : String) : Prop :=
  E.Stat p.fs (stgFiles.attr stageName "sfilename") ≠ StatResult.found
  ∨ (mvStageToWork E stgFiles stageName (checkStaged E stgFiles stageName ([], p)).2).1 ≠ none

/-- A loop body that binds `e.1` to `f e` and clears the flag when `c e` holds,
and does nothing otherwise: the common shape of the four loop bodies of
`compareStageFields`. -/
def insertWhen (c : String × String → Bool) (f : String × String → stageComparison)
    (acc : Bool × GoMap stageComparison) (e : String × String) :
    Bool × GoMap stageComparison :=
  if c e then (false, acc.2.insert e.1 (f e)) else acc

/-! ## Lemmas on maps and on the loops of `compareStageFields` -/

theorem lookupEntry_insertEntry {V : Type} (k k2 : String) (v : V) (l : List (String × V)) :
    lookupEntry k2 (insertEntry k v l) = if k2 = k then some v else lookupEntry k2 l := by
  induction l with
  | nil =>
    by_cases h : k2 = k
    · simp [insertEntry, lookupEntry, h]
    · have h2 : ¬ k = k2 := fun h3 => h h3.symm
      simp [insertEntry, lookupEntry, h, h2]
  | cons e t ih =>
    by_cases h : e.1 = k
    · by_cases h2 : k2 = k
      · simp [insertEntry, lookupEntry, h, h2]
      · have h3 : ¬ k = k2 := fun h4 => h2 h4.symm
        simp [insertEntry, lookupEntry, h, h2, h3]
    · by_cases h2 : e.1 = k2
      · have h3 : ¬ k2 = k := fun h4 => h (h2.trans h4)
        simp [insertEntry, lookupEntry, h, h2, h3]
      · simp [insertEntry, lookupEntry, h, h2, ih]

theorem lookupEntry_eq_none {V : Type} (k : String) (l : List (String × V)) :
    lookupEntry k l = none ↔ k ∉ l.map Prod.fst := by
  induction l with
  | nil => simp [lookupEntry]
  | cons e t ih =>
    by_cases h : e.1 = k
    · simp [lookupEntry, h]
    · have h2 : ¬ k = e.1 := fun h3 => h h3.symm
      simp [lookupEntry, h, h2, ih]

theorem GoMap.lookup_insert {V : Type} (m : GoMap V) (k k2 : String) (v : V) :
    (m.insert k v).lookup k2 = if k2 = k then some v else m.lookup k2 :=
  lookupEntry_insertEntry k k2 v m.entries

theorem GoMap.lookup_empty {V : Type} (k : String) : (GoMap.empty : GoMap V).lookup k = none :=
  rfl

theorem GoMap.mem_keys_iff {V : Type} (m : GoMap V) (k : String) :
    k ∈ m.keys ↔ (m.lookup k).isSome = true := by
  unfold GoMap.keys GoMap.lookup
  cases h : lookupEntry k m.entries with
  | none => simpa using (lookupEntry_eq_none k m.entries).1 h
  | some v =>
    have h2 : ¬ lookupEntry k m.entries = none := by simp [h]
    have h3 := (not_congr (lookupEntry_eq_none k m.entries)).1 h2
    simpa using h3

theorem GoMap.get_of_lookup_none (m : GoMap String) (k : String) (h : m.lookup k = none) :
    m.get k = "" := by
  simp [GoMap.get, h]

theorem GoMap.get_of_lookup_some (m : GoMap String) (k v : String) (h : m.lookup k = some v) :
    m.get k = v := by
  simp [GoMap.get, h]

theorem lookupEntry_mem {V : Type} (k : String) (v : V) (l : List (String × V))
    (h : lookupEntry k l = some v) : (k, v) ∈ l := by
  induction l with
  | nil => simp [lookupEntry] at h
  | cons e t ih =>
    by_cases h2 : e.1 = k
    · simp only [lookupEntry, h2, if_true, Option.some.injEq] at h
      have : e = (k, v) := Prod.ext h2 h
      simp [this]
    · simp only [lookupEntry, h2, if_false] at h
      exact List.mem_cons_of_mem _ (ih h)

theorem deletedStep_eq :
    deletedStep = insertWhen (fun _ => true) (fun e => ⟨e.1, "-", e.2, false⟩) := by
  funext acc e
  simp [deletedStep, insertWhen]

theorem newStep_eq :
    newStep = insertWhen (fun _ => true) (fun e => ⟨e.1, e.2, "-", false⟩) := by
  funext acc e
  simp [newStep, insertWhen]

theorem removedStep_eq (stage : GoMap String) :
    removedStep stage
      = insertWhen (fun e => decide (stage.get e.1 = "")) (fun e => ⟨e.1, "-", e.2, false⟩) := by
  funext acc e
  by_cases h : stage.get e.1 = "" <;> simp [removedStep, insertWhen, h]

theorem changedStep_eq (cmp : String → String → String → String × String × Bool)
    (work : GoMap String) :
    changedStep cmp work
      = insertWhen (fun e => !(cmp e.2 (work.get e.1) "").2.2)
          (fun e => ⟨e.1, (cmp e.2 (work.get e.1) "").1,
            if (cmp e.2 (work.get e.1) "").2.1 = "" then "-"
            else (cmp e.2 (work.get e.1) "").2.1, false⟩) := by
  funext acc e
  cases h : (cmp e.2 (work.get e.1) "").2.2 <;> simp [changedStep, insertWhen, h]

theorem foldl_insertWhen_fst (c : String × String → Bool)
    (f : String × String → stageComparison) (l : List (String × String))
    (a : Bool × GoMap stageComparison) :
    (l.foldl (insertWhen c f) a).1 = (a.1 && l.all (fun e => !c e)) := by
  induction l generalizing a with
  | nil => simp
  | cons e t ih =>
    rw [List.foldl_cons, ih]
    cases h : c e <;> simp [insertWhen, h]

theorem foldl_insertWhen_lookup (c : String × String → Bool)
    (f : String × String → stageComparison) (l : List (String × String))
    (hl : (l.map Prod.fst).Nodup) (a : Bool × GoMap stageComparison) (k : String) :
    (l.foldl (insertWhen c f) a).2.lookup k
      = match lookupEntry k l with
        | some v => if c (k, v) then some (f (k, v)) else a.2.lookup k
        | none => a.2.lookup k := by
  induction l generalizing a with
  | nil => simp [lookupEntry]
  | cons e t ih =>
    have ht : (t.map Prod.fst).Nodup := (List.nodup_cons.1 (by simpa using hl)).2
    have he : e.1 ∉ t.map Prod.fst := (List.nodup_cons.1 (by simpa using hl)).1
    rw [List.foldl_cons, ih ht]
    by_cases h : e.1 = k
    · have hk : lookupEntry k t = none := (lookupEntry_eq_none k t).2 (h ▸ he)
      have hek : e = (k, e.2) := Prod.ext h rfl
      rw [hk]
      simp only [lookupEntry, h, if_true]
      rw [← hek]
      cases hc : c e
      · simp [insertWhen, hc]
      · simp [insertWhen, hc, GoMap.lookup_insert, h]
    · have hne : ¬ k = e.1 := fun h3 => h h3.symm
      have hstep : (insertWhen c f a e).2.lookup k = a.2.lookup k := by
        cases hc : c e
        · simp [insertWhen, hc]
        · simp [insertWhen, hc, GoMap.lookup_insert, hne]
      simp only [lookupEntry, h, if_false, hstep]

theorem GoMap.get_insert (m : GoMap String) (k k2 v : String) :
    (m.insert k v).get k2 = if k2 = k then v else m.get k2 := by
  unfold GoMap.get
  rw [GoMap.lookup_insert]
  split <;> rfl

theorem GoMap.get_ite (c : Prop) [Decidable c] (a b : GoMap String) (k : String) :
    (if c then a else b).get k = if c then a.get k else b.get k := by
  split <;> rfl

/-! ## The registry: `collectStageFileInfo` -/

theorem collectStatus_get {σ : Type} (E : Env σ) (fs : σ) (tuneApp : App)
    (stageName : String) (m : GoMap String) (k : String) (h1 : k ≠ "override")
    (h2 : k ≠ "applied") (h3 : k ≠ "enabled") (h4 : k ≠ "inSolution") :
    (collectStatus E fs tuneApp stageName m).get k = m.get k := by
  simp [collectStatus, GoMap.get_insert, GoMap.get_ite, h1, h2, h3, h4]

theorem collectFlags_get {σ : Type} (E : Env σ) (fs : σ) (m : GoMap String) (k : String)
    (h1 : k ≠ "new") (h2 : k ≠ "deleted") (h3 : k ≠ "updated") :
    (collectFlags E fs m).get k = m.get k := by
  simp only [collectFlags]
  split <;> (try split) <;> simp [GoMap.get_insert, h1, h2, h3]

theorem collectFlags_flags {σ : Type} (E : Env σ) (fs : σ) (m : GoMap String) :
    (collectFlags E fs m).get "new"
        = (if E.Stat fs (m.get "wfilename") = StatResult.notExist then "true" else "false")
    ∧ (collectFlags E fs m).get "deleted"
        = (if E.Stat fs (m.get "wfilename") = StatResult.found
              ∧ E.Stat fs (m.get "pfilename") = StatResult.notExist then "true" else "false")
    ∧ (collectFlags E fs m).get "updated"
        = (if E.Stat fs (m.get "wfilename") = StatResult.notExist
              ∨ (E.Stat fs (m.get "wfilename") = StatResult.found
                ∧ E.Stat fs (m.get "pfilename") = StatResult.notExist)
            then "false" else "true") := by
  simp only [collectFlags]
  split <;> (try split) <;> simp_all [GoMap.get_insert]

theorem collectStageMap_flags {σ : Type} (E : Env σ) (fs : σ) (tuneApp : App)
    (stageName : String) :
    (collectStageMap E fs tuneApp stageName).get "new"
        = (if E.Stat fs ((collectStageMap E fs tuneApp stageName).get "wfilename")
              = StatResult.notExist then "true" else "false")
    ∧ (collectStageMap E fs tuneApp stageName).get "deleted"
        = (if E.Stat fs ((collectStageMap E fs tuneApp stageName).get "wfilename")
                = StatResult.found
              ∧ E.Stat fs ((collectStageMap E fs tuneApp stageName).get "pfilename")
                = StatResult.notExist then "true" else "false")
    ∧ (collectStageMap E fs tuneApp stageName).get "updated"
        = (if E.Stat fs ((collectStageMap E fs tuneApp stageName).get "wfilename")
                = StatResult.notExist
              ∨ (E.Stat fs ((collectStageMap E fs tuneApp stageName).get "wfilename")
                  = StatResult.found
                ∧ E.Stat fs ((collectStageMap E fs tuneApp stageName).get "pfilename")
                  = StatResult.notExist)
            then "false" else "true") := by
  unfold collectStageMap
  rw [collectStatus_get _ _ _ _ _ "new" (by decide) (by decide) (by decide) (by decide),
    collectStatus_get _ _ _ _ _ "deleted" (by decide) (by decide) (by decide) (by decide),
    collectStatus_get _ _ _ _ _ "updated" (by decide) (by decide) (by decide) (by decide),
    collectStatus_get _ _ _ _ _ "wfilename" (by decide) (by decide) (by decide) (by decide),
    collectStatus_get _ _ _ _ _ "pfilename" (by decide) (by decide) (by decide) (by decide),
    collectFlags_get _ _ _ "wfilename" (by decide) (by decide) (by decide),
    collectFlags_get _ _ _ "pfilename" (by decide) (by decide) (by decide)]
  exact collectFlags_flags E fs _

theorem collectStageFileInfo_fold {σ : Type} (E : Env σ) (fs : σ) (tuneApp : App)
    (l : List String) (acc : stageFiles) :
    (l.foldl (fun (stageConf : stageFiles) stageName =>
      ({ AllStageFiles := stageConf.AllStageFiles ++ [stageName]
         StageAttributes := stageConf.StageAttributes.insert stageName
           (collectStageMap E fs tuneApp stageName) } : stageFiles)) acc).AllStageFiles
        = acc.AllStageFiles ++ l
    ∧ ∀ k, (l.foldl (fun (stageConf : stageFiles) stageName =>
      ({ AllStageFiles := stageConf.AllStageFiles ++ [stageName]
         StageAttributes := stageConf.StageAttributes.insert stageName
           (collectStageMap E fs tuneApp stageName) } : stageFiles)) acc).StageAttributes.lookup k
        = if k ∈ l then some (collectStageMap E fs tuneApp k)
          else acc.StageAttributes.lookup k := by
  induction l generalizing acc with
  | nil => simp
  | cons n t ih =>
    have h := ih { AllStageFiles := acc.AllStageFiles ++ [n]
                   StageAttributes := acc.StageAttributes.insert n
                     (collectStageMap E fs tuneApp n) }
    refine ⟨by simpa using h.1, ?_⟩
    intro k
    rw [List.foldl_cons, h.2 k]
    by_cases hkt : k ∈ t
    · simp [hkt]
    · by_cases hkn : k = n
      · subst hkn
        simp [hkt, GoMap.lookup_insert]
      · simp [hkt, hkn, GoMap.lookup_insert]

theorem collectStageFileInfo_names {σ : Type} (E : Env σ) (fs : σ) (tuneApp : App) :
    (collectStageFileInfo E fs tuneApp).AllStageFiles = E.GetSortedIDs := by
  have h := (collectStageFileInfo_fold E fs tuneApp E.GetSortedIDs
    { AllStageFiles := [], StageAttributes := GoMap.empty }).1
  simpa [collectStageFileInfo] using h

theorem collectStageFileInfo_attr {σ : Type} (E : Env σ) (fs : σ) (tuneApp : App)
    (stageName key : String)
    (h : stageName ∈ (collectStageFileInfo E fs tuneApp).AllStageFiles) :
    (collectStageFileInfo E fs tuneApp).attr stageName key
      = (collectStageMap E fs tuneApp stageName).get key := by
  rw [collectStageFileInfo_names] at h
  have h2 := (collectStageFileInfo_fold E fs tuneApp E.GetSortedIDs
    { AllStageFiles := [], StageAttributes := GoMap.empty }).2 stageName
  rw [if_pos h] at h2
  unfold stageFiles.attr GoMap.getMap
  unfold collectStageFileInfo
  rw [h2]
  rfl

/-- C1: for every bundle that `collectStageFileInfo` registers, and whatever
`os.Stat` answers for its active and its distribution file (found, does not
exist, any other error), exactly one of the attributes "new", "deleted",
"updated" is "true" and the other two are "false". -/
theorem collectStageFileInfo_exactly_one_flag {σ : Type} (E : Env σ) (fs : σ)
    (tuneApp : App) (stageName : String)
    (h : stageName ∈ (collectStageFileInfo E fs tuneApp).AllStageFiles) :
    ((collectStageFileInfo E fs tuneApp).attr stageName "new" = "true"
      ∧ (collectStageFileInfo E fs tuneApp).attr stageName "deleted" = "false"
      ∧ (collectStageFileInfo E fs tuneApp).attr stageName "updated" = "false")
    ∨ ((collectStageFileInfo E fs tuneApp).attr stageName "new" = "false"
      ∧ (collectStageFileInfo E fs tuneApp).attr stageName "deleted" = "true"
      ∧ (collectStageFileInfo E fs tuneApp).attr stageName "updated" = "false")
    ∨ ((collectStageFileInfo E fs tuneApp).attr stageName "new" = "false"
      ∧ (collectStageFileInfo E fs tuneApp).attr stageName "deleted" = "false"
      ∧ (collectStageFileInfo E fs tuneApp).attr stageName "updated" = "true") := by
  rw [collectStageFileInfo_attr E fs tuneApp stageName "new" h,
    collectStageFileInfo_attr E fs tuneApp stageName "deleted" h,
    collectStageFileInfo_attr E fs tuneApp stageName "updated" h]
  obtain ⟨h1, h2, h3⟩ := collectStageMap_flags E fs tuneApp stageName
  rw [h1, h2, h3]
  cases E.Stat fs ((collectStageMap E fs tuneApp stageName).get "wfilename") <;>
    cases E.Stat fs ((collectStageMap E fs tuneApp stageName).get "pfilename") <;> simp

/-- Witness of C1 on the sample file system: 8888880 is registered and flagged
"deleted" only. -/
theorem collectStageFileInfo_exactly_one_flag_witness :
    "8888880" ∈ (collectStageFileInfo sampleEnv sampleFS sampleApp).AllStageFiles
    ∧ (((collectStageFileInfo sampleEnv sampleFS sampleApp).attr "8888880" "new" = "true"
        ∧ (collectStageFileInfo sampleEnv sampleFS sampleApp).attr "8888880" "deleted" = "false"
        ∧ (collectStageFileInfo sampleEnv sampleFS sampleApp).attr "8888880" "updated" = "false")
      ∨ ((collectStageFileInfo sampleEnv sampleFS sampleApp).attr "8888880" "new" = "false"
        ∧ (collectStageFileInfo sampleEnv sampleFS sampleApp).attr "8888880" "deleted" = "true"
        ∧ (collectStageFileInfo sampleEnv sampleFS sampleApp).attr "8888880" "updated" = "false")
      ∨ ((collectStageFileInfo sampleEnv sampleFS sampleApp).attr "8888880" "new" = "false"
        ∧ (collectStageFileInfo sampleEnv sampleFS sampleApp).attr "8888880" "deleted" = "false"
        ∧ (collectStageFileInfo sampleEnv sampleFS sampleApp).attr "8888880" "updated"
          = "true")) :=
  ⟨by decide, collectStageFileInfo_exactly_one_flag sampleEnv sampleFS sampleApp "8888880"
    (by decide)⟩

/-! ## The diff engine: `compareStageFields` -/

theorem compareStageFields_deleted (cmp : String → String → String → String × String × Bool)
    (stgFiles : stageFiles) (sName : String) (stage work : GoMap String)
    (h : stgFiles.attr sName "deleted" = "true") :
    compareStageFields cmp stgFiles sName stage work
      = work.entries.foldl (insertWhen (fun _ => true) (fun e => ⟨e.1, "-", e.2, false⟩))
          (true, GoMap.empty) := by
  simp only [compareStageFields, h, if_true, deletedStep_eq]

theorem compareStageFields_new (cmp : String → String → String → String × String × Bool)
    (stgFiles : stageFiles) (sName : String) (stage work : GoMap String)
    (hd : stgFiles.attr sName "deleted" ≠ "true") (h : stgFiles.attr sName "new" = "true") :
    compareStageFields cmp stgFiles sName stage work
      = stage.entries.foldl (insertWhen (fun _ => true) (fun e => ⟨e.1, e.2, "-", false⟩))
          (true, GoMap.empty) := by
  simp only [compareStageFields, hd, h, if_true, if_false, newStep_eq]

theorem compareStageFields_updated (cmp : String → String → String → String × String × Bool)
    (stgFiles : stageFiles) (sName : String) (stage work : GoMap String)
    (hd : stgFiles.attr sName "deleted" ≠ "true") (hn : stgFiles.attr sName "new" ≠ "true") :
    compareStageFields cmp stgFiles sName stage work
      = stage.entries.foldl
          (insertWhen (fun e => !(cmp e.2 (work.get e.1) "").2.2)
            (fun e => ⟨e.1, (cmp e.2 (work.get e.1) "").1,
              if (cmp e.2 (work.get e.1) "").2.1 = "" then "-"
              else (cmp e.2 (work.get e.1) "").2.1, false⟩))
          (work.entries.foldl
            (insertWhen (fun e => decide (stage.get e.1 = ""))
              (fun e => ⟨e.1, "-", e.2, false⟩))
            (true, GoMap.empty)) := by
  simp only [compareStageFields, hd, hn, if_false, removedStep_eq, changedStep_eq]

/-- C2, as amended: for a bundle flagged deleted, `compareStageFields` returns
`allMatch = false` exactly when the active set holds at least one key; the
staged set plays no part. -/
theorem compareStageFields_deleted_allMatch
    (cmp : String → String → String → String × String × Bool)
    (stgFiles : stageFiles) (sName : String) (stage work : GoMap String)
    (h : stgFiles.attr sName "deleted" = "true") :
    ((compareStageFields cmp stgFiles sName stage work).1 = false ↔ work.size ≠ 0) := by
  rw [compareStageFields_deleted cmp stgFiles sName stage work h, foldl_insertWhen_fst]
  unfold GoMap.size
  cases work.entries <;> simp

/-- Witness of C2 as amended: a deleted bundle with one active key. -/
theorem compareStageFields_deleted_allMatch_witness :
    (flagged "8888880" "deleted").attr "8888880" "deleted" = "true"
    ∧ ((compareStageFields CompareJSValue (flagged "8888880" "deleted") "8888880"
          GoMap.empty (oneParam "c" "3")).1 = false ↔ (oneParam "c" "3").size ≠ 0) :=
  ⟨by decide, compareStageFields_deleted_allMatch CompareJSValue (flagged "8888880" "deleted")
    "8888880" GoMap.empty (oneParam "c" "3") (by decide)⟩

/-- Counterexample to C2 as stated: a bundle flagged deleted whose active set is
empty yields `allMatch = true` (and an empty comparison map). -/
theorem compareStageFields_deleted_empty_matches :
    (flagged "8888880" "deleted").attr "8888880" "deleted" = "true"
    ∧ (compareStageFields CompareJSValue (flagged "8888880" "deleted") "8888880"
        (oneParam "a" "1") GoMap.empty).1 = true
    ∧ (compareStageFields CompareJSValue (flagged "8888880" "deleted") "8888880"
        (oneParam "a" "1") GoMap.empty).2.size = 0 := by
  decide

/-- C3: for a bundle flagged deleted, the comparison map has exactly the keys of
the active set, each entry holding the key as field name, "-" as staged value,
the active value as working value and a false match flag; the result is the
same for every staged set. -/
theorem compareStageFields_deleted_map
    (cmp : String → String → String → String × String × Bool)
    (stgFiles : stageFiles) (sName : String) (stage work : GoMap String)
    (h : stgFiles.attr sName "deleted" = "true") :
    (∀ k, (compareStageFields cmp stgFiles sName stage work).2.lookup k
        = (work.lookup k).map (fun v => ⟨k, "-", v, false⟩))
    ∧ (∀ k, k ∈ (compareStageFields cmp stgFiles sName stage work).2.keys ↔ k ∈ work.keys)
    ∧ (∀ stage2 : GoMap String, compareStageFields cmp stgFiles sName stage2 work
        = compareStageFields cmp stgFiles sName stage work) := by
  have h1 : ∀ k, (compareStageFields cmp stgFiles sName stage work).2.lookup k
      = (work.lookup k).map (fun v => ⟨k, "-", v, false⟩) := by
    intro k
    rw [compareStageFields_deleted cmp stgFiles sName stage work h,
      foldl_insertWhen_lookup _ _ _ work.nodup]
    unfold GoMap.lookup
    cases lookupEntry k work.entries <;> simp [lookupEntry]
  refine ⟨h1, ?_, ?_⟩
  · intro k
    rw [GoMap.mem_keys_iff, GoMap.mem_keys_iff, h1 k]
    cases work.lookup k <;> simp
  · intro stage2
    rw [compareStageFields_deleted cmp stgFiles sName stage work h,
      compareStageFields_deleted cmp stgFiles sName stage2 work h]

/-- Witness of C3: a deleted bundle with the active key "c" and a staged set that
has other content. -/
theorem compareStageFields_deleted_map_witness :
    (flagged "8888880" "deleted").attr "8888880" "deleted" = "true"
    ∧ (compareStageFields CompareJSValue (flagged "8888880" "deleted") "8888880"
        (oneParam "a" "1") (oneParam "c" "3")).2.lookup "c"
        = ((oneParam "c" "3").lookup "c").map (fun v => ⟨"c", "-", v, false⟩) :=
  ⟨by decide, (compareStageFields_deleted_map CompareJSValue (flagged "8888880" "deleted")
    "8888880" (oneParam "a" "1") (oneParam "c" "3") (by decide)).1 "c"⟩

/-- C4: for a bundle flagged new and not deleted, the comparison map has exactly
the keys of the staged set, each entry holding the key as field name, the staged
value, "-" as active value and a false match flag; the result is the same for
every active set. -/
theorem compareStageFields_new_map
    (cmp : String → String → String → String × String × Bool)
    (stgFiles : stageFiles) (sName : String) (stage work : GoMap String)
    (hd : stgFiles.attr sName "deleted" ≠ "true") (h : stgFiles.attr sName "new" = "true") :
    (∀ k, (compareStageFields cmp stgFiles sName stage work).2.lookup k
        = (stage.lookup k).map (fun v => ⟨k, v, "-", false⟩))
    ∧ (∀ k, k ∈ (compareStageFields cmp stgFiles sName stage work).2.keys ↔ k ∈ stage.keys)
    ∧ (∀ work2 : GoMap String, compareStageFields cmp stgFiles sName stage work2
        = compareStageFields cmp stgFiles sName stage work) := by
  have h1 : ∀ k, (compareStageFields cmp stgFiles sName stage work).2.lookup k
      = (stage.lookup k).map (fun v => ⟨k, v, "-", false⟩) := by
    intro k
    rw [compareStageFields_new cmp stgFiles sName stage work hd h,
      foldl_insertWhen_lookup _ _ _ stage.nodup]
    unfold GoMap.lookup
    cases lookupEntry k stage.entries <;> simp [lookupEntry]
  refine ⟨h1, ?_, ?_⟩
  · intro k
    rw [GoMap.mem_keys_iff, GoMap.mem_keys_iff, h1 k]
    cases stage.lookup k <;> simp
  · intro work2
    rw [compareStageFields_new cmp stgFiles sName stage work hd h,
      compareStageFields_new cmp stgFiles sName stage work2 hd h]

/-- Witness of C4: a new bundle with the staged key "a" and an active set that
has other content. -/
theorem compareStageFields_new_map_witness :
    (flagged "9999990" "new").attr "9999990" "deleted" ≠ "true"
    ∧ (flagged "9999990" "new").attr "9999990" "new" = "true"
    ∧ (compareStageFields CompareJSValue (flagged "9999990" "new") "9999990"
        (oneParam "a" "1") (oneParam "c" "3")).2.lookup "a"
        = ((oneParam "a" "1").lookup "a").map (fun v => ⟨"a", v, "-", false⟩) :=
  ⟨by decide, by decide, (compareStageFields_new_map CompareJSValue (flagged "9999990" "new")
    "9999990" (oneParam "a" "1") (oneParam "c" "3") (by decide) (by decide)).1 "a"⟩

/-- C5, what the code does at the failing input: for an updated bundle and any
value comparison that reports two empty values as equal, a key that is staged
with an empty value and absent from the active set is not reported: the
comparison map is empty and `allMatch` is true. -/
theorem compareStageFields_empty_staged_only_unreported
    (cmp : String → String → String → String × String × Bool)
    (stgFiles : stageFiles) (sName k : String)
    (hd : stgFiles.attr sName "deleted" ≠ "true") (hn : stgFiles.attr sName "new" ≠ "true")
    (h : (cmp "" "" "").2.2 = true) :
    (oneParam k "").lookup k = some "" ∧ (GoMap.empty : GoMap String).lookup k = none
    ∧ (compareStageFields cmp stgFiles sName (oneParam k "") GoMap.empty).1 = true
    ∧ (compareStageFields cmp stgFiles sName (oneParam k "") GoMap.empty).2.lookup k = none
    ∧ (compareStageFields cmp stgFiles sName (oneParam k "") GoMap.empty).2.size = 0 := by
  rw [compareStageFields_updated cmp stgFiles sName _ _ hd hn]
  simp [oneParam, GoMap.insert, GoMap.empty, insertEntry, insertWhen, GoMap.get, GoMap.lookup,
    lookupEntry, GoMap.size, h]

/-- Witness of the C5 evaluation: the updated bundle 1410736 and the value
comparison modelled from the spec. -/
theorem compareStageFields_empty_staged_only_unreported_witness :
    (flagged "1410736" "updated").attr "1410736" "deleted" ≠ "true"
    ∧ (flagged "1410736" "updated").attr "1410736" "new" ≠ "true"
    ∧ (CompareJSValue "" "" "").2.2 = true
    ∧ (compareStageFields CompareJSValue (flagged "1410736" "updated") "1410736"
        (oneParam "b" "") GoMap.empty).1 = true
    ∧ (compareStageFields CompareJSValue (flagged "1410736" "updated") "1410736"
        (oneParam "b" "") GoMap.empty).2.lookup "b" = none :=
  ⟨by decide, by decide, by decide,
    (compareStageFields_empty_staged_only_unreported CompareJSValue
      (flagged "1410736" "updated") "1410736" "b" (by decide) (by decide) (by decide)).2.2.1,
    (compareStageFields_empty_staged_only_unreported CompareJSValue
      (flagged "1410736" "updated") "1410736" "b" (by decide) (by decide) (by decide)).2.2.2.1⟩

/-- What holds of C5: for an updated bundle, a key that is staged only is
reported with match flag false, and `allMatch` is false, whenever the value
comparison reports its staged value as different from the empty value; the
active value shown is "-" when the comparison normalises the empty value to the
empty string. -/
theorem compareStageFields_staged_only_mismatch
    (cmp : String → String → String → String × String × Bool)
    (stgFiles : stageFiles) (sName : String) (stage work : GoMap String) (k v : String)
    (hd : stgFiles.attr sName "deleted" ≠ "true") (hn : stgFiles.attr sName "new" ≠ "true")
    (hs : stage.lookup k = some v) (hw : work.lookup k = none)
    (hm : (cmp v "" "").2.2 = false) :
    (compareStageFields cmp stgFiles sName stage work).2.lookup k
        = some ⟨k, (cmp v "" "").1,
            if (cmp v "" "").2.1 = "" then "-" else (cmp v "" "").2.1, false⟩
    ∧ (compareStageFields cmp stgFiles sName stage work).1 = false := by
  have hg : work.get k = "" := GoMap.get_of_lookup_none work k hw
  rw [compareStageFields_updated cmp stgFiles sName stage work hd hn]
  constructor
  · rw [foldl_insertWhen_lookup _ _ _ stage.nodup]
    have hs2 : lookupEntry k stage.entries = some v := hs
    simp [hs2, hg, hm]
  · rw [foldl_insertWhen_fst]
    have hmem : (k, v) ∈ stage.entries := lookupEntry_mem k v stage.entries hs
    have : (stage.entries.all fun e => !(!(cmp e.2 (work.get e.1) "").2.2)) = false := by
      rw [List.all_eq_false]
      exact ⟨(k, v), hmem, by simp [hg, hm]⟩
    rw [this]
    simp

/-- C6: for an updated bundle, a key that is in the active set and not in the
staged set is in the comparison map with the key as field name, staged value
"-", the active value as working value and match flag false, and `allMatch` is
false. -/
theorem compareStageFields_active_only
    (cmp : String → String → String → String × String × Bool)
    (stgFiles : stageFiles) (sName : String) (stage work : GoMap String) (k v : String)
    (hd : stgFiles.attr sName "deleted" ≠ "true") (hn : stgFiles.attr sName "new" ≠ "true")
    (hw : work.lookup k = some v) (hs : stage.lookup k = none) :
    (compareStageFields cmp stgFiles sName stage work).2.lookup k = some ⟨k, "-", v, false⟩
    ∧ (compareStageFields cmp stgFiles sName stage work).1 = false := by
  have hg : stage.get k = "" := GoMap.get_of_lookup_none stage k hs
  rw [compareStageFields_updated cmp stgFiles sName stage work hd hn]
  constructor
  · rw [foldl_insertWhen_lookup _ _ _ stage.nodup, foldl_insertWhen_lookup _ _ _ work.nodup]
    have hs2 : lookupEntry k stage.entries = none := hs
    have hw2 : lookupEntry k work.entries = some v := hw
    simp [hs2, hw2, hg]
  · rw [foldl_insertWhen_fst, foldl_insertWhen_fst]
    have hmem : (k, v) ∈ work.entries := lookupEntry_mem k v work.entries hw
    have : (work.entries.all fun e => !(decide (stage.get e.1 = ""))) = false := by
      rw [List.all_eq_false]
      exact ⟨(k, v), hmem, by simp [hg]⟩
    rw [this]
    simp

/-- Witness of C6: the updated bundle 1410736 with the active key "c" that the
staged set, which holds "b" only, no longer has. -/
theorem compareStageFields_active_only_witness :
    (flagged "1410736" "updated").attr "1410736" "deleted" ≠ "true"
    ∧ (flagged "1410736" "updated").attr "1410736" "new" ≠ "true"
    ∧ (oneParam "c" "3").lookup "c" = some "3"
    ∧ (oneParam "b" "2").lookup "c" = none
    ∧ (compareStageFields CompareJSValue (flagged "1410736" "updated") "1410736"
        (oneParam "b" "2") (oneParam "c" "3")).2.lookup "c" = some ⟨"c", "-", "3", false⟩
    ∧ (compareStageFields CompareJSValue (flagged "1410736" "updated") "1410736"
        (oneParam "b" "2") (oneParam "c" "3")).1 = false :=
  ⟨by decide, by decide, by decide, by decide,
    compareStageFields_active_only CompareJSValue (flagged "1410736" "updated") "1410736"
      (oneParam "b" "2") (oneParam "c" "3") "c" "3" (by decide) (by decide) (by decide)
      (by decide)⟩

/-- C7, what the code does at the failing input: for an updated bundle whose
staged and active set are the same set with the one key `k` bound to the empty
value, the key is in the comparison map and `allMatch` is false, whatever the
value comparison; when the comparison reports the two empty values as equal the
entry is the one of a parameter removed from staging. -/
theorem compareStageFields_identical_empty_value_reported
    (cmp : String → String → String → String × String × Bool) (k : String) :
    ((compareStageFields cmp (flagged "1410736" "updated") "1410736" (oneParam k "")
        (oneParam k "")).2.lookup k).isSome = true
    ∧ (compareStageFields cmp (flagged "1410736" "updated") "1410736" (oneParam k "")
        (oneParam k "")).1 = false
    ∧ ((cmp "" "" "").2.2 = true →
        (compareStageFields cmp (flagged "1410736" "updated") "1410736" (oneParam k "")
          (oneParam k "")).2.lookup k = some ⟨k, "-", "", false⟩) := by
  rw [compareStageFields_updated cmp _ _ _ _ (by decide) (by decide)]
  cases h : (cmp "" "" "").2.2 <;>
    simp [oneParam, GoMap.insert, GoMap.empty, insertEntry, insertWhen, GoMap.get, GoMap.lookup,
      lookupEntry, h]

/-- What holds of C7: for an updated bundle, a key that is in both sets with a
staged value other than the empty string, and whose two values the value
comparison reports as equal, is not in the comparison map. -/
theorem compareStageFields_matching_key_absent
    (cmp : String → String → String → String × String × Bool)
    (stgFiles : stageFiles) (sName : String) (stage work : GoMap String) (k sv wv : String)
    (hd : stgFiles.attr sName "deleted" ≠ "true") (hn : stgFiles.attr sName "new" ≠ "true")
    (hs : stage.lookup k = some sv) (hw : work.lookup k = some wv) (hne : sv ≠ "")
    (hm : (cmp sv wv "").2.2 = true) :
    (compareStageFields cmp stgFiles sName stage work).2.lookup k = none := by
  have hgs : stage.get k = sv := GoMap.get_of_lookup_some stage k sv hs
  have hgw : work.get k = wv := GoMap.get_of_lookup_some work k wv hw
  rw [compareStageFields_updated cmp stgFiles sName stage work hd hn,
    foldl_insertWhen_lookup _ _ _ stage.nodup, foldl_insertWhen_lookup _ _ _ work.nodup]
  have hs2 : lookupEntry k stage.entries = some sv := hs
  have hw2 : lookupEntry k work.entries = some wv := hw
  simp [hs2, hw2, hgs, hgw, hm, hne, GoMap.lookup_empty]

theorem lookupEntry_of_mem {V : Type} (l : List (String × V)) (hl : (l.map Prod.fst).Nodup)
    (e : String × V) (he : e ∈ l) : lookupEntry e.1 l = some e.2 := by
  induction l with
  | nil => simp at he
  | cons a t ih =>
    have ht : (t.map Prod.fst).Nodup := (List.nodup_cons.1 (by simpa using hl)).2
    have ha : a.1 ∉ t.map Prod.fst := (List.nodup_cons.1 (by simpa using hl)).1
    rcases List.mem_cons.1 he with h | h
    · subst h
      simp [lookupEntry]
    · have hne : ¬ a.1 = e.1 := by
        intro h2
        apply ha
        rw [h2]
        exact List.mem_map_of_mem Prod.fst h
      simp only [lookupEntry, hne, if_false]
      exact ih ht h

theorem foldl_insertWhen_idle (c : String × String → Bool)
    (f : String × String → stageComparison) (l : List (String × String))
    (a : Bool × GoMap stageComparison) (h : ∀ e ∈ l, c e = false) :
    l.foldl (insertWhen c f) a = a := by
  induction l generalizing a with
  | nil => rfl
  | cons e t ih =>
    have he : c e = false := h e (List.mem_cons_self e t)
    rw [List.foldl_cons]
    have hstep : insertWhen c f a e = a := by simp [insertWhen, he]
    rw [hstep]
    exact ih a (fun x hx => h x (List.mem_cons_of_mem e hx))

/-- What holds of C7 for whole sets: for an updated bundle and a value
comparison that reports every value as equal to itself, comparing a parameter
set in which no value is the empty string with an identical copy yields the
empty map and `allMatch = true`. -/
theorem compareStageFields_identical_copy
    (cmp : String → String → String → String × String × Bool)
    (stgFiles : stageFiles) (sName : String) (stage : GoMap String)
    (hd : stgFiles.attr sName "deleted" ≠ "true") (hn : stgFiles.attr sName "new" ≠ "true")
    (hrefl : ∀ v, (cmp v v "").2.2 = true)
    (hne : ∀ e ∈ stage.entries, e.2 ≠ "") :
    compareStageFields cmp stgFiles sName stage stage = (true, GoMap.empty) := by
  have hget : ∀ e ∈ stage.entries, stage.get e.1 = e.2 := by
    intro e he
    exact GoMap.get_of_lookup_some stage e.1 e.2 (lookupEntry_of_mem stage.entries stage.nodup e he)
  rw [compareStageFields_updated cmp stgFiles sName stage stage hd hn]
  rw [foldl_insertWhen_idle _ _ stage.entries (true, GoMap.empty)
    (fun e he => by simp [hget e he, hne e he])]
  exact foldl_insertWhen_idle _ _ stage.entries (true, GoMap.empty)
    (fun e he => by simp [hget e he, hrefl])

/-! ## Promotion: `mvStageToWork` -/

theorem removeDeleted_spec {σ : Type} (E : Env σ) (stageName stagingFile workingFile : String)
    (p : Proc σ) :
    (removeDeleted E stageName stagingFile workingFile p).2.calls
        = p.calls ++ [Syscall.remove workingFile, Syscall.remove stagingFile]
    ∧ (removeDeleted E stageName stagingFile workingFile p).2.fs
        = (E.Remove (E.Remove p.fs workingFile).2 stagingFile).2
    ∧ (removeDeleted E stageName stagingFile workingFile p).1
        = (if (E.Remove p.fs workingFile).1 = none
              ∧ (E.Remove (E.Remove p.fs workingFile).2 stagingFile).1 = none
            then none
            else some ("Problems during removal of deleted Note '" ++ stageName ++ "'")) := by
  unfold removeDeleted
  cases h1 : (E.Remove p.fs workingFile).1 <;>
    cases h2 : (E.Remove (E.Remove p.fs workingFile).2 stagingFile).1 <;>
    simp [Proc.call, Proc.ErrorLog, h1, h2]

/-- C8: when `os.Stat` finds the bundle's file in the active area and reports it
as not existing in the distribution area, `mvStageToWork` issues, after the two
stat calls, exactly the removal of the active file and then the removal of the
staged file (on the file system the first removal left, whether it failed or
not) and no rename; it returns an error if and only if at least one of the two
removals failed. -/
theorem mvStageToWork_decommission {σ : Type} (E : Env σ) (stgFiles : stageFiles)
    (stageName : String) (p : Proc σ)
    (hw : E.Stat p.fs (stgFiles.attr stageName "wfilename") = StatResult.found)
    (hp : E.Stat p.fs (stgFiles.attr stageName "pfilename") = StatResult.notExist) :
    (mvStageToWork E stgFiles stageName p).2.calls
        = p.calls ++ [Syscall.stat (stgFiles.attr stageName "wfilename"),
            Syscall.stat (stgFiles.attr stageName "pfilename"),
            Syscall.remove (stgFiles.attr stageName "wfilename"),
            Syscall.remove (stgFiles.attr stageName "sfilename")]
    ∧ (mvStageToWork E stgFiles stageName p).2.fs
        = (E.Remove (E.Remove p.fs (stgFiles.attr stageName "wfilename")).2
            (stgFiles.attr stageName "sfilename")).2
    ∧ ((mvStageToWork E stgFiles stageName p).1 ≠ none
        ↔ ((E.Remove p.fs (stgFiles.attr stageName "wfilename")).1 ≠ none
          ∨ (E.Remove (E.Remove p.fs (stgFiles.attr stageName "wfilename")).2
              (stgFiles.attr stageName "sfilename")).1 ≠ none)) := by
  have h := removeDeleted_spec E stageName (stgFiles.attr stageName "sfilename")
    (stgFiles.attr stageName "wfilename")
    ((p.call (Syscall.stat (stgFiles.attr stageName "wfilename"))).call
      (Syscall.stat (stgFiles.attr stageName "pfilename")))
  have hfs : ((p.call (Syscall.stat (stgFiles.attr stageName "wfilename"))).call
      (Syscall.stat (stgFiles.attr stageName "pfilename"))).fs = p.fs := rfl
  rw [hfs] at h
  have hmv : mvStageToWork E stgFiles stageName p
      = removeDeleted E stageName (stgFiles.attr stageName "sfilename")
          (stgFiles.attr stageName "wfilename")
          ((p.call (Syscall.stat (stgFiles.attr stageName "wfilename"))).call
            (Syscall.stat (stgFiles.attr stageName "pfilename"))) := by
    unfold mvStageToWork
    have hfs1 : (p.call (Syscall.stat (stgFiles.attr stageName "wfilename"))).fs = p.fs := rfl
    simp only [hw, hfs1, hp, if_true]
  rw [hmv]
  refine ⟨?_, h.2.1, ?_⟩
  · rw [h.1]
    simp [Proc.call]
  · rw [h.2.2]
    by_cases h1 : (E.Remove p.fs (stgFiles.attr stageName "wfilename")).1 = none <;>
      by_cases h2 : (E.Remove (E.Remove p.fs (stgFiles.attr stageName "wfilename")).2
        (stgFiles.attr stageName "sfilename")).1 = none <;> simp [h1, h2]

/-- Witness of C8 on the sample file system: 8888880 is active and no longer
distributed. -/
theorem mvStageToWork_decommission_witness :
    sampleEnv.Stat (Proc.start sampleFS []).fs (sampleRegistry.attr "8888880" "wfilename")
        = StatResult.found
    ∧ sampleEnv.Stat (Proc.start sampleFS []).fs (sampleRegistry.attr "8888880" "pfilename")
        = StatResult.notExist
    ∧ (mvStageToWork sampleEnv sampleRegistry "8888880" (Proc.start sampleFS [])).2.calls
        = (Proc.start sampleFS []).calls
          ++ [Syscall.stat (sampleRegistry.attr "8888880" "wfilename"),
            Syscall.stat (sampleRegistry.attr "8888880" "pfilename"),
            Syscall.remove (sampleRegistry.attr "8888880" "wfilename"),
            Syscall.remove (sampleRegistry.attr "8888880" "sfilename")] :=
  ⟨by decide, by decide,
    (mvStageToWork_decommission sampleEnv sampleRegistry "8888880" (Proc.start sampleFS [])
      (by decide) (by decide)).1⟩

theorem mvStageToWork_move {σ : Type} (E : Env σ) (stgFiles : stageFiles)
    (stageName : String) (p : Proc σ)
    (h : E.Stat p.fs (stgFiles.attr stageName "pfilename") ≠ StatResult.notExist) :
    (mvStageToWork E stgFiles stageName p).1
        = (E.Rename p.fs (stgFiles.attr stageName "sfilename")
            (stgFiles.attr stageName "wfilename")).1
    ∧ (mvStageToWork E stgFiles stageName p).2.fs
        = (E.Rename p.fs (stgFiles.attr stageName "sfilename")
            (stgFiles.attr stageName "wfilename")).2 := by
  unfold mvStageToWork
  have hfs1 : (p.call (Syscall.stat (stgFiles.attr stageName "wfilename"))).fs = p.fs := rfl
  simp only [hfs1, h, if_false]
  cases hr : (E.Rename p.fs (stgFiles.attr stageName "sfilename")
      (stgFiles.attr stageName "wfilename")).1 <;>
    split <;> simp [moveStaged, Proc.call, Proc.ErrorLog, hr]

theorem lookupEntry_filter_ne {V : Type} (k q : String) (l : List (String × V)) :
    lookupEntry q (l.filter (fun e => e.1 ≠ k)) = if q = k then none else lookupEntry q l := by
  induction l with
  | nil => simp [lookupEntry]
  | cons e t ih =>
    simp only [ne_eq, decide_not] at ih ⊢
    by_cases h : e.1 = k
    · by_cases h2 : q = k
      · simpa [List.filter, h, h2] using ih
      · have h3 : ¬ e.1 = q := fun h4 => h2 (h4.symm.trans h)
        have h5 : ¬ k = q := fun h4 => h2 h4.symm
        simpa [List.filter, h, h2, lookupEntry, h3, h5] using ih
    · by_cases h2 : e.1 = q
      · have h3 : ¬ q = k := fun h4 => h (h2.trans h4)
        simp [List.filter, h, lookupEntry, h2, h3]
      · simpa [List.filter, h, lookupEntry, h2] using ih

/-- Outside of the removal branch `mvStageToWork` is the move: its error and its file
system are those of the rename. -/
theorem mvStageToWork_moves {σ : Type} (E : Env σ) (stgFiles : stageFiles)
    (stageName : String) (p : Proc σ)
    (h : ¬ (E.Stat p.fs (stgFiles.attr stageName "wfilename") = StatResult.found
      ∧ E.Stat p.fs (stgFiles.attr stageName "pfilename") = StatResult.notExist)) :
    (mvStageToWork E stgFiles stageName p).1
        = (E.Rename p.fs (stgFiles.attr stageName "sfilename")
            (stgFiles.attr stageName "wfilename")).1
    ∧ (mvStageToWork E stgFiles stageName p).2.fs
        = (E.Rename p.fs (stgFiles.attr stageName "sfilename")
            (stgFiles.attr stageName "wfilename")).2 := by
  unfold mvStageToWork
  have hfs1 : (p.call (Syscall.stat (stgFiles.attr stageName "wfilename"))).fs = p.fs := rfl
  simp only [hfs1]
  by_cases hw : E.Stat p.fs (stgFiles.attr stageName "wfilename") = StatResult.found
  · have hp : E.Stat p.fs (stgFiles.attr stageName "pfilename") ≠ StatResult.notExist :=
      fun hp => h ⟨hw, hp⟩
    simp only [hw, hp, if_true, if_false]
    cases hr : (E.Rename p.fs (stgFiles.attr stageName "sfilename")
        (stgFiles.attr stageName "wfilename")).1 <;>
      simp [moveStaged, Proc.call, Proc.ErrorLog, hr]
  · simp only [hw, if_false]
    cases hr : (E.Rename p.fs (stgFiles.attr stageName "sfilename")
        (stgFiles.attr stageName "wfilename")).1 <;>
      simp [moveStaged, Proc.call, Proc.ErrorLog, hr]

/-- In the removal branch the file system `mvStageToWork` leaves is that of the two
removals. -/
theorem mvStageToWork_removes {σ : Type} (E : Env σ) (stgFiles : stageFiles)
    (stageName : String) (p : Proc σ)
    (hw : E.Stat p.fs (stgFiles.attr stageName "wfilename") = StatResult.found)
    (hp : E.Stat p.fs (stgFiles.attr stageName "pfilename") = StatResult.notExist) :
    (mvStageToWork E stgFiles stageName p).2.fs
      = (E.Remove (E.Remove p.fs (stgFiles.attr stageName "wfilename")).2
          (stgFiles.attr stageName "sfilename")).2 := by
  unfold mvStageToWork
  have hfs1 : (p.call (Syscall.stat (stgFiles.attr stageName "wfilename"))).fs = p.fs := rfl
  simp only [hfs1, hw, hp, if_true, Proc.call]
  exact (removeDeleted_spec E stageName _ _ _).2.1

/-- A successful rename of a regular file: both paths are accessible, and the file has
moved, or nothing has changed when source and target are the same path. -/
theorem FileSys.rename_file (fs : FileSys) (src dst c : String)
    (hc : fs.content src = some c) (hok : (fs.Rename src dst).1 = none) :
    src ∉ fs.denied ∧ dst ∉ fs.denied
    ∧ (fs.Rename src dst).2
        = (if src = dst then fs
          else { fs with files := insertEntry dst c (fs.erase src).files }) := by
  by_cases hden : src ∈ fs.denied ∨ dst ∈ fs.denied
  · simp [FileSys.Rename, hden] at hok
  · have h1 : src ∉ fs.denied := fun h => hden (Or.inl h)
    have h2 : dst ∉ fs.denied := fun h => hden (Or.inr h)
    refine ⟨h1, h2, ?_⟩
    by_cases hdir : dst ∈ fs.dirs
    · simp [FileSys.Rename, hden, hdir] at hok
    · by_cases hund : fs.underFile src = true ∨ fs.underFile dst = true
      · simp [FileSys.Rename, hden, hdir, hund] at hok
      · by_cases hsd : src = dst
        · subst hsd
          have hu : fs.underFile src = false := by
            cases hb : fs.underFile src
            · rfl
            · exact absurd (Or.inl hb) hund
          simp [FileSys.Rename, h1, hdir, hc, hu]
        · by_cases hpar : FileSys.parent dst ∈ fs.dirs
          · simp [FileSys.Rename, hden, hdir, hund, hc, hsd, hpar]
          · simp [FileSys.Rename, hden, hdir, hund, hc, hsd, hpar] at hok

/-- A rename whose source is no regular file and whose target is one fails and changes
nothing. -/
theorem FileSys.rename_gone (fs : FileSys) (src dst c : String)
    (hs : fs.content src = none) (hd : fs.content dst = some c) :
    (fs.Rename src dst).1 ≠ none ∧ (fs.Rename src dst).2 = fs := by
  unfold FileSys.Rename
  by_cases hden : src ∈ fs.denied ∨ dst ∈ fs.denied
  · simp [hden]
  · by_cases hdir : dst ∈ fs.dirs
    · simp [hden, hdir]
    · by_cases hund : fs.underFile src = true ∨ fs.underFile dst = true
      · simp [hden, hdir, hund]
      · by_cases hsdir : src ∈ fs.dirs
        · simp [hden, hdir, hund, hs, hd, hsdir]
        · simp [hden, hdir, hund, hs, hsdir]

/-- `os.Remove` creates no file. -/
theorem FileSys.remove_content_none (fs : FileSys) (path q : String)
    (h : fs.content q = none) : (fs.Remove path).2.content q = none := by
  unfold FileSys.Remove
  by_cases hden : path ∈ fs.denied
  · simp [hden, h]
  · cases hc : fs.content path with
    | some c =>
      simp only [hden, if_false]
      simp only [FileSys.content, FileSys.erase, lookupEntry_filter_ne]
      split
      · rfl
      · exact h
    | none =>
      simp only [hden, if_false]
      split
      · split
        · exact h
        · exact h
      · split
        · exact h
        · exact h

/-- `os.Remove` of an accessible regular file leaves no file at its path. -/
theorem FileSys.remove_file (fs : FileSys) (path c : String)
    (hden : path ∉ fs.denied) (hc : fs.content path = some c) :
    (fs.Remove path).2.content path = none := by
  unfold FileSys.Remove
  simp only [hden, if_false, hc]
  simp only [FileSys.content, FileSys.erase, lookupEntry_filter_ne, if_true]

/-- What a rename of a regular file leaves: the content by path, and the same denied paths
and directories. -/
theorem FileSys.rename_file_content (fs : FileSys) (src dst c : String)
    (hc : fs.content src = some c) (hok : (fs.Rename src dst).1 = none) :
    (fs.Rename src dst).2.denied = fs.denied
    ∧ (fs.Rename src dst).2.dirs = fs.dirs
    ∧ ∀ q, (fs.Rename src dst).2.content q
        = if q = dst then some c else if q = src then none else fs.content q := by
  obtain ⟨-, -, h⟩ := FileSys.rename_file fs src dst c hc hok
  rw [h]
  by_cases hsd : src = dst
  · rw [if_pos hsd]
    refine ⟨rfl, rfl, ?_⟩
    intro q
    by_cases hq : q = dst
    · rw [if_pos hq, hq, ← hsd]; exact hc
    · rw [if_neg hq, if_neg (by rw [hsd]; exact hq)]
  · rw [if_neg hsd]
    refine ⟨rfl, rfl, ?_⟩
    intro q
    simp only [FileSys.content, FileSys.erase, lookupEntry_insertEntry, lookupEntry_filter_ne]

/-- Two tests that agree on the members of a list agree on whether it has a member that
passes. -/
theorem any_eq_of_agree {α : Type} (f g : α → Bool) (l : List α)
    (h : ∀ a ∈ l, f a = g a) : l.any f = l.any g := by
  induction l with
  | nil => rfl
  | cons x xs ih =>
    rw [List.any_cons, List.any_cons, h x (List.mem_cons_self _ _),
      ih (fun a ha => h a (List.mem_cons_of_mem _ ha))]

/-- C9, as amended: take a bundle whose staged file has content `c`, that is not taken for
deleted (the active file is not found or the distribution file is not reported missing) and
whose move into the active area succeeds.  The first `mvStageToWork` returns no error and
leaves the active file with content `c`; it does not change what `os.Stat` reports for a
distribution file at another path than the staged and the active file and not below
them.  The second run
decides on the file system the first one left.  When the distribution file is then not
reported missing, the second run changes nothing, so the active file still has content `c`:
it returns no error when staged and active file are the same path (a move onto itself), and
otherwise an error, the staged file being gone and the rename failing.  When the
distribution file is then reported missing, the second run takes the bundle for deleted and
no active file is left. -/
theorem mvStageToWork_twice (E : Env FileSys) (stgFiles : stageFiles) (stageName : String)
    (p : Proc FileSys) (c : String)
    (hs : p.fs.content (stgFiles.attr stageName "sfilename") = some c)
    (hnd : ¬ (p.fs.Stat (stgFiles.attr stageName "wfilename") = StatResult.found
      ∧ p.fs.Stat (stgFiles.attr stageName "pfilename") = StatResult.notExist))
    (hmv : (p.fs.Rename (stgFiles.attr stageName "sfilename")
      (stgFiles.attr stageName "wfilename")).1 = none) :
    (mvStageToWork E.onFileSys stgFiles stageName p).1 = none
    ∧ (mvStageToWork E.onFileSys stgFiles stageName p).2.fs.content
        (stgFiles.attr stageName "wfilename") = some c
    ∧ (stgFiles.attr stageName "pfilename" ≠ stgFiles.attr stageName "sfilename" →
        stgFiles.attr stageName "pfilename" ≠ stgFiles.attr stageName "wfilename" →
        stgFiles.attr stageName "sfilename"
          ∉ FileSys.ancestors (stgFiles.attr stageName "pfilename") →
        stgFiles.attr stageName "wfilename"
          ∉ FileSys.ancestors (stgFiles.attr stageName "pfilename") →
        (mvStageToWork E.onFileSys stgFiles stageName p).2.fs.Stat
            (stgFiles.attr stageName "pfilename")
          = p.fs.Stat (stgFiles.attr stageName "pfilename"))
    ∧ ((mvStageToWork E.onFileSys stgFiles stageName p).2.fs.Stat
          (stgFiles.attr stageName "pfilename") ≠ StatResult.notExist →
        (mvStageToWork E.onFileSys stgFiles stageName
            (mvStageToWork E.onFileSys stgFiles stageName p).2).2.fs
          = (mvStageToWork E.onFileSys stgFiles stageName p).2.fs
        ∧ (mvStageToWork E.onFileSys stgFiles stageName
            (mvStageToWork E.onFileSys stgFiles stageName p).2).2.fs.content
            (stgFiles.attr stageName "wfilename") = some c
        ∧ (stgFiles.attr stageName "sfilename" = stgFiles.attr stageName "wfilename" →
            (mvStageToWork E.onFileSys stgFiles stageName
              (mvStageToWork E.onFileSys stgFiles stageName p).2).1 = none)
        ∧ (stgFiles.attr stageName "sfilename" ≠ stgFiles.attr stageName "wfilename" →
            (mvStageToWork E.onFileSys stgFiles stageName
              (mvStageToWork E.onFileSys stgFiles stageName p).2).1 ≠ none))
    ∧ ((mvStageToWork E.onFileSys stgFiles stageName p).2.fs.Stat
          (stgFiles.attr stageName "pfilename") = StatResult.notExist →
        (mvStageToWork E.onFileSys stgFiles stageName
            (mvStageToWork E.onFileSys stgFiles stageName p).2).2.fs.content
            (stgFiles.attr stageName "wfilename") = none) := by
  obtain ⟨e1, f1⟩ := mvStageToWork_moves E.onFileSys stgFiles stageName p hnd
  have hR : E.onFileSys.Rename = FileSys.Rename := rfl
  rw [hR] at e1 f1
  obtain ⟨hds, hdw, hfs⟩ := FileSys.rename_file p.fs _ _ c hs hmv
  obtain ⟨r1, r2, r3⟩ := FileSys.rename_file_content p.fs _ _ c hs hmv
  rw [← f1] at r1 r2 r3
  have hw1 : (mvStageToWork E.onFileSys stgFiles stageName p).2.fs.content
      (stgFiles.attr stageName "wfilename") = some c := by
    rw [r3]; simp
  have hstatw : (mvStageToWork E.onFileSys stgFiles stageName p).2.fs.Stat
      (stgFiles.attr stageName "wfilename") = StatResult.found := by
    unfold FileSys.Stat
    rw [r1, if_neg hdw, hw1]
    simp
  refine ⟨by rw [e1]; exact hmv, hw1, ?_, ?_, ?_⟩
  · intro hps hpw has haw
    have hund : (mvStageToWork E.onFileSys stgFiles stageName p).2.fs.underFile
        (stgFiles.attr stageName "pfilename")
          = p.fs.underFile (stgFiles.attr stageName "pfilename") := by
      unfold FileSys.underFile
      refine any_eq_of_agree _ _ _ ?_
      intro a ha
      have h1 : a ≠ stgFiles.attr stageName "wfilename" := fun h => haw (h ▸ ha)
      have h2 : a ≠ stgFiles.attr stageName "sfilename" := fun h => has (h ▸ ha)
      rw [r3, if_neg h1, if_neg h2]
    unfold FileSys.Stat
    rw [r1, r2, r3, if_neg hpw, if_neg hps, hund]
  · intro hB
    have hnd2 : ¬ (E.onFileSys.Stat (mvStageToWork E.onFileSys stgFiles stageName p).2.fs
          (stgFiles.attr stageName "wfilename") = StatResult.found
        ∧ E.onFileSys.Stat (mvStageToWork E.onFileSys stgFiles stageName p).2.fs
          (stgFiles.attr stageName "pfilename") = StatResult.notExist) :=
      fun h => hB h.2
    obtain ⟨e2, f2⟩ := mvStageToWork_moves E.onFileSys stgFiles stageName
      (mvStageToWork E.onFileSys stgFiles stageName p).2 hnd2
    rw [hR] at e2 f2
    by_cases hsw : stgFiles.attr stageName "sfilename" = stgFiles.attr stageName "wfilename"
    · have hsame : (mvStageToWork E.onFileSys stgFiles stageName p).2.fs = p.fs := by
        rw [f1, hfs, if_pos hsw]
      rw [hsame] at e2 f2 ⊢
      rw [hfs, if_pos hsw] at f2
      refine ⟨f2, ?_, fun _ => by rw [e2]; exact hmv, fun h => absurd hsw h⟩
      rw [f2, ← hsame]; exact hw1
    · have hs1 : (mvStageToWork E.onFileSys stgFiles stageName p).2.fs.content
          (stgFiles.attr stageName "sfilename") = none := by
        rw [r3]; simp [hsw]
      obtain ⟨m1, m2⟩ := FileSys.rename_gone
        (mvStageToWork E.onFileSys stgFiles stageName p).2.fs _ _ c hs1 hw1
      refine ⟨by rw [f2, m2], by rw [f2, m2]; exact hw1, fun h => absurd h hsw, ?_⟩
      intro _; rw [e2]; exact m1
  · intro hC
    rw [mvStageToWork_removes E.onFileSys stgFiles stageName
      (mvStageToWork E.onFileSys stgFiles stageName p).2 hstatw hC]
    have hRm : E.onFileSys.Remove = FileSys.Remove := rfl
    rw [hRm]
    refine FileSys.remove_content_none _ _ _ ?_
    refine FileSys.remove_file _ _ c ?_ hw1
    rw [r1]; exact hdw

/-- Witness of C9 as amended on the sample file system.  Bundle 9999990 is staged only: the
first run moves it into the active area, and the second run, finding no distribution file,
leaves no active file.  Bundle 1410736 is staged, active and distributed: the first run
replaces the active file, the second run changes nothing and returns an error. -/
theorem mvStageToWork_twice_witness :
    sampleFS.content (sampleRegistry.attr "9999990" "sfilename")
        = some "[version]\n[sysctl]\na = 1\n"
    ∧ sampleFS.Stat (sampleRegistry.attr "9999990" "wfilename") = StatResult.notExist
    ∧ (sampleFS.Rename (sampleRegistry.attr "9999990" "sfilename")
        (sampleRegistry.attr "9999990" "wfilename")).1 = none
    ∧ (mvStageToWork sampleEnv.onFileSys sampleRegistry "9999990" (Proc.start sampleFS [])).1
        = none
    ∧ (mvStageToWork sampleEnv.onFileSys sampleRegistry "9999990"
        (Proc.start sampleFS [])).2.fs.content (sampleRegistry.attr "9999990" "wfilename")
        = some "[version]\n[sysctl]\na = 1\n"
    ∧ (mvStageToWork sampleEnv.onFileSys sampleRegistry "9999990"
        (mvStageToWork sampleEnv.onFileSys sampleRegistry "9999990"
          (Proc.start sampleFS [])).2).2.fs.content (sampleRegistry.attr "9999990" "wfilename")
        = none
    ∧ sampleFS.content (sampleRegistry.attr "1410736" "sfilename")
        = some "[version]\n[sysctl]\nb = 2\n"
    ∧ sampleFS.Stat (sampleRegistry.attr "1410736" "pfilename") = StatResult.found
    ∧ (mvStageToWork sampleEnv.onFileSys sampleRegistry "1410736"
        (Proc.start sampleFS [])).2.fs.content (sampleRegistry.attr "1410736" "wfilename")
        = some "[version]\n[sysctl]\nb = 2\n"
    ∧ (mvStageToWork sampleEnv.onFileSys sampleRegistry "1410736"
        (mvStageToWork sampleEnv.onFileSys sampleRegistry "1410736"
          (Proc.start sampleFS [])).2).2.fs.content (sampleRegistry.attr "1410736" "wfilename")
        = some "[version]\n[sysctl]\nb = 2\n"
    ∧ (mvStageToWork sampleEnv.onFileSys sampleRegistry "1410736"
        (mvStageToWork sampleEnv.onFileSys sampleRegistry "1410736"
          (Proc.start sampleFS [])).2).1 ≠ none :=
  ⟨by decide, by decide, by decide,
    (mvStageToWork_twice sampleEnv sampleRegistry "9999990" (Proc.start sampleFS [])
      "[version]\n[sysctl]\na = 1\n" (by decide) (by decide) (by decide)).1,
    (mvStageToWork_twice sampleEnv sampleRegistry "9999990" (Proc.start sampleFS [])
      "[version]\n[sysctl]\na = 1\n" (by decide) (by decide) (by decide)).2.1,
    (mvStageToWork_twice sampleEnv sampleRegistry "9999990" (Proc.start sampleFS [])
      "[version]\n[sysctl]\na = 1\n" (by decide) (by decide) (by decide)).2.2.2.2 (by decide),
    by decide, by decide,
    (mvStageToWork_twice sampleEnv sampleRegistry "1410736" (Proc.start sampleFS [])
      "[version]\n[sysctl]\nb = 2\n" (by decide) (by decide) (by decide)).2.1,
    ((mvStageToWork_twice sampleEnv sampleRegistry "1410736" (Proc.start sampleFS [])
      "[version]\n[sysctl]\nb = 2\n" (by decide) (by decide) (by decide)).2.2.2.1
        (by decide)).2.1,
    ((mvStageToWork_twice sampleEnv sampleRegistry "1410736" (Proc.start sampleFS [])
      "[version]\n[sysctl]\nb = 2\n" (by decide) (by decide) (by decide)).2.2.2.1
        (by decide)).2.2.2 (by decide)⟩

/-- Counterexample to C9 as stated.  Bundle 9999990 of the sample file system is
staged, flagged new and not deleted, and has no distribution file: the first
`mvStageToWork` moves it into the active area, and the second one finds it
active and not distributed and removes it, so that no active copy is left.
Bundle 1410736 is distributed: its second run is neither a move onto itself nor
an overwrite, the rename fails and an error is returned. -/
theorem mvStageToWork_twice_removes_new_bundle :
    sampleRegistry.attr "9999990" "deleted" = "false"
    ∧ sampleRegistry.attr "9999990" "new" = "true"
    ∧ sampleFS.content (sampleRegistry.attr "9999990" "sfilename")
        = some "[version]\n[sysctl]\na = 1\n"
    ∧ (mvStageToWork sampleEnv sampleRegistry "9999990" (Proc.start sampleFS [])).1 = none
    ∧ (mvStageToWork sampleEnv sampleRegistry "9999990"
        (Proc.start sampleFS [])).2.fs.content (sampleRegistry.attr "9999990" "wfilename")
        = some "[version]\n[sysctl]\na = 1\n"
    ∧ (mvStageToWork sampleEnv sampleRegistry "9999990"
        (mvStageToWork sampleEnv sampleRegistry "9999990"
          (Proc.start sampleFS [])).2).2.fs.content (sampleRegistry.attr "9999990" "wfilename")
        = none
    ∧ (mvStageToWork sampleEnv sampleRegistry "9999990"
        (mvStageToWork sampleEnv sampleRegistry "9999990"
          (Proc.start sampleFS [])).2).2.calls
        = [Syscall.stat "/var/lib/saptune/working/notes/9999990",
            Syscall.rename "/var/lib/saptune/staging/latest/9999990"
              "/var/lib/saptune/working/notes/9999990",
            Syscall.stat "/var/lib/saptune/working/notes/9999990",
            Syscall.stat "/usr/share/saptune/notes/9999990",
            Syscall.remove "/var/lib/saptune/working/notes/9999990",
            Syscall.remove "/var/lib/saptune/staging/latest/9999990"]
    ∧ (mvStageToWork sampleEnv sampleRegistry "1410736"
        (mvStageToWork sampleEnv sampleRegistry "1410736" (Proc.start sampleFS [])).2).1
        = some ("rename /var/lib/saptune/staging/latest/1410736 "
            ++ "/var/lib/saptune/working/notes/1410736: no such file or directory") := by
  decide

/-- Where the move cannot be made the first run already leaves no active copy: on `bareFS`
the directory of the active file is missing, the rename of bundle 9999990 fails with "no
such file or directory", the error is returned, and the staged file stays where it is. -/
theorem mvStageToWork_no_active_directory :
    bareRegistry.attr "9999990" "deleted" = "false"
    ∧ bareFS.content (bareRegistry.attr "9999990" "sfilename")
        = some "[version]\n[sysctl]\na = 1\n"
    ∧ (mvStageToWork sampleEnv bareRegistry "9999990" (Proc.start bareFS [])).1
        = some ("rename /var/lib/saptune/staging/latest/9999990 "
            ++ "/var/lib/saptune/working/notes/9999990: no such file or directory")
    ∧ (mvStageToWork sampleEnv bareRegistry "9999990" (Proc.start bareFS [])).2.fs = bareFS
    ∧ (mvStageToWork sampleEnv bareRegistry "9999990" (Proc.start bareFS [])).2.fs.content
        (bareRegistry.attr "9999990" "wfilename") = none := by
  refine ⟨by decide, by decide, by decide, rfl, by decide⟩

/-! ## Release of "all": `stagingActionRelease` -/

theorem checkStaged_spec {σ : Type} (E : Env σ) (stgFiles : stageFiles) (stageName : String)
    (errs : List String) (p : Proc σ) :
    (checkStaged E stgFiles stageName (errs, p)).2
        = (checkStaged E stgFiles stageName ([], p)).2
    ∧ (checkStaged E stgFiles stageName (errs, p)).1
        = errs ++ (checkStaged E stgFiles stageName ([], p)).1
    ∧ ((checkStaged E stgFiles stageName ([], p)).1 ≠ []
        ↔ E.Stat p.fs (stgFiles.attr stageName "sfilename") ≠ StatResult.found)
    ∧ (checkStaged E stgFiles stageName ([], p)).2.fs = p.fs
    ∧ (checkStaged E stgFiles stageName ([], p)).2.exit = p.exit
    ∧ (checkStaged E stgFiles stageName ([], p)).2.calls
        = p.calls ++ [Syscall.stat (stgFiles.attr stageName "sfilename")] := by
  unfold checkStaged
  cases h : E.Stat p.fs (stgFiles.attr stageName "sfilename") <;>
    simp [StatResult.err, Proc.call, Proc.ErrorLog, h]

theorem releaseStep_spec {σ : Type} (E : Env σ) (stgFiles : stageFiles) (stageName : String)
    (errs : List String) (p : Proc σ) :
    (releaseStep E stgFiles (errs, p) stageName).2 = promoteStep E stgFiles p stageName
    ∧ ∃ more : List String,
        (releaseStep E stgFiles (errs, p) stageName).1 = errs ++ more
        ∧ (more ≠ [] ↔ promoteFails E stgFiles p stageName) := by
  obtain ⟨c1, c2, c3, -, -, -⟩ := checkStaged_spec E stgFiles stageName errs p
  unfold releaseStep promoteStep promoteFails
  simp only [c1, c2]
  rw [← c3]
  cases hr : (mvStageToWork E stgFiles stageName
      (checkStaged E stgFiles stageName ([], p)).2).1 with
  | none =>
    refine ⟨rfl, (checkStaged E stgFiles stageName ([], p)).1, rfl, ?_⟩
    simp
  | some err =>
    refine ⟨rfl, (checkStaged E stgFiles stageName ([], p)).1 ++ [err], ?_, ?_⟩
    · simp
    · simp

theorem releaseLoop_spec {σ : Type} (E : Env σ) (stgFiles : stageFiles) (l : List String)
    (errs : List String) (p : Proc σ) :
    (l.foldl (releaseStep E stgFiles) (errs, p)).2 = l.foldl (promoteStep E stgFiles) p
    ∧ ((l.foldl (releaseStep E stgFiles) (errs, p)).1 ≠ []
        ↔ (errs ≠ [] ∨ ∃ k name, l[k]? = some name
            ∧ promoteFails E stgFiles ((l.take k).foldl (promoteStep E stgFiles) p) name)) := by
  induction l generalizing errs p with
  | nil => simp
  | cons n t ih =>
    obtain ⟨s2, more, s1, sm⟩ := releaseStep_spec E stgFiles n errs p
    have hst : releaseStep E stgFiles (errs, p) n = (errs ++ more, promoteStep E stgFiles p n) :=
      Prod.ext s1 s2
    rw [List.foldl_cons, hst]
    obtain ⟨i1, i2⟩ := ih (errs ++ more) (promoteStep E stgFiles p n)
    refine ⟨by rw [i1, List.foldl_cons], ?_⟩
    rw [i2]
    constructor
    · rintro (h | ⟨k, name, hk, hf⟩)
      · by_cases he : errs = []
        · right
          refine ⟨0, n, by simp, ?_⟩
          have : more ≠ [] := by
            intro hm; apply h; simp [he, hm]
          simpa using sm.1 this
        · exact Or.inl he
      · right
        exact ⟨k + 1, name, by simpa using hk, by simpa using hf⟩
    · rintro (h | ⟨k, name, hk, hf⟩)
      · left; simp [h]
      · cases k with
        | zero =>
          left
          have hn : n = name := by simpa using hk
          subst hn
          have : more ≠ [] := sm.2 (by simpa using hf)
          simp [this]
        | succ k =>
          right
          exact ⟨k, name, by simpa using hk, by simpa using hf⟩

theorem mvStageToWork_frame {σ : Type} (E : Env σ) (stgFiles : stageFiles)
    (stageName : String) (p : Proc σ) :
    (mvStageToWork E stgFiles stageName p).2.exit = p.exit
    ∧ ∃ rest, (mvStageToWork E stgFiles stageName p).2.calls
        = p.calls ++ Syscall.stat (stgFiles.attr stageName "wfilename") :: rest := by
  unfold mvStageToWork removeDeleted moveStaged
  simp only [Proc.call, Proc.ErrorLog]
  cases E.Stat p.fs (stgFiles.attr stageName "wfilename") <;>
    cases E.Stat p.fs (stgFiles.attr stageName "pfilename") <;>
    cases (E.Rename p.fs (stgFiles.attr stageName "sfilename")
      (stgFiles.attr stageName "wfilename")).1 <;>
    cases h1 : (E.Remove p.fs (stgFiles.attr stageName "wfilename")).1 <;>
    cases h2 : (E.Remove (E.Remove p.fs (stgFiles.attr stageName "wfilename")).2
      (stgFiles.attr stageName "sfilename")).1 <;>
    simp [h1, h2]

theorem promoteStep_frame {σ : Type} (E : Env σ) (stgFiles : stageFiles)
    (stageName : String) (p : Proc σ) :
    (promoteStep E stgFiles p stageName).exit = p.exit
    ∧ ∃ rest, (promoteStep E stgFiles p stageName).calls
        = p.calls ++ Syscall.stat (stgFiles.attr stageName "sfilename")
            :: Syscall.stat (stgFiles.attr stageName "wfilename") :: rest := by
  obtain ⟨-, -, -, -, c5, c6⟩ := checkStaged_spec E stgFiles stageName [] p
  obtain ⟨m1, rest, m2⟩ := mvStageToWork_frame E stgFiles stageName
    (checkStaged E stgFiles stageName ([], p)).2
  unfold promoteStep
  generalize mvStageToWork E stgFiles stageName (checkStaged E stgFiles stageName ([], p)).2
    = r at m1 m2 ⊢
  obtain ⟨e, q⟩ := r
  simp only at m1 m2
  cases e <;> exact ⟨by simp [Proc.InfoLog, m1, c5], rest, by simp [Proc.InfoLog, m2, c6]⟩

theorem promoteLoop_frame {σ : Type} (E : Env σ) (stgFiles : stageFiles) (l : List String)
    (p : Proc σ) :
    (l.foldl (promoteStep E stgFiles) p).exit = p.exit
    ∧ ∃ rest, (l.foldl (promoteStep E stgFiles) p).calls = p.calls ++ rest := by
  induction l generalizing p with
  | nil => exact ⟨rfl, [], by simp⟩
  | cons n t ih =>
    obtain ⟨i1, rest, i2⟩ := ih (promoteStep E stgFiles p n)
    obtain ⟨f1, rest2, f2⟩ := promoteStep_frame E stgFiles n p
    refine ⟨by rw [List.foldl_cons, i1, f1], ?_⟩
    exact ⟨_, by rw [List.foldl_cons, i2, f2, List.append_assoc]⟩

theorem promoteLoop_calls {σ : Type} (E : Env σ) (stgFiles : stageFiles) (l : List String)
    (p : Proc σ) (name : String) (h : name ∈ l) :
    Syscall.stat (stgFiles.attr name "wfilename") ∈ (l.foldl (promoteStep E stgFiles) p).calls := by
  induction l generalizing p with
  | nil => simp at h
  | cons n t ih =>
    rw [List.foldl_cons]
    by_cases hn : name = n
    · subst hn
      obtain ⟨-, rest, i2⟩ := promoteLoop_frame E stgFiles t (promoteStep E stgFiles p name)
      obtain ⟨-, rest2, f2⟩ := promoteStep_frame E stgFiles name p
      rw [i2, f2]
      simp
    · have ht : name ∈ t := by
        rcases List.mem_cons.1 h with h1 | h1
        · exact absurd h1 hn
        · exact h1
      exact ih (promoteStep E stgFiles p n) ht

/-- C10: a release of "all" whose analysis has not ended the process and whose
confirmation is answered with yes runs the body of the release loop, with its
`mvStageToWork`, for every bundle of the registry in registry order, each on
the process state the bundle before it left, whatever the outcome for earlier
bundles: the final state is the fold of `promoteStep` over `AllStageFiles`, and
the stat call that opens each bundle's `mvStageToWork` is among the system
calls.  The process ends with exit code 126 if and only if for some bundle the
presence check of the staged file or the promotion failed; otherwise it does
not exit in `stagingActionRelease`. -/
theorem stagingActionRelease_all {σ : Type} (E : Env σ) (stgFiles : stageFiles) (p : Proc σ)
    (h0 : p.exit = none)
    (hA : (showAnalysisAll E stgFiles p).exit = none)
    (hY : (confirmRelease E (showAnalysisAll E stgFiles p)).1 = true) :
    ({ stagingActionRelease E stgFiles ["all"] p with exit := none }
        = stgFiles.AllStageFiles.foldl (promoteStep E stgFiles)
            (confirmRelease E (showAnalysisAll E stgFiles p)).2)
    ∧ (∀ name, name ∈ stgFiles.AllStageFiles →
        Syscall.stat (stgFiles.attr name "wfilename")
          ∈ (stagingActionRelease E stgFiles ["all"] p).calls)
    ∧ ((stagingActionRelease E stgFiles ["all"] p).exit = some 126
        ↔ ∃ k name, stgFiles.AllStageFiles[k]? = some name
            ∧ promoteFails E stgFiles
                ((stgFiles.AllStageFiles.take k).foldl (promoteStep E stgFiles)
                  (confirmRelease E (showAnalysisAll E stgFiles p)).2) name)
    ∧ ((stagingActionRelease E stgFiles ["all"] p).exit = some 126
        ∨ (stagingActionRelease E stgFiles ["all"] p).exit = none) := by
  obtain ⟨l1, l2⟩ := releaseLoop_spec E stgFiles stgFiles.AllStageFiles []
    (confirmRelease E (showAnalysisAll E stgFiles p)).2
  obtain ⟨f1, -⟩ := promoteLoop_frame E stgFiles stgFiles.AllStageFiles
    (confirmRelease E (showAnalysisAll E stgFiles p)).2
  have hc : (confirmRelease E (showAnalysisAll E stgFiles p)).2.exit = none := hA
  rw [hc] at f1
  have hrun : stagingActionRelease E stgFiles ["all"] p
      = if (stgFiles.AllStageFiles.foldl (releaseStep E stgFiles)
            ([], (confirmRelease E (showAnalysisAll E stgFiles p)).2)).1.length ≠ 0
        then (stgFiles.AllStageFiles.foldl (releaseStep E stgFiles)
            ([], (confirmRelease E (showAnalysisAll E stgFiles p)).2)).2.ErrorExit "" 126
        else (stgFiles.AllStageFiles.foldl (releaseStep E stgFiles)
            ([], (confirmRelease E (showAnalysisAll E stgFiles p)).2)).2 := by
    simp [stagingActionRelease, releaseAll, h0, hA, hY]
  have hlen : ((stgFiles.AllStageFiles.foldl (releaseStep E stgFiles)
      ([], (confirmRelease E (showAnalysisAll E stgFiles p)).2)).1.length ≠ 0)
      ↔ ∃ k name, stgFiles.AllStageFiles[k]? = some name
          ∧ promoteFails E stgFiles
              ((stgFiles.AllStageFiles.take k).foldl (promoteStep E stgFiles)
                (confirmRelease E (showAnalysisAll E stgFiles p)).2) name := by
    have l3 := l2
    simp only [ne_eq, not_true_eq_false, false_or] at l3
    rw [← l3]
    simp [List.length_eq_zero]
  rw [hrun, l1]
  by_cases hf : (stgFiles.AllStageFiles.foldl (releaseStep E stgFiles)
      ([], (confirmRelease E (showAnalysisAll E stgFiles p)).2)).1.length ≠ 0
  · rw [if_pos hf]
    refine ⟨?_, ?_, ?_, ?_⟩
    · simp only [Proc.ErrorExit, if_true]
      rw [← f1]
    · intro name hn
      exact promoteLoop_calls E stgFiles _ _ name hn
    · constructor
      · intro _; exact hlen.1 hf
      · intro _; simp [Proc.ErrorExit]
    · left; simp [Proc.ErrorExit]
  · rw [if_neg hf]
    refine ⟨?_, ?_, ?_, ?_⟩
    · rw [← f1]
    · intro name hn
      exact promoteLoop_calls E stgFiles _ _ name hn
    · constructor
      · intro h; rw [f1] at h; exact absurd h (by simp)
      · intro h; exact absurd (hlen.2 h) hf
    · right; exact f1

/-- Witness of C10: on `lockedFS` the operator confirms; the promotion of
1410736, first in the registry, fails, the two bundles after it are promoted all
the same, and the process ends with exit code 126. -/
theorem stagingActionRelease_all_witness :
    lockedRegistry.AllStageFiles = ["1410736", "8888880", "9999990"]
    ∧ (Proc.start lockedFS ["y"]).exit = none
    ∧ (showAnalysisAll sampleEnv lockedRegistry (Proc.start lockedFS ["y"])).exit = none
    ∧ (confirmRelease sampleEnv
        (showAnalysisAll sampleEnv lockedRegistry (Proc.start lockedFS ["y"]))).1 = true
    ∧ (stagingActionRelease sampleEnv lockedRegistry ["all"] (Proc.start lockedFS ["y"])).exit
        = some 126
    ∧ Syscall.stat (lockedRegistry.attr "9999990" "wfilename")
        ∈ (stagingActionRelease sampleEnv lockedRegistry ["all"]
            (Proc.start lockedFS ["y"])).calls :=
  ⟨by decide, by decide, by decide, by decide,
    (stagingActionRelease_all sampleEnv lockedRegistry (Proc.start lockedFS ["y"])
      (by decide) (by decide) (by decide)).2.2.1.2
      ⟨0, "1410736", by decide, Or.inr (by decide)⟩,
    (stagingActionRelease_all sampleEnv lockedRegistry (Proc.start lockedFS ["y"])
      (by decide) (by decide) (by decide)).2.1 "9999990" (by decide)⟩

/-! ## The diff engine and `diffStageObj` -/

theorem insertWhen_inv (c : String × String → Bool) (f : String × String → stageComparison)
    (l : List (String × String)) (a : Bool × GoMap stageComparison)
    (h : a.1 = true ↔ a.2.size = 0) :
    ((l.foldl (insertWhen c f) a).1 = true ↔ (l.foldl (insertWhen c f) a).2.size = 0) := by
  induction l generalizing a with
  | nil => exact h
  | cons e t ih =>
    rw [List.foldl_cons]
    apply ih
    cases hc : c e
    · simpa [insertWhen, hc] using h
    · have hne : ∀ (k : String) (v : stageComparison) (xs : List (String × stageComparison)),
          (insertEntry k v xs).length ≠ 0 := by
        intro k v xs
        cases xs with
        | nil => simp [insertEntry]
        | cons x xs => simp only [insertEntry]; split <;> simp
      have hpos : (a.2.insert e.1 (f e)).size ≠ 0 := hne e.1 (f e) a.2.entries
      simp [insertWhen, hc, hpos]

theorem compareStageFields_fst_iff
    (cmp : String → String → String → String × String × Bool)
    (stgFiles : stageFiles) (sName : String) (stage work : GoMap String) :
    ((compareStageFields cmp stgFiles sName stage work).1 = true
      ↔ (compareStageFields cmp stgFiles sName stage work).2.size = 0) := by
  have h0 : ((true, GoMap.empty) : Bool × GoMap stageComparison).1 = true
      ↔ ((true, GoMap.empty) : Bool × GoMap stageComparison).2.size = 0 := by
    simp [GoMap.size, GoMap.empty]
  unfold compareStageFields
  simp only [deletedStep_eq, newStep_eq, removedStep_eq, changedStep_eq]
  split
  · exact insertWhen_inv _ _ _ _ h0
  · split
    · exact insertWhen_inv _ _ _ _ h0
    · exact insertWhen_inv _ _ _ _ (insertWhen_inv _ _ _ _ h0)

/-- C19: for every bundle, deleted, new or updated, and every pair of staged and
active parameter sets, `compareStageFields` returns `allMatch = true` if and
only if the comparison map it returns is empty.  Hence `diffStageObj`, once both
definitions are parsed, writes the table of `PrintStageFields` whenever the map
holds a discrepancy, and logs "no diffs in staging" without writing anything
only when the map is empty. -/
theorem compareStageFields_allMatch_iff_empty {σ : Type}
    (cmp : String → String → String → String × String × Bool)
    (E : Env σ) (stgFiles : stageFiles) (sName : String) (p : Proc σ) :
    (∀ stage work : GoMap String,
      ((compareStageFields cmp stgFiles sName stage work).1 = true
        ↔ (compareStageFields cmp stgFiles sName stage work).2.size = 0))
    ∧ (∀ stagingNote workingNote : List INIEntry,
        E.ParseINIFile p.fs (stgFiles.attr sName "sfilename") = some stagingNote →
        (stgFiles.attr sName "new" ≠ "true" →
          E.ParseINIFile p.fs (stgFiles.attr sName "wfilename") = some workingNote) →
        ((compareStageFields cmp stgFiles sName
            (noteValues sName (if E.GetSolutionSelector = "ppc64le" then "ArchPPC64LE"
              else "ArchX86") stagingNote)
            (if stgFiles.attr sName "new" ≠ "true" then
              noteValues sName (if E.GetSolutionSelector = "ppc64le" then "ArchPPC64LE"
                else "ArchX86") workingNote
             else GoMap.empty)).2.size ≠ 0 →
          (diffStageObj cmp E stgFiles sName p).out
            = p.out ++ PrintStageFields E p.fs stgFiles sName
                (compareStageFields cmp stgFiles sName
                  (noteValues sName (if E.GetSolutionSelector = "ppc64le" then "ArchPPC64LE"
                    else "ArchX86") stagingNote)
                  (if stgFiles.attr sName "new" ≠ "true" then
                    noteValues sName (if E.GetSolutionSelector = "ppc64le" then "ArchPPC64LE"
                      else "ArchX86") workingNote
                   else GoMap.empty)).2)
        ∧ ((compareStageFields cmp stgFiles sName
            (noteValues sName (if E.GetSolutionSelector = "ppc64le" then "ArchPPC64LE"
              else "ArchX86") stagingNote)
            (if stgFiles.attr sName "new" ≠ "true" then
              noteValues sName (if E.GetSolutionSelector = "ppc64le" then "ArchPPC64LE"
                else "ArchX86") workingNote
             else GoMap.empty)).2.size = 0 →
          (diffStageObj cmp E stgFiles sName p).out = p.out
          ∧ (diffStageObj cmp E stgFiles sName p).log
              = p.log ++ [LogEntry.info "no diffs in staging"])) := by
  refine ⟨fun stage work => compareStageFields_fst_iff cmp stgFiles sName stage work, ?_⟩
  intro stagingNote workingNote hs hw
  by_cases hnew : stgFiles.attr sName "new" = "true"
  · have hiff := compareStageFields_fst_iff cmp stgFiles sName
      (noteValues sName (if E.GetSolutionSelector = "ppc64le" then "ArchPPC64LE"
        else "ArchX86") stagingNote) GoMap.empty
    constructor
    · intro hsize
      have hf : (compareStageFields cmp stgFiles sName
          (noteValues sName (if E.GetSolutionSelector = "ppc64le" then "ArchPPC64LE"
            else "ArchX86") stagingNote) GoMap.empty).1 = false := by
        simp only [hnew, ne_eq, not_true_eq_false, if_false] at hsize
        cases hb : (compareStageFields cmp stgFiles sName
          (noteValues sName (if E.GetSolutionSelector = "ppc64le" then "ArchPPC64LE"
            else "ArchX86") stagingNote) GoMap.empty).1
        · rfl
        · exact absurd (hiff.1 hb) hsize
      simp [diffStageObj, hs, hnew, hf]
    · intro hsize
      simp only [hnew, ne_eq, not_true_eq_false, if_false] at hsize
      have ht := hiff.2 hsize
      simp [diffStageObj, hs, hnew, ht, Proc.InfoLog]
  · have hw2 := hw hnew
    have hiff := compareStageFields_fst_iff cmp stgFiles sName
      (noteValues sName (if E.GetSolutionSelector = "ppc64le" then "ArchPPC64LE"
        else "ArchX86") stagingNote)
      (noteValues sName (if E.GetSolutionSelector = "ppc64le" then "ArchPPC64LE"
        else "ArchX86") workingNote)
    constructor
    · intro hsize
      simp only [hnew, ne_eq, not_false_eq_true, if_true] at hsize
      have hf : (compareStageFields cmp stgFiles sName
          (noteValues sName (if E.GetSolutionSelector = "ppc64le" then "ArchPPC64LE"
            else "ArchX86") stagingNote)
          (noteValues sName (if E.GetSolutionSelector = "ppc64le" then "ArchPPC64LE"
            else "ArchX86") workingNote)).1 = false := by
        cases hb : (compareStageFields cmp stgFiles sName
          (noteValues sName (if E.GetSolutionSelector = "ppc64le" then "ArchPPC64LE"
            else "ArchX86") stagingNote)
          (noteValues sName (if E.GetSolutionSelector = "ppc64le" then "ArchPPC64LE"
            else "ArchX86") workingNote)).1
        · rfl
        · exact absurd (hiff.1 hb) hsize
      simp [diffStageObj, hs, hnew, hw2, hf]
    · intro hsize
      simp only [hnew, ne_eq, not_false_eq_true, if_true] at hsize
      have ht := hiff.2 hsize
      simp [diffStageObj, hs, hnew, hw2, ht, Proc.InfoLog]

/-! ## Registry and promotion on one file system -/

theorem mvStageToWork_calls {σ : Type} (E : Env σ) (stgFiles : stageFiles)
    (stageName : String) (p : Proc σ) :
    (mvStageToWork E stgFiles stageName p).2.calls
      = p.calls ++
          (if E.Stat p.fs (stgFiles.attr stageName "wfilename") = StatResult.found then
            (if E.Stat p.fs (stgFiles.attr stageName "pfilename") = StatResult.notExist then
              [Syscall.stat (stgFiles.attr stageName "wfilename"),
                Syscall.stat (stgFiles.attr stageName "pfilename"),
                Syscall.remove (stgFiles.attr stageName "wfilename"),
                Syscall.remove (stgFiles.attr stageName "sfilename")]
            else
              [Syscall.stat (stgFiles.attr stageName "wfilename"),
                Syscall.stat (stgFiles.attr stageName "pfilename"),
                Syscall.rename (stgFiles.attr stageName "sfilename")
                  (stgFiles.attr stageName "wfilename")])
          else
            [Syscall.stat (stgFiles.attr stageName "wfilename"),
              Syscall.rename (stgFiles.attr stageName "sfilename")
                (stgFiles.attr stageName "wfilename")]) := by
  unfold mvStageToWork removeDeleted moveStaged
  simp only [Proc.call, Proc.ErrorLog]
  cases E.Stat p.fs (stgFiles.attr stageName "wfilename") <;>
    cases E.Stat p.fs (stgFiles.attr stageName "pfilename") <;>
    cases (E.Rename p.fs (stgFiles.attr stageName "sfilename")
      (stgFiles.attr stageName "wfilename")).1 <;>
    cases h1 : (E.Remove p.fs (stgFiles.attr stageName "wfilename")).1 <;>
    cases h2 : (E.Remove (E.Remove p.fs (stgFiles.attr stageName "wfilename")).2
      (stgFiles.attr stageName "sfilename")).1 <;>
    simp [h1, h2]

/-- C20: on one file system, for every bundle that `collectStageFileInfo`
registers, the bundle is flagged deleted if and only if `os.Stat` finds its
active file and reports its distribution file as not existing, and if and only
if `mvStageToWork` takes the removal branch (stat, stat, remove of the active
file, remove of the staged file); otherwise `mvStageToWork` renames the staged
file onto the active file and removes nothing. -/
theorem mvStageToWork_removes_iff_deleted {σ : Type} (E : Env σ) (tuneApp : App)
    (stageName : String) (p : Proc σ)
    (h : stageName ∈ (collectStageFileInfo E p.fs tuneApp).AllStageFiles) :
    ((collectStageFileInfo E p.fs tuneApp).attr stageName "deleted" = "true"
      ↔ (E.Stat p.fs ((collectStageFileInfo E p.fs tuneApp).attr stageName "wfilename")
            = StatResult.found
          ∧ E.Stat p.fs ((collectStageFileInfo E p.fs tuneApp).attr stageName "pfilename")
            = StatResult.notExist))
    ∧ ((collectStageFileInfo E p.fs tuneApp).attr stageName "deleted" = "true"
      ↔ (mvStageToWork E (collectStageFileInfo E p.fs tuneApp) stageName p).2.calls
          = p.calls ++
            [Syscall.stat ((collectStageFileInfo E p.fs tuneApp).attr stageName "wfilename"),
              Syscall.stat ((collectStageFileInfo E p.fs tuneApp).attr stageName "pfilename"),
              Syscall.remove ((collectStageFileInfo E p.fs tuneApp).attr stageName "wfilename"),
              Syscall.remove
                ((collectStageFileInfo E p.fs tuneApp).attr stageName "sfilename")])
    ∧ ((collectStageFileInfo E p.fs tuneApp).attr stageName "deleted" ≠ "true"
      → ((mvStageToWork E (collectStageFileInfo E p.fs tuneApp) stageName p).2.calls
          = p.calls ++
            [Syscall.stat ((collectStageFileInfo E p.fs tuneApp).attr stageName "wfilename"),
              Syscall.rename ((collectStageFileInfo E p.fs tuneApp).attr stageName "sfilename")
                ((collectStageFileInfo E p.fs tuneApp).attr stageName "wfilename")]
        ∨ (mvStageToWork E (collectStageFileInfo E p.fs tuneApp) stageName p).2.calls
          = p.calls ++
            [Syscall.stat ((collectStageFileInfo E p.fs tuneApp).attr stageName "wfilename"),
              Syscall.stat ((collectStageFileInfo E p.fs tuneApp).attr stageName "pfilename"),
              Syscall.rename ((collectStageFileInfo E p.fs tuneApp).attr stageName "sfilename")
                ((collectStageFileInfo E p.fs tuneApp).attr stageName "wfilename")])) := by
  have hd : (collectStageFileInfo E p.fs tuneApp).attr stageName "deleted" = "true"
      ↔ (E.Stat p.fs ((collectStageFileInfo E p.fs tuneApp).attr stageName "wfilename")
            = StatResult.found
          ∧ E.Stat p.fs ((collectStageFileInfo E p.fs tuneApp).attr stageName "pfilename")
            = StatResult.notExist) := by
    rw [collectStageFileInfo_attr E p.fs tuneApp stageName "deleted" h,
      collectStageFileInfo_attr E p.fs tuneApp stageName "wfilename" h,
      collectStageFileInfo_attr E p.fs tuneApp stageName "pfilename" h,
      (collectStageMap_flags E p.fs tuneApp stageName).2.1]
    split <;> simp_all
  refine ⟨hd, ?_, ?_⟩
  · rw [hd, mvStageToWork_calls]
    cases E.Stat p.fs ((collectStageFileInfo E p.fs tuneApp).attr stageName "wfilename") <;>
      cases E.Stat p.fs ((collectStageFileInfo E p.fs tuneApp).attr stageName "pfilename") <;>
      simp
  · rw [ne_eq, hd, mvStageToWork_calls]
    cases E.Stat p.fs ((collectStageFileInfo E p.fs tuneApp).attr stageName "wfilename") <;>
      cases E.Stat p.fs ((collectStageFileInfo E p.fs tuneApp).attr stageName "pfilename") <;>
      simp

/-- Witness of C20 on the sample file system: 8888880 is registered. -/
theorem mvStageToWork_removes_iff_deleted_witness :
    "8888880" ∈ (collectStageFileInfo sampleEnv (Proc.start sampleFS []).fs sampleApp).AllStageFiles
    ∧ ((collectStageFileInfo sampleEnv (Proc.start sampleFS []).fs sampleApp).attr
          "8888880" "deleted" = "true"
      ↔ (sampleEnv.Stat (Proc.start sampleFS []).fs
            ((collectStageFileInfo sampleEnv (Proc.start sampleFS []).fs sampleApp).attr
              "8888880" "wfilename") = StatResult.found
          ∧ sampleEnv.Stat (Proc.start sampleFS []).fs
            ((collectStageFileInfo sampleEnv (Proc.start sampleFS []).fs sampleApp).attr
              "8888880" "pfilename") = StatResult.notExist)) :=
  ⟨by decide,
    (mvStageToWork_removes_iff_deleted sampleEnv sampleApp "8888880" (Proc.start sampleFS [])
      (by decide)).1⟩

/-! ## `db.go` and the block device schedulers -/

theorem toUint64_of_nonneg (n : Int) (h0 : 0 ≤ n) (h1 : n < 18446744073709551616) :
    ((toUint64 n : Nat) : Int) = n := by
  unfold toUint64
  rw [Int.emod_eq_of_lt h0 h1]
  exact Int.toNat_of_nonneg h0

/-- C13, as amended: when the rule file is parsed and the page-cache limit is
enabled, `Optimise` returns as target limit the override converted to `uint64`
when the override is not zero, which is the override itself when it is
positive; otherwise, when tuning for HANA is set, memory*2/100 in `uint64`
arithmetic, which is 2% of the memory for every memory size below 2^63 MB;
otherwise memory/16 clamped to 512 and 4096, so that in this last case the
target lies between 512 and 4096 inclusive. -/
theorem Optimise_enabled_limit {σ κ : Type} (E : NoteEnv σ κ) (sys : σ)
    (paging : LinuxPagingImprovements) (conf : κ)
    (hparse : E.ParseSysconfigFile sys
      (E.Join paging.SysconfigPrefix "/usr/share/saptune/notes/1557506") false = Except.ok conf)
    (hen : E.GetBool conf "ENABLE_PAGECACHE_LIMIT" false = true) :
    ∃ newPaging, LinuxPagingImprovements.Optimise E sys paging = Except.ok newPaging
      ∧ (E.GetInt conf "OVERRIDE_PAGECACHE_LIMIT_MB" 0 ≠ 0 →
          newPaging.VMPagecacheLimitMB = toUint64 (E.GetInt conf "OVERRIDE_PAGECACHE_LIMIT_MB" 0))
      ∧ (0 < E.GetInt conf "OVERRIDE_PAGECACHE_LIMIT_MB" 0 →
          E.GetInt conf "OVERRIDE_PAGECACHE_LIMIT_MB" 0 < 18446744073709551616 →
          (newPaging.VMPagecacheLimitMB : Int) = E.GetInt conf "OVERRIDE_PAGECACHE_LIMIT_MB" 0)
      ∧ (E.GetInt conf "OVERRIDE_PAGECACHE_LIMIT_MB" 0 = 0 →
          E.GetBool conf "TUNE_FOR_HANA" false = true →
          newPaging.VMPagecacheLimitMB
              = (E.GetMainMemSizeMB sys * 2 % 18446744073709551616) / 100
          ∧ (E.GetMainMemSizeMB sys < 9223372036854775808 →
              newPaging.VMPagecacheLimitMB = E.GetMainMemSizeMB sys * 2 / 100))
      ∧ (E.GetInt conf "OVERRIDE_PAGECACHE_LIMIT_MB" 0 = 0 →
          E.GetBool conf "TUNE_FOR_HANA" false = false →
          newPaging.VMPagecacheLimitMB = max 512 (min 4096 (E.GetMainMemSizeMB sys / 16))
          ∧ 512 ≤ newPaging.VMPagecacheLimitMB ∧ newPaging.VMPagecacheLimitMB ≤ 4096) := by
  unfold LinuxPagingImprovements.Optimise
  simp only [hparse, hen]
  refine ⟨_, rfl, ?_, ?_, ?_, ?_⟩
  · intro h
    simp [h]
  · intro h0 h1
    have hne : E.GetInt conf "OVERRIDE_PAGECACHE_LIMIT_MB" 0 ≠ 0 := ne_of_gt h0
    simp only [ne_eq, hne, not_false_eq_true, if_true, Bool.not_true, Bool.false_eq_true,
      if_false]
    exact toUint64_of_nonneg _ (le_of_lt h0) h1
  · intro h0 hh
    simp only [h0, hh]
    refine ⟨by simp, ?_⟩
    intro hm
    have : E.GetMainMemSizeMB sys * 2 % 18446744073709551616 = E.GetMainMemSizeMB sys * 2 :=
      Nat.mod_eq_of_lt (by omega)
    simp [this]
  · intro h0 hh
    simp only [h0, hh]
    simp only [ne_eq, not_true_eq_false, if_false, Bool.not_true, Bool.false_eq_true]
    split_ifs <;> omega


/-- Witness of C13 as amended: 64 GiB of memory, limit enabled, no override, not
HANA: the target is 4096. -/
theorem Optimise_enabled_limit_witness :
    sampleNoteEnv.ParseSysconfigFile (sampleSys 65536 (true, 0, false, 1))
        (sampleNoteEnv.Join samplePaging.SysconfigPrefix "/usr/share/saptune/notes/1557506")
        false = Except.ok (true, 0, false, 1)
    ∧ sampleNoteEnv.GetBool (true, 0, false, 1) "ENABLE_PAGECACHE_LIMIT" false = true
    ∧ ∃ newPaging, LinuxPagingImprovements.Optimise sampleNoteEnv
          (sampleSys 65536 (true, 0, false, 1)) samplePaging = Except.ok newPaging
        ∧ newPaging.VMPagecacheLimitMB = 4096 :=
  ⟨rfl, by decide,
    (Optimise_enabled_limit sampleNoteEnv (sampleSys 65536 (true, 0, false, 1)) samplePaging
      (true, 0, false, 1) rfl (by decide)).imp
      (fun _ h => ⟨h.1, (h.2.2.2.2 (by decide) (by decide)).1.trans (by decide)⟩)⟩

/-- Counterexample to C13 as stated: with the limit enabled and the override -1
the target is 18446744073709551615, not the override value; and with tuning
for HANA and a memory size of 2^63 MB the target is 0, not 2% of the memory. -/
theorem Optimise_negative_override_wraps :
    ((LinuxPagingImprovements.Optimise sampleNoteEnv (sampleSys 65536 (true, -1, false, 1))
        samplePaging).toOption.map (fun n => n.VMPagecacheLimitMB))
      = some 18446744073709551615
    ∧ ((LinuxPagingImprovements.Optimise sampleNoteEnv
        (sampleSys 9223372036854775808 (true, 0, true, 1))
        samplePaging).toOption.map (fun n => n.VMPagecacheLimitMB)) = some 0
    ∧ 9223372036854775808 * 2 / 100 = 184467440737095516 := by
  decide

/-- C14: when the rule file is parsed and the page-cache limit is disabled
(`GetBool("ENABLE_PAGECACHE_LIMIT", false)` is false), `Optimise` returns a
target limit of zero, for every memory size, every override, every setting of
the HANA flag and every limit the input state holds. -/
theorem Optimise_disabled_limit_zero {σ κ : Type} (E : NoteEnv σ κ) (sys : σ)
    (paging : LinuxPagingImprovements) (conf : κ)
    (hparse : E.ParseSysconfigFile sys
      (E.Join paging.SysconfigPrefix "/usr/share/saptune/notes/1557506") false = Except.ok conf)
    (hdis : E.GetBool conf "ENABLE_PAGECACHE_LIMIT" false = false) :
    ∃ newPaging, LinuxPagingImprovements.Optimise E sys paging = Except.ok newPaging
      ∧ newPaging.VMPagecacheLimitMB = 0 := by
  unfold LinuxPagingImprovements.Optimise
  simp only [hparse, hdis]
  exact ⟨_, rfl, by simp⟩

/-- Witness of C14: limit disabled, override 2048, HANA set, input limit 777. -/
theorem Optimise_disabled_limit_zero_witness :
    sampleNoteEnv.ParseSysconfigFile (sampleSys 65536 (false, 2048, true, 1))
        (sampleNoteEnv.Join { samplePaging with VMPagecacheLimitMB := 777 }.SysconfigPrefix
          "/usr/share/saptune/notes/1557506")
        false = Except.ok (false, 2048, true, 1)
    ∧ sampleNoteEnv.GetBool (false, 2048, true, 1) "ENABLE_PAGECACHE_LIMIT" false = false
    ∧ ∃ newPaging, LinuxPagingImprovements.Optimise sampleNoteEnv
          (sampleSys 65536 (false, 2048, true, 1))
          { samplePaging with VMPagecacheLimitMB := 777 } = Except.ok newPaging
        ∧ newPaging.VMPagecacheLimitMB = 0 :=
  ⟨rfl, by decide,
    Optimise_disabled_limit_zero sampleNoteEnv (sampleSys 65536 (false, 2048, true, 1))
      { samplePaging with VMPagecacheLimitMB := 777 } (false, 2048, true, 1) rfl (by decide)⟩

/-- C15: `Apply` issues both writes, the page-cache limit and then the
ignore-dirty setting, the second on the system the first left, whether the
first failed or not; the errors of both, in this order, are what
`sap.PrintErrors` is called with, and its result is returned. -/
theorem Apply_attempts_every_write {σ κ : Type} (E : NoteEnv σ κ) (sys : σ)
    (paging : LinuxPagingImprovements) :
    (LinuxPagingImprovements.Apply E sys paging).2.2
        = [SysctlWrite.uint64 E.SysctlPagecacheLimitMB paging.VMPagecacheLimitMB,
            SysctlWrite.int E.SysctlPagecacheLimitIgnoreDirty
              paging.VMPagecacheLimitIgnoreDirty]
    ∧ (LinuxPagingImprovements.Apply E sys paging).2.1
        = (E.SetSysctlInt
            (E.SetSysctlUint64 sys E.SysctlPagecacheLimitMB paging.VMPagecacheLimitMB).2
            E.SysctlPagecacheLimitIgnoreDirty paging.VMPagecacheLimitIgnoreDirty).2
    ∧ (LinuxPagingImprovements.Apply E sys paging).1
        = E.PrintErrors
            [(E.SetSysctlUint64 sys E.SysctlPagecacheLimitMB paging.VMPagecacheLimitMB).1,
              (E.SetSysctlInt
                (E.SetSysctlUint64 sys E.SysctlPagecacheLimitMB paging.VMPagecacheLimitMB).2
                E.SysctlPagecacheLimitIgnoreDirty paging.VMPagecacheLimitIgnoreDirty).1] :=
  ⟨rfl, rfl, rfl⟩

/-- `Apply` on a system that refuses the write of the limit: the ignore-dirty
setting is written all the same and the failure is reported. -/
theorem Apply_first_write_refused :
    (LinuxPagingImprovements.Apply sampleNoteEnv refusingSys tunedPaging).1
      = some "sysctl vm.pagecache_limit_mb: permission denied"
    ∧ (LinuxPagingImprovements.Apply sampleNoteEnv refusingSys tunedPaging).2.1.ignoreDirty = 1
    ∧ (LinuxPagingImprovements.Apply sampleNoteEnv refusingSys tunedPaging).2.1.limitMB = 0 := by
  decide

theorem foldl_insert_const_lookup (v : String) (l : List (String × String)) (m : GoMap String)
    (k : String) :
    (l.foldl (fun (m : GoMap String) e => m.insert e.1 v) m).lookup k
      = if k ∈ l.map Prod.fst then some v else m.lookup k := by
  induction l generalizing m with
  | nil => simp
  | cons e t ih =>
    rw [List.foldl_cons, ih]
    by_cases h1 : k ∈ t.map Prod.fst
    · simp [h1]
    · by_cases h2 : k = e.1
      · simp [h1, h2, GoMap.lookup_insert]
      · simp [h1, h2, GoMap.lookup_insert]

/-- C18: for every scheduler state with at least one device and no empty
device name, `Optimise("noop")` succeeds and returns a state whose device map
is not empty, has no empty device name and the devices of the input, and
assigns the elevator "noop" to every device. -/
theorem BlockDeviceSchedulers_Optimise_noop (ioe : BlockDeviceSchedulers)
    (h1 : ioe.SchedulerChoice.size ≠ 0)
    (h2 : ∀ name, name ∈ ioe.SchedulerChoice.keys → name ≠ "") :
    ∃ optimised, ioe.Optimise "noop" = Except.ok optimised
      ∧ optimised.SchedulerChoice.size ≠ 0
      ∧ (∀ name, name ∈ optimised.SchedulerChoice.keys → name ≠ "")
      ∧ (∀ name, name ∈ optimised.SchedulerChoice.keys →
          optimised.SchedulerChoice.lookup name = some "noop")
      ∧ (∀ name, name ∈ optimised.SchedulerChoice.keys ↔ name ∈ ioe.SchedulerChoice.keys) := by
  have hl := foldl_insert_const_lookup "noop" ioe.SchedulerChoice.entries GoMap.empty
  have hiff : ∀ name, name ∈ (ioe.SchedulerChoice.entries.foldl
      (fun (m : GoMap String) e => m.insert e.1 "noop") GoMap.empty).keys
      ↔ name ∈ ioe.SchedulerChoice.keys := by
    intro name
    rw [GoMap.mem_keys_iff, hl name]
    by_cases hk : name ∈ ioe.SchedulerChoice.entries.map Prod.fst
    · have hk2 : name ∈ ioe.SchedulerChoice.keys := hk
      simp [hk, hk2]
    · have hk2 : name ∉ ioe.SchedulerChoice.keys := hk
      simp [hk, hk2, GoMap.lookup_empty]
  refine ⟨_, rfl, ?_, ?_, ?_, hiff⟩
  · intro hsize
    have hk : ∃ k, k ∈ ioe.SchedulerChoice.keys := by
      unfold GoMap.size at h1
      cases he : ioe.SchedulerChoice.entries with
      | nil => simp [he] at h1
      | cons e t => exact ⟨e.1, by simp [GoMap.keys, he]⟩
    obtain ⟨k, hk⟩ := hk
    have hk3 := (hiff k).2 hk
    have hempty : (ioe.SchedulerChoice.entries.foldl
        (fun (m : GoMap String) e => m.insert e.1 "noop") GoMap.empty).entries = [] :=
      List.length_eq_zero.1 hsize
    simp [GoMap.keys, hempty] at hk3
  · intro name hn
    exact h2 name ((hiff name).1 hn)
  · intro name hn
    have hk : name ∈ ioe.SchedulerChoice.entries.map Prod.fst := (hiff name).1 hn
    have := hl name
    rw [if_pos hk] at this
    exact this

/-- Witness of C18: the devices sda and vda. -/
theorem BlockDeviceSchedulers_Optimise_noop_witness :
    sampleSchedulers.SchedulerChoice.size ≠ 0
    ∧ (∀ name, name ∈ sampleSchedulers.SchedulerChoice.keys → name ≠ "")
    ∧ ∃ optimised, sampleSchedulers.Optimise "noop" = Except.ok optimised
      ∧ optimised.SchedulerChoice.size ≠ 0
      ∧ (∀ name, name ∈ optimised.SchedulerChoice.keys → name ≠ "")
      ∧ (∀ name, name ∈ optimised.SchedulerChoice.keys →
          optimised.SchedulerChoice.lookup name = some "noop")
      ∧ (∀ name, name ∈ optimised.SchedulerChoice.keys
          ↔ name ∈ sampleSchedulers.SchedulerChoice.keys) :=
  ⟨by decide, by decide,
    BlockDeviceSchedulers_Optimise_noop sampleSchedulers (by decide) (by decide)⟩

/-! ## Rendering: `sortStageComparisonsOutput` and `PrintStageFields` -/

theorem leChars_total (a b : List Char) : leChars a b = true ∨ leChars b a = true := by
  induction a generalizing b with
  | nil => simp [leChars]
  | cons x s ih =>
    cases b with
    | nil => simp [leChars]
    | cons y t =>
      simp only [leChars]
      rcases Nat.lt_trichotomy x.toNat y.toNat with h | h | h
      · simp [h]
      · simp [h, ih t]
      · have h2 : ¬ x.toNat < y.toNat := by omega
        simp [h, h2]

theorem leChars_trans (a b c : List Char) (h1 : leChars a b = true) (h2 : leChars b c = true) :
    leChars a c = true := by
  induction a generalizing b c with
  | nil => simp [leChars]
  | cons x s ih =>
    cases b with
    | nil => simp [leChars] at h1
    | cons y t =>
      cases c with
      | nil => simp [leChars] at h2
      | cons z u =>
        simp only [leChars] at h1 h2 ⊢
        by_cases hxy : x.toNat < y.toNat
        · by_cases hyz : y.toNat < z.toNat
          · have : x.toNat < z.toNat := by omega
            simp [this]
          · simp only [hyz, if_false] at h2
            by_cases hzy : z.toNat < y.toNat
            · simp [hzy] at h2
            · have : x.toNat < z.toNat := by omega
              simp [this]
        · simp only [hxy, if_false] at h1
          by_cases hyx : y.toNat < x.toNat
          · simp [hyx] at h1
          · simp only [hyx, if_false] at h1
            by_cases hyz : y.toNat < z.toNat
            · have : x.toNat < z.toNat := by omega
              simp [this]
            · simp only [hyz, if_false] at h2
              by_cases hzy : z.toNat < y.toNat
              · simp [hzy] at h2
              · simp only [hzy, if_false] at h2
                have e1 : ¬ x.toNat < z.toNat := by omega
                have e2 : ¬ z.toNat < x.toNat := by omega
                simp only [e1, e2, if_false]
                exact ih t u h1 h2

theorem sortStrings_sorted (l : List String) :
    (sortStrings l).Pairwise (fun a b => leChars a.data b.data = true) :=
  @List.sorted_insertionSort String (fun (a b : String) => leChars a.data b.data = true) _
    ⟨fun a b => leChars_total a.data b.data⟩
    ⟨fun a b c => leChars_trans a.data b.data c.data⟩ l

theorem sortStrings_perm (l : List String) : (sortStrings l).Perm l :=
  List.perm_insertionSort (fun (a b : String) => leChars a.data b.data = true) l

theorem sortKeys_split (l : List (String × stageComparison)) (acc : List String × List String) :
    l.foldl (fun (acc : List String × List String) e =>
        if e.1 ≠ "reminder" then (acc.1 ++ [e.1], acc.2) else (acc.1, acc.2 ++ [e.1])) acc
      = (acc.1 ++ (l.map Prod.fst).filter (fun k => k ≠ "reminder"),
          acc.2 ++ (l.map Prod.fst).filter (fun k => k = "reminder")) := by
  induction l generalizing acc with
  | nil => simp
  | cons e t ih =>
    rw [List.foldl_cons, ih]
    by_cases h : e.1 = "reminder" <;> simp [h]

theorem foldl_append_singleton (r l : List String) :
    r.foldl (fun skeys rem => skeys ++ [rem]) l = l ++ r := by
  induction r generalizing l with
  | nil => simp
  | cons a t ih => rw [List.foldl_cons, ih]; simp

theorem sortStageComparisonsOutput_eq (noteCompare : GoMap stageComparison) :
    sortStageComparisonsOutput noteCompare
      = sortStrings (noteCompare.keys.filter (fun k => k ≠ "reminder"))
          ++ noteCompare.keys.filter (fun k => k = "reminder") := by
  unfold sortStageComparisonsOutput
  simp only [sortKeys_split, foldl_append_singleton, List.nil_append]
  rfl

theorem filter_reminder (l : List String) (h : l.Nodup) :
    l.filter (fun k => k = "reminder") = if "reminder" ∈ l then ["reminder"] else [] := by
  induction l with
  | nil => simp
  | cons a t ih =>
    have ht : t.Nodup := (List.nodup_cons.1 h).2
    have ha : a ∉ t := (List.nodup_cons.1 h).1
    by_cases e : a = "reminder"
    · subst e
      have : List.filter (fun k => decide (k = "reminder")) t = [] := by
        rw [ih ht]; simp [ha]
      simp [List.filter, this]
    · have e2 : ¬ "reminder" = a := fun h => e h.symm
      simp [List.filter, e, e2, ih ht]

theorem sortStageComparisonsOutput_perm (noteCompare : GoMap stageComparison) :
    (sortStageComparisonsOutput noteCompare).Perm noteCompare.keys := by
  rw [sortStageComparisonsOutput_eq]
  have h1 := sortStrings_perm (noteCompare.keys.filter (fun k => k ≠ "reminder"))
  have h2 : (noteCompare.keys.filter (fun k => k ≠ "reminder")
      ++ noteCompare.keys.filter (fun k => k = "reminder")).Perm noteCompare.keys := by
    have := List.filter_append_perm (fun k => decide (k ≠ "reminder")) noteCompare.keys
    simpa using this
  exact (List.Perm.append_right _ h1).trans h2

/-- C16: for every comparison map, `sortStageComparisonsOutput` returns a list
that holds every key of the map exactly once: the keys other than "reminder" in
ascending order, followed by "reminder" when the map has this key. -/
theorem sortStageComparisonsOutput_sorted (noteCompare : GoMap stageComparison) :
    (sortStageComparisonsOutput noteCompare).Nodup
    ∧ (∀ k, k ∈ sortStageComparisonsOutput noteCompare ↔ k ∈ noteCompare.keys)
    ∧ (sortStageComparisonsOutput noteCompare).Perm noteCompare.keys
    ∧ ∃ sorted : List String,
        sortStageComparisonsOutput noteCompare
          = sorted ++ (if "reminder" ∈ noteCompare.keys then ["reminder"] else [])
        ∧ "reminder" ∉ sorted
        ∧ sorted.Pairwise (fun a b => leChars a.data b.data = true) := by
  have hperm := sortStageComparisonsOutput_perm noteCompare
  have hnodup : noteCompare.keys.Nodup := noteCompare.nodup
  refine ⟨hperm.nodup_iff.2 hnodup, fun k => hperm.mem_iff, hperm, ?_⟩
  refine ⟨sortStrings (noteCompare.keys.filter (fun k => k ≠ "reminder")), ?_, ?_, ?_⟩
  · rw [sortStageComparisonsOutput_eq, filter_reminder _ hnodup]
  · intro h
    have := (sortStrings_perm _).mem_iff.1 h
    simp at this
  · exact sortStrings_sorted _


theorem goByteSize_map_tab (l : List Char) :
    String.utf8ByteSize.go (l.map (fun c => if c = '\t' then ' ' else c))
      = String.utf8ByteSize.go l := by
  induction l with
  | nil => rfl
  | cons c t ih =>
    simp only [List.map_cons, String.utf8ByteSize.go, ih]
    by_cases h : c = '\t'
    · subst h; rfl
    · simp [h]

theorem len_replaceTabs (s : String) : len (replaceTabs s) = len s := by
  unfold len replaceTabs
  cases s with
  | mk l => exact goByteSize_map_tab l

theorem length_le_goByteSize (l : List Char) : l.length ≤ String.utf8ByteSize.go l := by
  induction l with
  | nil => simp [String.utf8ByteSize.go]
  | cons c t ih =>
    have := Char.utf8Size_pos c
    simp only [List.length_cons, String.utf8ByteSize.go]
    omega

theorem length_le_len (s : String) : s.length ≤ len s := by
  cases s with
  | mk l => exact length_le_goByteSize l

theorem stageTableWidths_fold (l : List (String × stageComparison)) (w0 : Nat × Nat × Nat) :
    w0.1 ≤ (l.foldl (fun (w : Nat × Nat × Nat) e =>
        ((if len e.1 > w.1 then len e.1 else w.1),
          (if len e.2.wrkVal > w.2.1 then len e.2.wrkVal else w.2.1),
          (if len e.2.stgVal > w.2.2 then len e.2.stgVal else w.2.2))) w0).1
    ∧ w0.2.1 ≤ (l.foldl (fun (w : Nat × Nat × Nat) e =>
        ((if len e.1 > w.1 then len e.1 else w.1),
          (if len e.2.wrkVal > w.2.1 then len e.2.wrkVal else w.2.1),
          (if len e.2.stgVal > w.2.2 then len e.2.stgVal else w.2.2))) w0).2.1
    ∧ w0.2.2 ≤ (l.foldl (fun (w : Nat × Nat × Nat) e =>
        ((if len e.1 > w.1 then len e.1 else w.1),
          (if len e.2.wrkVal > w.2.1 then len e.2.wrkVal else w.2.1),
          (if len e.2.stgVal > w.2.2 then len e.2.stgVal else w.2.2))) w0).2.2
    ∧ ∀ e ∈ l,
        len e.1 ≤ (l.foldl (fun (w : Nat × Nat × Nat) e =>
          ((if len e.1 > w.1 then len e.1 else w.1),
            (if len e.2.wrkVal > w.2.1 then len e.2.wrkVal else w.2.1),
            (if len e.2.stgVal > w.2.2 then len e.2.stgVal else w.2.2))) w0).1
        ∧ len e.2.wrkVal ≤ (l.foldl (fun (w : Nat × Nat × Nat) e =>
          ((if len e.1 > w.1 then len e.1 else w.1),
            (if len e.2.wrkVal > w.2.1 then len e.2.wrkVal else w.2.1),
            (if len e.2.stgVal > w.2.2 then len e.2.stgVal else w.2.2))) w0).2.1
        ∧ len e.2.stgVal ≤ (l.foldl (fun (w : Nat × Nat × Nat) e =>
          ((if len e.1 > w.1 then len e.1 else w.1),
            (if len e.2.wrkVal > w.2.1 then len e.2.wrkVal else w.2.1),
            (if len e.2.stgVal > w.2.2 then len e.2.stgVal else w.2.2))) w0).2.2 := by
  induction l generalizing w0 with
  | nil => simp
  | cons a t ih =>
    rw [List.foldl_cons]
    obtain ⟨i1, i2, i3, i4⟩ := ih
      ((if len a.1 > w0.1 then len a.1 else w0.1),
        (if len a.2.wrkVal > w0.2.1 then len a.2.wrkVal else w0.2.1),
        (if len a.2.stgVal > w0.2.2 then len a.2.stgVal else w0.2.2))
    simp only at i1 i2 i3
    refine ⟨?_, ?_, ?_, ?_⟩
    · refine le_trans ?_ i1; split <;> omega
    · refine le_trans ?_ i2; split <;> omega
    · refine le_trans ?_ i3; split <;> omega
    · intro e he
      rcases List.mem_cons.1 he with h | h
      · subst h
        refine ⟨le_trans ?_ i1, le_trans ?_ i2, le_trans ?_ i3⟩ <;> split <;> omega
      · exact i4 e h

theorem stageTableWidths_spec (comparison : GoMap stageComparison) :
    12 ≤ (stageTableWidths comparison).1
    ∧ 26 ≤ (stageTableWidths comparison).2.1
    ∧ 26 ≤ (stageTableWidths comparison).2.2
    ∧ ∀ e ∈ comparison.entries,
        len e.1 ≤ (stageTableWidths comparison).1
        ∧ len e.2.wrkVal ≤ (stageTableWidths comparison).2.1
        ∧ len e.2.stgVal ≤ (stageTableWidths comparison).2.2 :=
  stageTableWidths_fold comparison.entries (12, 26, 26)


theorem bodyCells_fit (comparison : GoMap stageComparison) (row : String × String × String)
    (h : row ∈ bodyCells comparison) :
    len row.1 ≤ (stageTableWidths comparison).1
    ∧ len row.2.1 ≤ (stageTableWidths comparison).2.1
    ∧ len row.2.2 ≤ (stageTableWidths comparison).2.2 := by
  obtain ⟨w1, w2, w3, we⟩ := stageTableWidths_spec comparison
  unfold bodyCells at h
  obtain ⟨skey, hk, hrow⟩ := List.mem_map.1 h
  have hkeys : skey ∈ comparison.keys := (sortStageComparisonsOutput_perm comparison).mem_iff.1 hk
  have hsome := (GoMap.mem_keys_iff comparison skey).1 hkeys
  obtain ⟨c, hc⟩ := Option.isSome_iff_exists.1 hsome
  have hmem : (skey, c) ∈ comparison.entries := lookupEntry_mem skey c comparison.entries hc
  obtain ⟨e1, e2, e3⟩ := we (skey, c) hmem
  simp only at e1 e2 e3
  by_cases hr : skey = "reminder"
  · rw [if_pos hr] at hrow
    subst hrow
    refine ⟨e1, ?_, ?_⟩
    · have : len "diff need to be done" = 20 := by decide
      simp only [this]; omega
    · have : len "" = 0 := by decide
      simp only [this]; omega
  · rw [if_neg hr] at hrow
    subst hrow
    simp only [hc, Option.getD_some, len_replaceTabs]
    exact ⟨e1, e2, e3⟩

/-- The widths the loop of `setupStageTableFormat` ends with are attained: each is its
start value or the length of a measured text. -/
theorem stageTableWidths_fold_attained (l : List (String × stageComparison))
    (w0 : Nat × Nat × Nat) :
    ((l.foldl (fun (w : Nat × Nat × Nat) e =>
        ((if len e.1 > w.1 then len e.1 else w.1),
          (if len e.2.wrkVal > w.2.1 then len e.2.wrkVal else w.2.1),
          (if len e.2.stgVal > w.2.2 then len e.2.stgVal else w.2.2))) w0).1 = w0.1
      ∨ ∃ e ∈ l, (l.foldl (fun (w : Nat × Nat × Nat) e =>
        ((if len e.1 > w.1 then len e.1 else w.1),
          (if len e.2.wrkVal > w.2.1 then len e.2.wrkVal else w.2.1),
          (if len e.2.stgVal > w.2.2 then len e.2.stgVal else w.2.2))) w0).1 = len e.1)
    ∧ ((l.foldl (fun (w : Nat × Nat × Nat) e =>
        ((if len e.1 > w.1 then len e.1 else w.1),
          (if len e.2.wrkVal > w.2.1 then len e.2.wrkVal else w.2.1),
          (if len e.2.stgVal > w.2.2 then len e.2.stgVal else w.2.2))) w0).2.1 = w0.2.1
      ∨ ∃ e ∈ l, (l.foldl (fun (w : Nat × Nat × Nat) e =>
        ((if len e.1 > w.1 then len e.1 else w.1),
          (if len e.2.wrkVal > w.2.1 then len e.2.wrkVal else w.2.1),
          (if len e.2.stgVal > w.2.2 then len e.2.stgVal else w.2.2))) w0).2.1
            = len e.2.wrkVal)
    ∧ ((l.foldl (fun (w : Nat × Nat × Nat) e =>
        ((if len e.1 > w.1 then len e.1 else w.1),
          (if len e.2.wrkVal > w.2.1 then len e.2.wrkVal else w.2.1),
          (if len e.2.stgVal > w.2.2 then len e.2.stgVal else w.2.2))) w0).2.2 = w0.2.2
      ∨ ∃ e ∈ l, (l.foldl (fun (w : Nat × Nat × Nat) e =>
        ((if len e.1 > w.1 then len e.1 else w.1),
          (if len e.2.wrkVal > w.2.1 then len e.2.wrkVal else w.2.1),
          (if len e.2.stgVal > w.2.2 then len e.2.stgVal else w.2.2))) w0).2.2
            = len e.2.stgVal) := by
  induction l generalizing w0 with
  | nil => simp
  | cons a t ih =>
    rw [List.foldl_cons]
    obtain ⟨i1, i2, i3⟩ := ih
      ((if len a.1 > w0.1 then len a.1 else w0.1),
        (if len a.2.wrkVal > w0.2.1 then len a.2.wrkVal else w0.2.1),
        (if len a.2.stgVal > w0.2.2 then len a.2.stgVal else w0.2.2))
    simp only at i1 i2 i3
    refine ⟨?_, ?_, ?_⟩
    · rcases i1 with h | ⟨e, he, h⟩
      · by_cases hc : len a.1 > w0.1
        · exact Or.inr ⟨a, List.mem_cons_self _ _, h.trans (if_pos hc)⟩
        · exact Or.inl (h.trans (if_neg hc))
      · exact Or.inr ⟨e, List.mem_cons_of_mem _ he, h⟩
    · rcases i2 with h | ⟨e, he, h⟩
      · by_cases hc : len a.2.wrkVal > w0.2.1
        · exact Or.inr ⟨a, List.mem_cons_self _ _, h.trans (if_pos hc)⟩
        · exact Or.inl (h.trans (if_neg hc))
      · exact Or.inr ⟨e, List.mem_cons_of_mem _ he, h⟩
    · rcases i3 with h | ⟨e, he, h⟩
      · by_cases hc : len a.2.stgVal > w0.2.2
        · exact Or.inr ⟨a, List.mem_cons_self _ _, h.trans (if_pos hc)⟩
        · exact Or.inl (h.trans (if_neg hc))
      · exact Or.inr ⟨e, List.mem_cons_of_mem _ he, h⟩

/-- Each column width is the minimum width of the column or the length of a key, an active
value or a staged value of the comparison. -/
theorem stageTableWidths_attained (comparison : GoMap stageComparison) :
    ((stageTableWidths comparison).1 = 12
      ∨ ∃ e ∈ comparison.entries, (stageTableWidths comparison).1 = len e.1)
    ∧ ((stageTableWidths comparison).2.1 = 26
      ∨ ∃ e ∈ comparison.entries, (stageTableWidths comparison).2.1 = len e.2.wrkVal)
    ∧ ((stageTableWidths comparison).2.2 = 26
      ∨ ∃ e ∈ comparison.entries, (stageTableWidths comparison).2.2 = len e.2.stgVal) :=
  stageTableWidths_fold_attained comparison.entries (12, 26, 26)

/-- A text fits a column exactly when it is no longer than the minimum width of the
column or than one of the texts measured for it. -/
theorem fits_iff (n w w0 : Nat) (l : List (String × stageComparison))
    (f : String × stageComparison → Nat) (h0 : w0 ≤ w) (hall : ∀ e ∈ l, f e ≤ w)
    (hatt : w = w0 ∨ ∃ e ∈ l, w = f e) :
    n ≤ w ↔ (n ≤ w0 ∨ ∃ e ∈ l, n ≤ f e) := by
  constructor
  · intro h
    rcases hatt with h1 | ⟨e, he, h1⟩
    · exact Or.inl (by omega)
    · exact Or.inr ⟨e, he, by omega⟩
  · rintro (h | ⟨e, he, h⟩)
    · omega
    · exact le_trans h (hall e he)

/-- C17, as amended: `PrintStageFields` writes its cells through the format of
`setupStageTableFormat`, and for every comparison set and every bundle the
content of the area captions and of every body cell is no longer, in bytes and
in characters, than the width computed for its column.  The header cells
holding the bundle name and the two version headings are not measured: each
width is the largest of the minimum width of its column (12, 26 and 26) and
the lengths of the keys (active values, staged values) of the comparison, so
that a header cell is no longer than the width of its column exactly when it is
no longer than the minimum width or than some key (active value, staged value)
of the comparison; in particular it is when the bundle name has at most 12
bytes and a version heading at most 26. -/
theorem PrintStageFields_cells_fit {σ : Type} (E : Env σ) (fs : σ) (stgFiles : stageFiles)
    (stageName : String) (comparison : GoMap stageComparison) :
    PrintStageFields E fs stgFiles stageName comparison
        = [(setupStageTableFormat comparison).1,
            formatRow (stageTableWidths comparison) (headCells E fs stgFiles stageName),
            formatRow (stageTableWidths comparison) captionCells,
            (setupStageTableFormat comparison).2.1]
          ++ (bodyCells comparison).map (formatRow (stageTableWidths comparison))
          ++ [(setupStageTableFormat comparison).1, "\n"]
    ∧ (setupStageTableFormat comparison).2.2
        = " %-" ++ toString (stageTableWidths comparison).1 ++ "s | %-"
          ++ toString (stageTableWidths comparison).2.1 ++ "s | %-"
          ++ toString (stageTableWidths comparison).2.2 ++ "s \n"
    ∧ (∀ row, row ∈ captionCells :: bodyCells comparison →
        len row.1 ≤ (stageTableWidths comparison).1
        ∧ len row.2.1 ≤ (stageTableWidths comparison).2.1
        ∧ len row.2.2 ≤ (stageTableWidths comparison).2.2)
    ∧ (∀ row, row ∈ captionCells :: bodyCells comparison →
        row.1.length ≤ (stageTableWidths comparison).1
        ∧ row.2.1.length ≤ (stageTableWidths comparison).2.1
        ∧ row.2.2.length ≤ (stageTableWidths comparison).2.2)
    ∧ (len (headCells E fs stgFiles stageName).1 ≤ (stageTableWidths comparison).1
        ↔ (len (headCells E fs stgFiles stageName).1 ≤ 12
          ∨ ∃ e ∈ comparison.entries, len (headCells E fs stgFiles stageName).1 ≤ len e.1))
    ∧ (len (headCells E fs stgFiles stageName).2.1 ≤ (stageTableWidths comparison).2.1
        ↔ (len (headCells E fs stgFiles stageName).2.1 ≤ 26
          ∨ ∃ e ∈ comparison.entries,
              len (headCells E fs stgFiles stageName).2.1 ≤ len e.2.wrkVal))
    ∧ (len (headCells E fs stgFiles stageName).2.2 ≤ (stageTableWidths comparison).2.2
        ↔ (len (headCells E fs stgFiles stageName).2.2 ≤ 26
          ∨ ∃ e ∈ comparison.entries,
              len (headCells E fs stgFiles stageName).2.2 ≤ len e.2.stgVal))
    ∧ (len (headCells E fs stgFiles stageName).1 ≤ 12 →
        len (headCells E fs stgFiles stageName).1 ≤ (stageTableWidths comparison).1)
    ∧ (len (headCells E fs stgFiles stageName).2.1 ≤ 26 →
        len (headCells E fs stgFiles stageName).2.1 ≤ (stageTableWidths comparison).2.1)
    ∧ (len (headCells E fs stgFiles stageName).2.2 ≤ 26 →
        len (headCells E fs stgFiles stageName).2.2 ≤ (stageTableWidths comparison).2.2) := by
  obtain ⟨w1, w2, w3, wall⟩ := stageTableWidths_spec comparison
  obtain ⟨a1, a2, a3⟩ := stageTableWidths_attained comparison
  have hbytes : ∀ row, row ∈ captionCells :: bodyCells comparison →
      len row.1 ≤ (stageTableWidths comparison).1
      ∧ len row.2.1 ≤ (stageTableWidths comparison).2.1
      ∧ len row.2.2 ≤ (stageTableWidths comparison).2.2 := by
    intro row hrow
    rcases List.mem_cons.1 hrow with h | h
    · subst h
      have c1 : len captionCells.1 = 0 := by decide
      have c2 : len captionCells.2.1 = 14 := by decide
      have c3 : len captionCells.2.2 = 14 := by decide
      rw [c1, c2, c3]
      omega
    · exact bodyCells_fit comparison row h
  refine ⟨rfl, rfl, hbytes, ?_,
    fits_iff _ _ 12 comparison.entries (fun e => len e.1) w1 (fun e he => (wall e he).1) a1,
    fits_iff _ _ 26 comparison.entries (fun e => len e.2.wrkVal) w2
      (fun e he => (wall e he).2.1) a2,
    fits_iff _ _ 26 comparison.entries (fun e => len e.2.stgVal) w3
      (fun e he => (wall e he).2.2) a3,
    fun h => le_trans h w1, fun h => le_trans h w2, fun h => le_trans h w3⟩
  intro row hrow
  obtain ⟨b1, b2, b3⟩ := hbytes row hrow
  exact ⟨le_trans (length_le_len _) b1, le_trans (length_le_len _) b2,
    le_trans (length_le_len _) b3⟩

set_option maxRecDepth 20000 in
/-- Counterexample to C17 as stated: for the bundle SUSE-GUIDE-01 and a
comparison whose only key is "b", the first column is 12 wide and the header
cell holding the bundle name has 13 characters; the header line is one
character longer than the other lines of the table. -/
theorem PrintStageFields_header_overflows :
    (headCells sampleEnv sampleFS (flagged "SUSE-GUIDE-01" "updated") "SUSE-GUIDE-01").1
        = "SUSE-GUIDE-01"
    ∧ len (headCells sampleEnv sampleFS (flagged "SUSE-GUIDE-01" "updated") "SUSE-GUIDE-01").1
        = 13
    ∧ (headCells sampleEnv sampleFS (flagged "SUSE-GUIDE-01" "updated")
        "SUSE-GUIDE-01").1.length = 13
    ∧ (stageTableWidths sampleComparison).1 = 12
    ∧ (PrintStageFields sampleEnv sampleFS (flagged "SUSE-GUIDE-01" "updated") "SUSE-GUIDE-01"
        sampleComparison)
        = ["------------------------------------------------------------------------\n",
            " SUSE-GUIDE-01 | Version 7 (02.11.2020)     | Version  ()                \n",
            "              | (working area)             | (staging area)             \n",
            "--------------+----------------------------+----------------------------\n",
            " b            | 1                          | 2                          \n",
            "------------------------------------------------------------------------\n",
            "\n"] := by
  refine ⟨by decide, by decide, by decide, by decide, ?_⟩
  decide

/-! ## The notices of `printSolAnalysis` -/

/-- The last `n` characters of `a ++ b` are those of `b` when `b` has at least `n`. -/
theorem lastChars_append (a b : String) (n : Nat) (h : n ≤ b.length) :
    (a ++ b).data.reverse.take n = b.data.reverse.take n := by
  rw [String.data_append, List.reverse_append]
  exact List.take_append_of_le_length (by simpa using h)

/-- The 'enabled' notice and the 'now deleted' notice are different texts, whatever the names. -/
theorem solEnabled_ne_solDeleted (a b : String) :
    a ++ "' is enabled and must be re-applied.\n"
      ≠ b ++ "' is currently enabled, but now deleted. Must be reverted.\n" := by
  intro h
  have h2 := congrArg (fun s => s.data.reverse.take 5) h
  simp only at h2
  rw [lastChars_append a "' is enabled and must be re-applied.\n" 5 (by decide),
    lastChars_append b "' is currently enabled, but now deleted. Must be reverted.\n" 5
      (by decide)] at h2
  revert h2
  decide

/-- The 'requires releasing' notice is never the 'enabled' notice. -/
theorem solRequired_ne_solEnabled (a b : String) :
    a ++ "' or it breaks!\n" ≠ b ++ "' is enabled and must be re-applied.\n" := by
  intro h
  have h2 := congrArg (fun s => s.data.reverse.take 2) h
  simp only at h2
  rw [lastChars_append a "' or it breaks!\n" 2 (by decide),
    lastChars_append b "' is enabled and must be re-applied.\n" 2 (by decide)] at h2
  revert h2
  decide

/-- The 'requires releasing' notice is never the 'now deleted' notice. -/
theorem solRequired_ne_solDeleted (a b : String) :
    a ++ "' or it breaks!\n"
      ≠ b ++ "' is currently enabled, but now deleted. Must be reverted.\n" := by
  intro h
  have h2 := congrArg (fun s => s.data.reverse.take 2) h
  simp only at h2
  rw [lastChars_append a "' or it breaks!\n" 2 (by decide),
    lastChars_append b "' is currently enabled, but now deleted. Must be reverted.\n" 2
      (by decide)] at h2
  revert h2
  decide

/-- The innermost loop of `printSolAnalysis` keeps the counter and the count of a text it
never writes. -/
theorem requiredLoop_count (R : String → String) (a : String) (hR : ∀ y, R y ≠ a)
    (noteID : String) (files : List String) (acc : List String × Nat) :
    (files.foldl (fun (acc : List String × Nat) stgName =>
        if stgName = noteID then (acc.1 ++ [R stgName], acc.2) else acc) acc).2 = acc.2
    ∧ (files.foldl (fun (acc : List String × Nat) stgName =>
        if stgName = noteID then (acc.1 ++ [R stgName], acc.2) else acc) acc).1.count a
        = acc.1.count a := by
  induction files generalizing acc with
  | nil => simp
  | cons f t ih =>
    rw [List.foldl_cons]
    obtain ⟨i1, i2⟩ := ih (if f = noteID then (acc.1 ++ [R f], acc.2) else acc)
    rw [i1, i2]
    by_cases h : f = noteID
    · simp [h, List.count_append, List.count_singleton, hR noteID]
    · simp [h]

/-- The loop over the notes of one solution keeps the counter and the count of a text it
never writes. -/
theorem notesLoop_count (R : String → String) (a : String) (hR : ∀ y, R y ≠ a)
    (files : List String) (notes : List String) (acc : List String × Nat) :
    (notes.foldl (fun (acc : List String × Nat) noteID =>
        files.foldl (fun (acc : List String × Nat) stgName =>
          if stgName = noteID then (acc.1 ++ [R stgName], acc.2) else acc) acc) acc).2 = acc.2
    ∧ (notes.foldl (fun (acc : List String × Nat) noteID =>
        files.foldl (fun (acc : List String × Nat) stgName =>
          if stgName = noteID then (acc.1 ++ [R stgName], acc.2) else acc) acc) acc).1.count a
        = acc.1.count a := by
  induction notes generalizing acc with
  | nil => simp
  | cons n t ih =>
    rw [List.foldl_cons]
    obtain ⟨i1, i2⟩ := ih (files.foldl (fun (acc : List String × Nat) stgName =>
      if stgName = n then (acc.1 ++ [R stgName], acc.2) else acc) acc)
    obtain ⟨j1, j2⟩ := requiredLoop_count R a hR n files acc
    rw [i1, i2, j1, j2]
    exact ⟨rfl, rfl⟩

/-- The loop over the solutions of `printSolAnalysis`: the counter grows by the occurrences
of the enabled solution, and so does the count of its 'enabled' notice. -/
theorem solLoop_count (en : String) (E : String → String) (R : String → String → String)
    (a : String) (hR : ∀ x y, R x y ≠ a) (files : List String)
    (stageSols : GoMap (List String)) (sols : List String) (acc : List String × Nat) :
    (sols.foldl (fun (acc : List String × Nat) sol =>
        (stageSols.getList sol).foldl (fun (acc : List String × Nat) noteID =>
          files.foldl (fun (acc : List String × Nat) stgName =>
            if stgName = noteID then (acc.1 ++ [R sol stgName], acc.2) else acc) acc)
          (if sol = en then (acc.1 ++ [E sol], acc.2 + 1) else acc)) acc).2
        = acc.2 + sols.count en
    ∧ (sols.foldl (fun (acc : List String × Nat) sol =>
        (stageSols.getList sol).foldl (fun (acc : List String × Nat) noteID =>
          files.foldl (fun (acc : List String × Nat) stgName =>
            if stgName = noteID then (acc.1 ++ [R sol stgName], acc.2) else acc) acc)
          (if sol = en then (acc.1 ++ [E sol], acc.2 + 1) else acc)) acc).1.count a
        = acc.1.count a + (if E en = a then sols.count en else 0) := by
  induction sols generalizing acc with
  | nil => simp
  | cons s t ih =>
    rw [List.foldl_cons]
    obtain ⟨i1, i2⟩ := ih ((stageSols.getList s).foldl (fun (acc : List String × Nat) noteID =>
          files.foldl (fun (acc : List String × Nat) stgName =>
            if stgName = noteID then (acc.1 ++ [R s stgName], acc.2) else acc) acc)
          (if s = en then (acc.1 ++ [E s], acc.2 + 1) else acc))
    obtain ⟨j1, j2⟩ := notesLoop_count (R s) a (hR s) files (stageSols.getList s)
      (if s = en then (acc.1 ++ [E s], acc.2 + 1) else acc)
    rw [i1, i2, j1, j2]
    by_cases h : s = en
    · subst h
      by_cases ha : E s = a
      · simp [ha, List.count_append, List.count_singleton]
        omega
      · simp [ha, List.count_append, List.count_singleton]
        omega
    · have h2 : ¬ (s == en) = true := by simpa using h
      simp [h, List.count_cons, h2]


/-- A key occurs once in the sorted keys of a map, a string that is no key never. -/
theorem count_sortedKeys {V : Type} (m : GoMap V) (k : String) :
    (sortStrings m.keys).count k = if k ∈ m.keys then 1 else 0 := by
  rw [(sortStrings_perm m.keys).count_eq]
  have hn : m.keys.Nodup := m.nodup
  by_cases h : k ∈ m.keys
  · rw [if_pos h]; exact List.count_eq_one_of_mem hn h
  · rw [if_neg h]; exact List.count_eq_zero.2 h

/-- How often `printSolAnalysis` writes a text that is no 'requires releasing' notice. -/
theorem printSolAnalysis_count (stgFiles : stageFiles) (stageName txtLead : String)
    (stageSols : GoMap (List String)) (a : String)
    (hR : ∀ x y, txtLead ++ "Solution '" ++ x ++ "' requires releasing of '" ++ y
      ++ "' or it breaks!\n" ≠ a) :
    (printSolAnalysis stgFiles stageName txtLead stageSols).count a
      = (if txtLead ++ "Solution '" ++ stgFiles.attr stageName "enabledSol"
            ++ "' is enabled and must be re-applied.\n" = a
          then (if stgFiles.attr stageName "enabledSol" ∈ stageSols.keys then 1 else 0) else 0)
        + (if stgFiles.attr stageName "enabledSol" ≠ ""
              ∧ stgFiles.attr stageName "enabledSol" ∉ stageSols.keys
              ∧ txtLead ++ "Solution '" ++ stgFiles.attr stageName "enabledSol"
                ++ "' is currently enabled, but now deleted. Must be reverted.\n" = a
          then 1 else 0) := by
  obtain ⟨c1, c2⟩ := solLoop_count (stgFiles.attr stageName "enabledSol")
    (fun sol => txtLead ++ "Solution '" ++ sol ++ "' is enabled and must be re-applied.\n")
    (fun sol stgName => txtLead ++ "Solution '" ++ sol ++ "' requires releasing of '" ++ stgName
      ++ "' or it breaks!\n") a hR stgFiles.AllStageFiles stageSols (sortStrings stageSols.keys)
    ([], 0)
  simp only [count_sortedKeys, List.count_nil, Nat.zero_add] at c1 c2
  unfold printSolAnalysis
  simp only []
  rw [c1]
  by_cases hcond : stgFiles.attr stageName "enabledSol" ≠ ""
      ∧ (if stgFiles.attr stageName "enabledSol" ∈ stageSols.keys then 1 else 0) = 0
  · rw [if_pos hcond, List.count_append, c2]
    obtain ⟨he, hz⟩ := hcond
    have hk : stgFiles.attr stageName "enabledSol" ∉ stageSols.keys := by
      intro h; rw [if_pos h] at hz; exact absurd hz (by decide)
    simp [hk, he, List.count_singleton]
  · rw [if_neg hcond, c2]
    by_cases hk : stgFiles.attr stageName "enabledSol" ∈ stageSols.keys
    · simp [hk]
    · have he : stgFiles.attr stageName "enabledSol" = "" := by
        by_contra h
        exact hcond ⟨h, by rw [if_neg hk]⟩
      simp [hk, he]

/-- C12: in the analysis of the "solutions" pseudo-bundle, when a solution is enabled (the
attribute "enabledSol" is a name, so not the empty string) `printSolAnalysis` writes exactly
one of the two notices about it, exactly once: the 'is enabled and must be re-applied' notice
and never the 'now deleted' one when the enabled solution is a key of the staged definition,
the 'currently enabled, but now deleted. Must be reverted' notice and never the 'enabled' one
when it is not. When no solution is enabled (the attribute is the empty string, and the empty
string names no solution of the staged definition) neither notice is written, for any
solution name. -/
theorem printSolAnalysis_enabled_notices (stgFiles : stageFiles) (stageName txtLead : String)
    (stageSols : GoMap (List String)) :
    (stgFiles.attr stageName "enabledSol" ≠ "" →
      stgFiles.attr stageName "enabledSol" ∈ stageSols.keys →
      (printSolAnalysis stgFiles stageName txtLead stageSols).count
          (txtLead ++ "Solution '" ++ stgFiles.attr stageName "enabledSol"
            ++ "' is enabled and must be re-applied.\n") = 1
      ∧ (printSolAnalysis stgFiles stageName txtLead stageSols).count
          (txtLead ++ "Solution '" ++ stgFiles.attr stageName "enabledSol"
            ++ "' is currently enabled, but now deleted. Must be reverted.\n") = 0)
    ∧ (stgFiles.attr stageName "enabledSol" ≠ "" →
      stgFiles.attr stageName "enabledSol" ∉ stageSols.keys →
      (printSolAnalysis stgFiles stageName txtLead stageSols).count
          (txtLead ++ "Solution '" ++ stgFiles.attr stageName "enabledSol"
            ++ "' is enabled and must be re-applied.\n") = 0
      ∧ (printSolAnalysis stgFiles stageName txtLead stageSols).count
          (txtLead ++ "Solution '" ++ stgFiles.attr stageName "enabledSol"
            ++ "' is currently enabled, but now deleted. Must be reverted.\n") = 1)
    ∧ (stgFiles.attr stageName "enabledSol" = "" → "" ∉ stageSols.keys →
      ∀ sol : String,
        (printSolAnalysis stgFiles stageName txtLead stageSols).count
            (txtLead ++ "Solution '" ++ sol ++ "' is enabled and must be re-applied.\n") = 0
        ∧ (printSolAnalysis stgFiles stageName txtLead stageSols).count
            (txtLead ++ "Solution '" ++ sol
              ++ "' is currently enabled, but now deleted. Must be reverted.\n") = 0) := by
  have hE : ∀ s x y : String, txtLead ++ "Solution '" ++ x ++ "' requires releasing of '" ++ y
      ++ "' or it breaks!\n" ≠ txtLead ++ "Solution '" ++ s
        ++ "' is enabled and must be re-applied.\n" :=
    fun s x y => solRequired_ne_solEnabled _ _
  have hD : ∀ s x y : String, txtLead ++ "Solution '" ++ x ++ "' requires releasing of '" ++ y
      ++ "' or it breaks!\n" ≠ txtLead ++ "Solution '" ++ s
        ++ "' is currently enabled, but now deleted. Must be reverted.\n" :=
    fun s x y => solRequired_ne_solDeleted _ _
  have hED : ∀ s t : String, txtLead ++ "Solution '" ++ s
      ++ "' is enabled and must be re-applied.\n" ≠ txtLead ++ "Solution '" ++ t
        ++ "' is currently enabled, but now deleted. Must be reverted.\n" :=
    fun s t => solEnabled_ne_solDeleted _ _
  refine ⟨?_, ?_, ?_⟩
  · intro he hk
    rw [printSolAnalysis_count _ _ _ _ _ (hE _), printSolAnalysis_count _ _ _ _ _ (hD _)]
    simp [hk, hED]
  · intro he hk
    rw [printSolAnalysis_count _ _ _ _ _ (hE _), printSolAnalysis_count _ _ _ _ _ (hD _)]
    have hDE := fun s t => (hED s t).symm
    simp [hk, he, hED, hDE]
  · intro he hk sol
    rw [printSolAnalysis_count _ _ _ _ _ (hE _), printSolAnalysis_count _ _ _ _ _ (hD _)]
    simp [he, hk]

/-- Witness of C12 on the registry built on `solutionsFS`, where HANA is enabled: a staged
definition that knows HANA gets the 'enabled' notice once, a staged definition without HANA
gets the 'now deleted' notice once. -/
theorem printSolAnalysis_enabled_notices_witness :
    solutionsRegistry.attr "solutions" "enabledSol" = "HANA"
    ∧ (printSolAnalysis solutionsRegistry "solutions" "    --> "
        ((GoMap.empty.insert "HANA" ["941735", "1771258"]).insert "BOBJ" ["941735"])).count
          "    --> Solution 'HANA' is enabled and must be re-applied.\n" = 1
    ∧ (printSolAnalysis solutionsRegistry "solutions" "    --> "
        (GoMap.empty.insert "BOBJ" ["941735"])).count
          "    --> Solution 'HANA' is currently enabled, but now deleted. Must be reverted.\n"
        = 1 :=
  ⟨by decide,
    ((printSolAnalysis_enabled_notices solutionsRegistry "solutions" "    --> "
      ((GoMap.empty.insert "HANA" ["941735", "1771258"]).insert "BOBJ" ["941735"])).1
        (by decide) (by decide)).1,
    ((printSolAnalysis_enabled_notices solutionsRegistry "solutions" "    --> "
      (GoMap.empty.insert "BOBJ" ["941735"])).2.1 (by decide) (by decide)).2⟩

/-! ## The headline of `showAnalysis` -/

/-- Appending a detail line keeps the shape `head ++ details`. -/
theorem headThenDetails_append (lead : String) (head out : List String) (t : String)
    (h : headThenDetails lead head out) (ht : isDetail lead t) :
    headThenDetails lead head (out ++ [t]) := by
  obtain ⟨d, rfl, hd⟩ := h
  refine ⟨d ++ [t], by rw [List.append_assoc], ?_⟩
  intro x hx
  rcases List.mem_append.1 hx with hx | hx
  · exact hd x hx
  · rw [List.mem_singleton.1 hx]; exact ht

/-- A property every step of a loop keeps holds after the loop. -/
theorem foldl_keeps {α β : Type} (P : α → Prop) (f : α → β → α)
    (hf : ∀ a b, P a → P (f a b)) (l : List β) (a : α) (ha : P a) : P (l.foldl f a) := by
  induction l generalizing a with
  | nil => exact ha
  | cons x xs ih => exact ih _ (hf _ _ ha)

/-- A detail line of the analysis is no "Deletion of" headline. -/
theorem detail_ne_deletion (rest x : String) : "    --> " ++ rest ≠ "Deletion of " ++ x := by
  intro h
  have h2 := congrArg (fun s => s.data.head?) h
  simp [String.data_append] at h2

/-- A detail line of the analysis is no "Release of" headline. -/
theorem detail_ne_release (rest x : String) : "    --> " ++ rest ≠ "Release of " ++ x := by
  intro h
  have h2 := congrArg (fun s => s.data.head?) h
  simp [String.data_append] at h2

/-- Every line `printSolAnalysis` writes is a detail line. -/
theorem printSolAnalysis_details (stgFiles : stageFiles) (stageName txtLead : String)
    (stageSols : GoMap (List String)) :
    ∀ t ∈ printSolAnalysis stgFiles stageName txtLead stageSols, isDetail txtLead t := by
  have key : headThenDetails txtLead []
      (printSolAnalysis stgFiles stageName txtLead stageSols) := by
    unfold printSolAnalysis
    simp only []
    have hfold : headThenDetails txtLead []
        ((sortStrings stageSols.keys).foldl (fun (acc : List String × Nat) sol =>
          (stageSols.getList sol).foldl (fun (acc : List String × Nat) noteID =>
            stgFiles.AllStageFiles.foldl (fun (acc : List String × Nat) stgName =>
              if stgName = noteID then
                (acc.1 ++ [txtLead ++ "Solution '" ++ sol ++ "' requires releasing of '"
                  ++ stgName ++ "' or it breaks!\n"], acc.2)
              else acc) acc)
            (if sol = stgFiles.attr stageName "enabledSol"
              then (acc.1 ++ [txtLead ++ "Solution '" ++ sol
                ++ "' is enabled and must be re-applied.\n"], acc.2 + 1) else acc))
          ([], 0)).1 := by
      refine foldl_keeps (fun (acc : List String × Nat) => headThenDetails txtLead [] acc.1)
        _ ?_ _ _ ⟨[], rfl, by simp⟩
      intro acc sol hacc
      refine foldl_keeps (fun (acc : List String × Nat) => headThenDetails txtLead [] acc.1)
        _ ?_ _ _ ?_
      · intro acc noteID hacc
        refine foldl_keeps (fun (acc : List String × Nat) => headThenDetails txtLead [] acc.1)
          _ ?_ _ _ hacc
        intro acc stgName hacc
        by_cases h : stgName = noteID
        · simp only [h, if_true]
          exact headThenDetails_append _ _ _ _ hacc ⟨_, by simp only [String.append_assoc]; rfl⟩
        · simp only [h, if_false]; exact hacc
      · by_cases h : sol = stgFiles.attr stageName "enabledSol"
        · simp only [h, if_true]
          exact headThenDetails_append _ _ _ _ hacc ⟨_, by simp only [String.append_assoc]; rfl⟩
        · simp only [h, if_false]; exact hacc
    split
    · exact headThenDetails_append _ _ _ _ hfold ⟨_, by simp only [String.append_assoc]; rfl⟩
    · exact hfold
  obtain ⟨d, hd, hall⟩ := key
  rw [hd]
  simpa using hall

/-- What `printNoteAnalysis` writes: the headline "Deletion of <id>" when the flag is
"deleted" and no headline otherwise, then detail lines only. -/
theorem printNoteAnalysis_shape (stgFiles : stageFiles) (stageName txtLead flag : String) :
    headThenDetails txtLead
      (if flag = "deleted" then ["Deletion of " ++ stageName ++ "\n"] else [])
      (printNoteAnalysis stgFiles stageName txtLead flag) := by
  unfold printNoteAnalysis
  simp only [decide_eq_true_eq]
  have h0 : headThenDetails txtLead
      (if flag = "deleted" then ["Deletion of " ++ stageName ++ "\n"] else [])
      (if flag = "deleted" then ["Deletion of " ++ stageName ++ "\n"] else []) :=
    ⟨[], by simp, by simp⟩
  have happ := headThenDetails_append txtLead
    (if flag = "deleted" then ["Deletion of " ++ stageName ++ "\n"] else [])
  have hd : ∀ a b : String, isDetail txtLead (if flag = "deleted" then txtLead ++ a
      else txtLead ++ b) := by
    intro a b; split
    · exact ⟨_, rfl⟩
    · exact ⟨_, rfl⟩
  have hd2 : ∀ a b c d : String, isDetail txtLead
      (if flag = "deleted" then txtLead ++ a ++ b ++ c else txtLead ++ a ++ b ++ d) := by
    intro a b c d; split
    · exact ⟨_, by simp only [String.append_assoc]; rfl⟩
    · exact ⟨_, by simp only [String.append_assoc]; rfl⟩
  have h1 : headThenDetails txtLead
      (if flag = "deleted" then ["Deletion of " ++ stageName ++ "\n"] else [])
      (if stgFiles.attr stageName "override" = "true" then
        (if flag = "deleted" then ["Deletion of " ++ stageName ++ "\n"] else []) ++
          [if flag = "deleted" then txtLead ++ "Override file exists and can be deleted.\n"
            else txtLead ++ "Override file exists and might need adjustments.\n"]
       else if flag = "deleted" then ["Deletion of " ++ stageName ++ "\n"] else []) := by
    by_cases hov : stgFiles.attr stageName "override" = "true"
    · rw [if_pos hov]; exact happ _ _ h0 (hd _ _)
    · rw [if_neg hov]; exact h0
  generalize (if stgFiles.attr stageName "override" = "true" then
        (if flag = "deleted" then ["Deletion of " ++ stageName ++ "\n"] else []) ++
          [if flag = "deleted" then txtLead ++ "Override file exists and can be deleted.\n"
            else txtLead ++ "Override file exists and might need adjustments.\n"]
       else if flag = "deleted" then ["Deletion of " ++ stageName ++ "\n"] else []) = o1 at h1 ⊢
  have h2 : headThenDetails txtLead
      (if flag = "deleted" then ["Deletion of " ++ stageName ++ "\n"] else [])
      (if flag ≠ "new" then
        if stgFiles.attr stageName "applied" = "true" then
          o1 ++ [if flag = "deleted" then txtLead ++ "Note is enabled and must be reverted.\n"
            else txtLead ++ "Note is enabled and must be reapplied.\n"]
        else o1 ++ [txtLead ++ "Note is not enabled, no action required.\n"]
       else o1) := by
    by_cases hnew : flag ≠ "new"
    · rw [if_pos hnew]
      by_cases hap : stgFiles.attr stageName "applied" = "true"
      · rw [if_pos hap]; exact happ _ _ h1 (hd _ _)
      · rw [if_neg hap]; exact happ _ _ h1 ⟨_, rfl⟩
    · rw [if_neg hnew]; exact h1
  generalize (if flag ≠ "new" then
        if stgFiles.attr stageName "applied" = "true" then
          o1 ++ [if flag = "deleted" then txtLead ++ "Note is enabled and must be reverted.\n"
            else txtLead ++ "Note is enabled and must be reapplied.\n"]
        else o1 ++ [txtLead ++ "Note is not enabled, no action required.\n"]
       else o1) = o2 at h2 ⊢
  by_cases hin : stgFiles.attr stageName "inSolution" ≠ ""
  · rw [if_pos hin]
    refine foldl_keeps (headThenDetails txtLead
      (if flag = "deleted" then ["Deletion of " ++ stageName ++ "\n"] else [])) _ ?_ _ _ h2
    intro out sol hout
    by_cases hen : TrimSpace sol = stgFiles.attr stageName "enabledSol"
    · rw [if_pos hen]; exact happ _ _ hout (hd2 _ _ _ _)
    · rw [if_neg hen]; exact happ _ _ hout (hd2 _ _ _ _)
  · rw [if_neg hin]; exact h2


/-- The flag loop of `showAnalysis` yields "deleted" exactly for a bundle whose attribute
"deleted" is "true". -/
theorem stageFlag_deleted_iff (stgFiles : stageFiles) (stageName : String) :
    stageFlag stgFiles stageName = "deleted" ↔ stgFiles.attr stageName "deleted" = "true" := by
  unfold stageFlag
  by_cases hd : stgFiles.attr stageName "deleted" = "true"
  · simp [List.find?, hd]
  · by_cases hu : stgFiles.attr stageName "updated" = "true"
    · simp [List.find?, hd, hu]
    · by_cases hn : stgFiles.attr stageName "new" = "true"
      · simp [List.find?, hd, hu, hn]
      · simp [List.find?, hd, hu, hn]

/-- What holds of C11, Notes: for a bundle other than "solutions", `showAnalysis` writes
exactly one headline, first, followed by detail lines only; the headline is "Deletion of
<id>" when the bundle is flagged deleted and "Release of <id> Version <v> (<date>)"
otherwise. -/
theorem showAnalysis_note_headline {σ : Type} (E : Env σ) (stgFiles : stageFiles)
    (stageName : String) (p : Proc σ) (hne : stageName ≠ "") (hns : stageName ≠ "solutions") :
    ∃ details : List String,
      (showAnalysis E stgFiles stageName p).out
        = p.out ++ (if stgFiles.attr stageName "deleted" = "true"
            then "Deletion of " ++ stageName ++ "\n"
            else "Release of " ++ stageName ++ " Version " ++ stgFiles.attr stageName "version"
              ++ " (" ++ stgFiles.attr stageName "date" ++ ")\n") :: details
      ∧ ∀ t ∈ details, ∃ rest : String, t = "    --> " ++ rest := by
  obtain ⟨d, hd, hall⟩ := printNoteAnalysis_shape stgFiles stageName "    --> "
    (stageFlag stgFiles stageName)
  refine ⟨d, ?_, hall⟩
  unfold showAnalysis
  rw [if_neg hne]
  simp only [if_neg hns]
  rw [hd]
  by_cases hdel : stgFiles.attr stageName "deleted" = "true"
  · have hf := (stageFlag_deleted_iff stgFiles stageName).2 hdel
    simp [hf, hdel]
  · have hf : stageFlag stgFiles stageName ≠ "deleted" :=
      fun h => hdel ((stageFlag_deleted_iff stgFiles stageName).1 h)
    simp [hf, hdel, Proc.write]

/-- What holds of C11, solution definitions not flagged deleted: `showAnalysis` writes the
headline "Release of solutions Version <v> (<date>)" first, followed by the detail lines of
`printSolAnalysis`. -/
theorem showAnalysis_solutions_headline {σ : Type} (E : Env σ) (stgFiles : stageFiles)
    (p : Proc σ) (stageSols : GoMap (List String))
    (hdel : stgFiles.attr "solutions" "deleted" ≠ "true")
    (hsel : (E.GetSolutionDefintion p.fs (stgFiles.attr "solutions" "sfilename")).lookup
      E.GetSolutionSelector = some stageSols) :
    (showAnalysis E stgFiles "solutions" p).out
      = p.out ++ ("Release of solutions Version " ++ stgFiles.attr "solutions" "version"
          ++ " (" ++ stgFiles.attr "solutions" "date" ++ ")\n")
        :: printSolAnalysis stgFiles "solutions" "    --> " stageSols
    ∧ ∀ t ∈ printSolAnalysis stgFiles "solutions" "    --> " stageSols,
        ∃ rest : String, t = "    --> " ++ rest := by
  refine ⟨?_, printSolAnalysis_details _ _ _ _⟩
  have hf : stageFlag stgFiles "solutions" ≠ "deleted" :=
    fun h => hdel ((stageFlag_deleted_iff stgFiles "solutions").1 h)
  unfold showAnalysis
  rw [if_neg (by decide)]
  simp only [hf, ne_eq, not_false_eq_true, if_true, Proc.write]
  rw [hsel]
  simp

/-- C11, what the code does at the failing input: when the "solutions" pseudo-bundle is
flagged deleted (and the staged definition knows the architecture), `showAnalysis` writes
the lines of `printSolAnalysis` and nothing else; each of them is a detail line starting
with "    --> ", so neither the headline "Deletion of solutions" nor a headline "Release of
solutions Version <v> (<date>)" is written: the analysis has no headline. -/
theorem showAnalysis_deleted_solutions_no_headline {σ : Type} (E : Env σ)
    (stgFiles : stageFiles) (p : Proc σ) (stageSols : GoMap (List String))
    (hdel : stgFiles.attr "solutions" "deleted" = "true")
    (hsel : (E.GetSolutionDefintion p.fs (stgFiles.attr "solutions" "sfilename")).lookup
      E.GetSolutionSelector = some stageSols) :
    (showAnalysis E stgFiles "solutions" p).out
      = p.out ++ printSolAnalysis stgFiles "solutions" "    --> " stageSols
    ∧ (∀ t ∈ printSolAnalysis stgFiles "solutions" "    --> " stageSols,
        ∃ rest : String, t = "    --> " ++ rest)
    ∧ "Deletion of solutions\n" ∉ printSolAnalysis stgFiles "solutions" "    --> " stageSols
    ∧ ∀ vers date : String,
        "Release of solutions Version " ++ vers ++ " (" ++ date ++ ")\n"
          ∉ printSolAnalysis stgFiles "solutions" "    --> " stageSols := by
  have hdet := printSolAnalysis_details stgFiles "solutions" "    --> " stageSols
  refine ⟨?_, hdet, ?_, ?_⟩
  · have hf := (stageFlag_deleted_iff stgFiles "solutions").2 hdel
    unfold showAnalysis
    rw [if_neg (by decide)]
    simp only [hf, ne_eq, not_true_eq_false, if_false]
    rw [hsel]
    simp
  · intro hmem
    obtain ⟨rest, hr⟩ := hdet _ hmem
    exact detail_ne_deletion rest "solutions\n" hr.symm
  · intro vers date hmem
    obtain ⟨rest, hr⟩ := hdet _ hmem
    refine detail_ne_release rest ("solutions Version " ++ vers ++ " (" ++ date ++ ")\n") ?_
    rw [← hr]
    simp only [String.append_assoc]
    rfl

/-- Witness of the C11 evaluation: the solution definitions are staged and active but no
longer distributed, and the solution HANA is enabled; the analysis is one detail line. -/
theorem showAnalysis_deleted_solutions_no_headline_witness :
    solutionsRegistry.attr "solutions" "deleted" = "true"
    ∧ (solutionsEnv.GetSolutionDefintion (Proc.start solutionsFS []).fs
        (solutionsRegistry.attr "solutions" "sfilename")).lookup solutionsEnv.GetSolutionSelector
      = some ((GoMap.empty.insert "HANA" ["941735", "1771258"]).insert "BOBJ" ["941735"])
    ∧ (showAnalysis solutionsEnv solutionsRegistry "solutions" (Proc.start solutionsFS [])).out
        = ["    --> Solution 'HANA' is enabled and must be re-applied.\n"]
    ∧ "Deletion of solutions\n" ∉ printSolAnalysis solutionsRegistry "solutions" "    --> "
        ((GoMap.empty.insert "HANA" ["941735", "1771258"]).insert "BOBJ" ["941735"]) :=
  ⟨by decide, rfl, by decide,
    (showAnalysis_deleted_solutions_no_headline solutionsEnv solutionsRegistry
      (Proc.start solutionsFS [])
      ((GoMap.empty.insert "HANA" ["941735", "1771258"]).insert "BOBJ" ["941735"])
      (by decide) rfl).2.2.1⟩

/-- Witness of the Note headline. -/
theorem showAnalysis_note_headline_witness :
    ∃ details : List String,
      (showAnalysis sampleEnv sampleRegistry "8888880" (Proc.start sampleFS [])).out
        = (Proc.start sampleFS []).out ++ (if sampleRegistry.attr "8888880" "deleted" = "true"
            then "Deletion of " ++ "8888880" ++ "\n"
            else "Release of " ++ "8888880" ++ " Version "
              ++ sampleRegistry.attr "8888880" "version"
              ++ " (" ++ sampleRegistry.attr "8888880" "date" ++ ")\n") :: details
      ∧ ∀ t ∈ details, ∃ rest : String, t = "    --> " ++ rest :=
  showAnalysis_note_headline sampleEnv sampleRegistry "8888880" (Proc.start sampleFS [])
    (by decide) (by decide)

end Saptune
